import Mathlib

/-!
Wallet ledger and buy/sell settlement of the crypto-exchange backend

A shallow embedding of the request handlers in

* `src/controllers/cryptoController.js` (`buyCrypto`, `sellCrypto`, `getUserPortfolio`),
* `src/controllers/transactionController.js` (`depositFunds`, `withdrawFunds`),
* `src/controllers/userController.js` (`deleteAccount`),
* `src/routes/transactions.js` (`POST /api/transactions/buy`, `POST /api/transactions/sell`),
* `src/routes/users.js` (`POST /api/users/wallet/addFunds`),
* `src/utils/validator.js` (the express-validator chains for deposit and withdrawal,
  `validateCryptoAmount`, `validateWalletAddress`, `validateTransaction`).

Conventions of the embedding.

* A JavaScript `Number` that is finite is a rational (`ℚ`).  The handlers are
  first given with exact arithmetic, which is the arithmetic of JavaScript as
  long as no result is rounded.  The operator that can leave the finite
  numbers, `/`, is `jsDiv` and returns `none` for a zero divisor (the
  JavaScript result is then `NaN` or `±Infinity`).
* Rounding is `roundDouble`, the nearest IEEE double with ties to even; results
  are taken to stay in the finite range (below `2 ^ 1024` in magnitude).  The
  section `Rounded` gives the deposit, the withdrawal and the handlers of the
  ledger with a tracked supply once more with every arithmetic result rounded;
  the properties that compare the results of several operations (the round
  trip of a deposit and a withdrawal, the conservation of units) are stated
  there.
* A request body field that the handler uses as a number is a `ℚ`, a JSON
  number; on such a value `parseFloat` is the identity.  The routes of
  `routes/transactions.js` and `routes/users.js` use `amount` as it arrives,
  without `parseFloat`: for a JSON string the operator `+=` would concatenate,
  and the definitions do not cover such a request.
* A handler is a total function from the database before the request to the
  database after it together with the HTTP response.  An exception thrown
  inside the `try` block ends in the `catch` branch, `500 Server Error`, and
  keeps whatever had been saved before the throw.
* A collection is the list of its documents in insertion order.  `findOne`
  and `findById` return the first match; saving a document that was loaded
  replaces that document in place, saving a new document appends it.
* Database calls themselves do not fail.
-/

namespace CryptoExchange

/-! ## JavaScript helpers -/

/-- The operator `a / b` of JavaScript on finite numbers; `none` stands for the
non-finite results (`NaN`, `Infinity`, `-Infinity`) of a zero divisor. -/
def jsDiv (a b : ℚ) : Option ℚ :=
  if b = 0 then none else some (a / b)

/-- The method `String.prototype.toUpperCase` on a string of ASCII characters:
the letters `a` to `z` become capitals, every other character is kept.  Letters
outside ASCII, which JavaScript also maps, are kept as they are here, so the
definition stands for the method on ASCII symbols only. -/
def toUpperCase (s : String) : String :=
  ⟨s.data.map Char.toUpper⟩

/-- Replace the first element that satisfies `p` (saving a loaded document). -/
def replaceFirst {α : Type} (p : α → Bool) (new : α) : List α → List α
  | [] => []
  | x :: xs => if p x then new :: xs else x :: replaceFirst p new xs

/-! ## Documents of the controllers -/

/-- Modelled from the spec: the schema file `models/User` that the controllers
require (the one with `accountBalance`) is not among the sources; the fields
are the ones the handlers read and write.  `accountBalance` is the cash
balance of the account. -/
structure User where
  id : String
  accountBalance : ℚ
deriving DecidableEq, Repr

/-- Modelled from the spec: the schema file `models/UserWallet` is not among the
sources; the fields are the ones `buyCrypto` writes.  A wallet is the position
of one user in one symbol: `amount` is the quantity held, `purchaseValue` the
cost basis. -/
structure UserWallet where
  user : String
  symbol : String
  name : String
  amount : ℚ
  purchaseValue : ℚ
  averagePrice : Option ℚ
deriving DecidableEq, Repr

/-- The values of the field `type` of a transaction record. -/
inductive TxType where
  | buy
  | sell
  | deposit
  | withdraw
deriving DecidableEq, Repr

/-- Modelled from the spec: the schema file `models/CryptoTransaction` is not
among the sources; the fields are the ones the handlers pass to the
constructor (a field a handler leaves out is `none`). -/
structure CryptoTransaction where
  user : String
  type : TxType
  symbol : Option String
  amount : ℚ
  price : Option ℚ
  totalValue : ℚ
  paymentMethod : Option String
  details : Option String
deriving DecidableEq, Repr

/-- The three collections the controllers work on. -/
structure Db where
  users : List User
  wallets : List UserWallet
  transactions : List CryptoTransaction
deriving DecidableEq, Repr

/-- The part of a quote of the price service that the handlers read:
`coinData.name` and `coinData.quote.USD.price`. -/
structure CoinData where
  name : String
  price : ℚ
deriving DecidableEq, Repr

/-- The answer of the price service to one request: the entry of
`response.data.data` under a symbol, `none` when the call throws or the entry
is missing. -/
abbrev Quote := String → Option CoinData

/-- What a handler sends back. -/
inductive Response where
  /-- The reply `res.json({ msg, transaction })`. -/
  | success (msg : String) (transaction : CryptoTransaction)
  /-- The replies `res.status(status).json({ msg })` and `res.status(500).send(msg)`. -/
  | failure (status : Nat) (msg : String)
  /-- The reply `res.status(400).json({ errors })`. -/
  | invalid (errors : List String)
deriving DecidableEq, Repr

/-- The reply of every `catch` branch. -/
def serverError : Response := .failure 500 "Server Error"

/-- The query `User.findById(id)`. -/
def findById (users : List User) (id : String) : Option User :=
  users.find? (fun u => u.id = id)

/-- The call `user.save()` on a loaded user. -/
def saveUser (users : List User) (user : User) : List User :=
  replaceFirst (fun u => u.id = user.id) user users

/-- The query `UserWallet.findOne({ user, symbol })`. -/
def findOne (wallets : List UserWallet) (user symbol : String) : Option UserWallet :=
  wallets.find? (fun w => w.user = user ∧ w.symbol = symbol)

/-- The call `wallet.save()` on a loaded wallet. -/
def saveWallet (wallets : List UserWallet) (wallet : UserWallet) : List UserWallet :=
  replaceFirst (fun w => w.user = wallet.user ∧ w.symbol = wallet.symbol) wallet wallets

/-- The call `UserWallet.findByIdAndDelete(wallet._id)` on a loaded wallet. -/
def deleteWallet (wallets : List UserWallet) (wallet : UserWallet) : List UserWallet :=
  wallets.eraseP (fun w => w.user = wallet.user ∧ w.symbol = wallet.symbol)

/-! ## `controllers/cryptoController.js` -/

/-- The body of `POST /api/crypto/buy`. -/
structure BuyBody where
  symbol : String
  amount : ℚ
  paymentMethod : String
deriving DecidableEq, Repr

/-- The body of `POST /api/crypto/sell`. -/
structure SellBody where
  symbol : String
  amount : ℚ
deriving DecidableEq, Repr

/-- The handler `exports.buyCrypto`; `uid` is `req.user.id`. -/
def buyCrypto (quote : Quote) (uid : String) (body : BuyBody) (db : Db) : Db × Response :=
  match quote (toUpperCase body.symbol) with
  | none => (db, serverError)
  | some coinData =>
    let price := coinData.price
    let totalCost := price * body.amount
    let user := findById db.users uid
    let wallets :=
      match findOne db.wallets uid (toUpperCase body.symbol) with
      | some wallet =>
        let newTotalCost := wallet.purchaseValue + totalCost
        let newTotalAmount := wallet.amount + body.amount
        saveWallet db.wallets
          { wallet with
            amount := newTotalAmount
            purchaseValue := newTotalCost
            averagePrice := jsDiv newTotalCost newTotalAmount }
      | none =>
        db.wallets ++
          [{ user := uid
             symbol := toUpperCase body.symbol
             name := coinData.name
             amount := body.amount
             purchaseValue := totalCost
             averagePrice := some price }]
    let transaction : CryptoTransaction :=
      { user := uid
        type := .buy
        symbol := some (toUpperCase body.symbol)
        amount := body.amount
        price := some price
        totalValue := totalCost
        paymentMethod := some body.paymentMethod
        details := none }
    if body.paymentMethod = "balance" then
      match user with
      | none => (db, serverError)
      | some user =>
        if user.accountBalance < totalCost then
          (db, .failure 400 "Insufficient funds")
        else
          ({ users := saveUser db.users
               { user with accountBalance := user.accountBalance - totalCost }
             wallets := wallets
             transactions := db.transactions ++ [transaction] },
           .success "Purchase successful" transaction)
    else
      ({ db with
         wallets := wallets
         transactions := db.transactions ++ [transaction] },
       .success "Purchase successful" transaction)

/-- The handler `exports.sellCrypto`; `uid` is `req.user.id`.  The wallet is
saved or deleted before the user is loaded, so a missing user document leaves
the changed wallet behind. -/
def sellCrypto (quote : Quote) (uid : String) (body : SellBody) (db : Db) : Db × Response :=
  match findOne db.wallets uid (toUpperCase body.symbol) with
  | none => (db, .failure 400 "Insufficient crypto balance")
  | some wallet =>
    if wallet.amount < body.amount then
      (db, .failure 400 "Insufficient crypto balance")
    else
      match quote (toUpperCase body.symbol) with
      | none => (db, serverError)
      | some coinData =>
        let price := coinData.price
        let totalValue := price * body.amount
        let wallet := { wallet with amount := wallet.amount - body.amount }
        let wallets :=
          if wallet.amount ≤ 0 then deleteWallet db.wallets wallet
          else saveWallet db.wallets wallet
        match findById db.users uid with
        | none => ({ db with wallets := wallets }, serverError)
        | some user =>
          let transaction : CryptoTransaction :=
            { user := uid
              type := .sell
              symbol := some (toUpperCase body.symbol)
              amount := body.amount
              price := some price
              totalValue := totalValue
              paymentMethod := none
              details := none }
          ({ users := saveUser db.users
               { user with accountBalance := user.accountBalance + totalValue }
             wallets := wallets
             transactions := db.transactions ++ [transaction] },
           .success "Sale successful" transaction)

/-! ## `controllers/transactionController.js` and `utils/validator.js` -/

/-- The body of `POST /api/transactions/deposit`. -/
structure DepositBody where
  amount : ℚ
  paymentMethod : String
deriving DecidableEq, Repr

/-- The body of `POST /api/transactions/withdraw`. -/
structure WithdrawBody where
  amount : ℚ
  withdrawMethod : String
  accountDetails : String
deriving DecidableEq, Repr

/-- The chain `validators.depositValidation`: the messages of the checks that
fail (`isFloat({ min: 1 })` on `amount`, `isIn` on `paymentMethod`). -/
def depositValidation (body : DepositBody) : List String :=
  (if 1 ≤ body.amount then [] else ["Amount must be a positive number"]) ++
  (if body.paymentMethod ∈ ["credit_card", "bank_transfer", "paypal"] then []
   else ["Payment method is required"])

/-- The chain `validators.withdrawValidation`: the messages of the checks that
fail (`isFloat({ min: 1 })` on `amount`, `isIn` on `withdrawMethod`,
`not().isEmpty()` on `accountDetails`). -/
def withdrawValidation (body : WithdrawBody) : List String :=
  (if 1 ≤ body.amount then [] else ["Amount must be a positive number"]) ++
  (if body.withdrawMethod ∈ ["bank_transfer", "paypal", "crypto"] then []
   else ["Withdrawal method is required"]) ++
  (if body.accountDetails ≠ "" then [] else ["Account details are required"])

/-- The handler `exports.depositFunds`; `errors` is `validationResult(req)`, the
messages recorded by the validation chains that ran before the handler (the
route file that chains them is not among the sources).  The sum is exact;
`Rounded.depositFunds` rounds it. -/
def depositFunds (errors : List String) (uid : String) (body : DepositBody) (db : Db) :
    Db × Response :=
  if ¬ errors.isEmpty then (db, .invalid errors)
  else
    match findById db.users uid with
    | none => (db, serverError)
    | some user =>
      let transaction : CryptoTransaction :=
        { user := uid
          type := .deposit
          symbol := none
          amount := body.amount
          price := none
          totalValue := body.amount
          paymentMethod := some body.paymentMethod
          details := none }
      ({ db with
         users := saveUser db.users
           { user with accountBalance := user.accountBalance + body.amount }
         transactions := db.transactions ++ [transaction] },
       .success "Deposit successful" transaction)

/-- The handler `exports.withdrawFunds`; `errors` is `validationResult(req)`, as
for `depositFunds`.  The difference is exact; `Rounded.withdrawFunds` rounds
it. -/
def withdrawFunds (errors : List String) (uid : String) (body : WithdrawBody) (db : Db) :
    Db × Response :=
  if ¬ errors.isEmpty then (db, .invalid errors)
  else
    match findById db.users uid with
    | none => (db, serverError)
    | some user =>
      if user.accountBalance < body.amount then
        (db, .failure 400 "Insufficient funds")
      else
        let transaction : CryptoTransaction :=
          { user := uid
            type := .withdraw
            symbol := none
            amount := body.amount
            price := none
            totalValue := body.amount
            paymentMethod := some body.withdrawMethod
            details := some body.accountDetails }
        ({ db with
           users := saveUser db.users
             { user with accountBalance := user.accountBalance - body.amount }
           transactions := db.transactions ++ [transaction] },
         .success "Withdrawal initiated" transaction)

/-! ## `routes/transactions.js`: the ledger with a tracked supply -/

namespace Routes

/-- An element of `wallet.cryptoHoldings` (`models/User.js`). -/
structure Holding where
  cryptoId : String
  amount : ℚ
deriving DecidableEq, Repr

/-- The field `wallet` of a user (`models/User.js`). -/
structure Wallet where
  balance : ℚ
  cryptoHoldings : List Holding
deriving DecidableEq, Repr

/-- A user document of `models/User.js`, reduced to the fields the two routes
use. -/
structure User where
  id : String
  wallet : Wallet
deriving DecidableEq, Repr

/-- A document of `models/Cryptocurrency.js`, reduced to the fields the two
routes use. -/
structure Cryptocurrency where
  id : String
  currentPrice : ℚ
  availableSupply : ℚ
deriving DecidableEq, Repr

/-- The values of the field `type` of `models/Transaction.js`. -/
inductive TransactionType where
  | buy
  | sell
deriving DecidableEq, Repr

/-- A document of `models/Transaction.js` (without the timestamp). -/
structure Transaction where
  userId : String
  cryptoId : String
  type : TransactionType
  amount : ℚ
  price : ℚ
deriving DecidableEq, Repr

/-- The three collections of the routes. -/
structure Db where
  users : List User
  cryptocurrencies : List Cryptocurrency
  transactions : List Transaction
deriving DecidableEq, Repr

/-- What a route sends back. -/
inductive Response where
  /-- The reply `res.json({ transaction, wallet, cryptocurrency })`. -/
  | ok (transaction : Transaction) (wallet : Wallet) (cryptocurrency : Cryptocurrency)
  /-- The reply `res.status(status).json({ msg })`. -/
  | failure (status : Nat) (msg : String)
deriving DecidableEq, Repr

/-- Apply `f` to the first element that satisfies `p`: the update
`xs[xs.findIndex(p)] = f(xs[xs.findIndex(p)])` when the index is not `-1`. -/
def modifyFirst {α : Type} (p : α → Bool) (f : α → α) : List α → List α
  | [] => []
  | x :: xs => if p x then f x :: xs else x :: modifyFirst p f xs

/-- The handler of `POST /api/transactions/buy` for an `amount` that is a JSON
number; `uid` is `req.user.id`.  The arithmetic is exact; `Rounded.postBuy`
rounds it. -/
def postBuy (uid cryptoId : String) (amount : ℚ) (db : Db) : Db × Response :=
  if amount = 0 ∨ amount ≤ 0 then (db, .failure 400 "Invalid amount")
  else
    match db.users.find? (fun u => u.id = uid) with
    | none => (db, .failure 404 "User not found")
    | some user =>
      match db.cryptocurrencies.find? (fun c => c.id = cryptoId) with
      | none => (db, .failure 404 "Cryptocurrency not found")
      | some cryptocurrency =>
        let totalCost := amount * cryptocurrency.currentPrice
        if user.wallet.balance < totalCost then
          (db, .failure 400 "Insufficient balance")
        else if cryptocurrency.availableSupply < amount then
          (db, .failure 400 "Insufficient cryptocurrency supply")
        else
          let transaction : Transaction :=
            { userId := user.id
              cryptoId := cryptocurrency.id
              type := .buy
              amount := amount
              price := cryptocurrency.currentPrice }
          let holdings :=
            match user.wallet.cryptoHoldings.find? (fun h => h.cryptoId = cryptoId) with
            | some _ =>
              modifyFirst (fun h => h.cryptoId = cryptoId)
                (fun h => { h with amount := h.amount + amount }) user.wallet.cryptoHoldings
            | none => user.wallet.cryptoHoldings ++ [{ cryptoId := cryptoId, amount := amount }]
          let user : User :=
            { user with
              wallet := { balance := user.wallet.balance - totalCost, cryptoHoldings := holdings } }
          let cryptocurrency : Cryptocurrency :=
            { cryptocurrency with availableSupply := cryptocurrency.availableSupply - amount }
          ({ users := replaceFirst (fun u => u.id = user.id) user db.users
             cryptocurrencies :=
               replaceFirst (fun c => c.id = cryptocurrency.id) cryptocurrency db.cryptocurrencies
             transactions := db.transactions ++ [transaction] },
           .ok transaction user.wallet cryptocurrency)

/-- The handler of `POST /api/transactions/sell` for an `amount` that is a JSON
number; `uid` is `req.user.id`.  The arithmetic is exact; `Rounded.postSell`
rounds it. -/
def postSell (uid cryptoId : String) (amount : ℚ) (db : Db) : Db × Response :=
  if amount = 0 ∨ amount ≤ 0 then (db, .failure 400 "Invalid amount")
  else
    match db.users.find? (fun u => u.id = uid) with
    | none => (db, .failure 404 "User not found")
    | some user =>
      match db.cryptocurrencies.find? (fun c => c.id = cryptoId) with
      | none => (db, .failure 404 "Cryptocurrency not found")
      | some cryptocurrency =>
        match user.wallet.cryptoHoldings.find? (fun h => h.cryptoId = cryptoId) with
        | none => (db, .failure 400 "Insufficient cryptocurrency balance")
        | some holding =>
          if holding.amount < amount then
            (db, .failure 400 "Insufficient cryptocurrency balance")
          else
            let totalEarnings := amount * cryptocurrency.currentPrice
            let transaction : Transaction :=
              { userId := user.id
                cryptoId := cryptocurrency.id
                type := .sell
                amount := amount
                price := cryptocurrency.currentPrice }
            let holdings :=
              if holding.amount - amount = 0 then
                user.wallet.cryptoHoldings.eraseP (fun h => h.cryptoId = cryptoId)
              else
                modifyFirst (fun h => h.cryptoId = cryptoId)
                  (fun h => { h with amount := h.amount - amount }) user.wallet.cryptoHoldings
            let user : User :=
              { user with
                wallet :=
                  { balance := user.wallet.balance + totalEarnings, cryptoHoldings := holdings } }
            let cryptocurrency : Cryptocurrency :=
              { cryptocurrency with availableSupply := cryptocurrency.availableSupply + amount }
            ({ users := replaceFirst (fun u => u.id = user.id) user db.users
               cryptocurrencies :=
                 replaceFirst (fun c => c.id = cryptocurrency.id) cryptocurrency
                   db.cryptocurrencies
               transactions := db.transactions ++ [transaction] },
             .ok transaction user.wallet cryptocurrency)

end Routes

/-! ## Sample data -/

/-- A quote of 100 for `BTC`. -/
def quote100 : Quote := fun symbol =>
  if symbol = "BTC" then some { name := "Bitcoin", price := 100 } else none

/-- A quote of 200 for `BTC`. -/
def quote200 : Quote := fun symbol =>
  if symbol = "BTC" then some { name := "Bitcoin", price := 200 } else none

/-- One user with a balance of 1000 and no wallet. -/
def sampleDb : Db :=
  { users := [{ id := "u1", accountBalance := 1000 }], wallets := [], transactions := [] }

/-- One user with a balance of 0 who holds 2 BTC bought for 200. -/
def holderDb : Db :=
  { users := [{ id := "u1", accountBalance := 0 }]
    wallets := [{ user := "u1", symbol := "BTC", name := "Bitcoin", amount := 2,
                  purchaseValue := 200, averagePrice := some 100 }]
    transactions := [] }

/-- The request `{ symbol: "BTC", amount: 2, paymentMethod: "balance" }`. -/
def buyTwo : BuyBody := { symbol := "BTC", amount := 2, paymentMethod := "balance" }

/-- The request `{ symbol: "BTC", amount: 20, paymentMethod: "balance" }`. -/
def buyTwenty : BuyBody := { symbol := "BTC", amount := 20, paymentMethod := "balance" }

/-- The request `{ symbol: "BTC", amount: 1, paymentMethod: "credit_card" }`. -/
def buyOneByCard : BuyBody := { symbol := "BTC", amount := 1, paymentMethod := "credit_card" }

/-- The request `{ symbol: "BTC", amount: -1, paymentMethod: "balance" }`. -/
def buyMinusOne : BuyBody := { symbol := "BTC", amount := -1, paymentMethod := "balance" }

/-- The wallet of `holderDb`. -/
def holderWallet : UserWallet :=
  { user := "u1", symbol := "BTC", name := "Bitcoin", amount := 2,
    purchaseValue := 200, averagePrice := some 100 }

/-- The wallet that `buyOneByCard` at 100 creates. -/
def oneCoinWallet : UserWallet :=
  { user := "u1", symbol := "BTC", name := "Bitcoin", amount := 1,
    purchaseValue := 100, averagePrice := some 100 }

/-- The transaction that `buyTwo` at 100 records. -/
def buyTwoTransaction : CryptoTransaction :=
  { user := "u1", type := .buy, symbol := some "BTC", amount := 2, price := some 100,
    totalValue := 200, paymentMethod := some "balance", details := none }

/-- The transaction that `buyOneByCard` records at the given price. -/
def buyOneTransaction (price : ℚ) : CryptoTransaction :=
  { user := "u1", type := .buy, symbol := some "BTC", amount := 1, price := some price,
    totalValue := price, paymentMethod := some "credit_card", details := none }

/-- The transaction that a sell of `amount` BTC at 100 records. -/
def sellTransaction (amount : ℚ) : CryptoTransaction :=
  { user := "u1", type := .sell, symbol := some "BTC", amount := amount, price := some 100,
    totalValue := 100 * amount, paymentMethod := none, details := none }

/-! ## `getUserPortfolio` of `controllers/cryptoController.js` -/

/-- An element of the array `portfolio` that `getUserPortfolio` sends.
`profitPercentage` is `none` when the JavaScript number is not finite (`NaN`,
`Infinity`, `-Infinity`). -/
structure PortfolioEntry where
  coin : String
  name : String
  amount : ℚ
  currentPrice : ℚ
  value : ℚ
  purchaseValue : ℚ
  profit : ℚ
  profitPercentage : Option ℚ
deriving DecidableEq, Repr

/-- What `getUserPortfolio` sends back. -/
inductive PortfolioResponse where
  /-- The reply `res.json({ portfolio })`. -/
  | portfolio (entries : List PortfolioEntry)
  /-- The reply `res.status(500).send('Server Error')` of the `catch` branch. -/
  | serverError
deriving DecidableEq, Repr

/-- The object that the callback of `userWallets.map` returns for one wallet. -/
def portfolioEntry (coinData : CoinData) (wallet : UserWallet) : PortfolioEntry :=
  let currentPrice := coinData.price
  let value := wallet.amount * currentPrice
  { coin := wallet.symbol
    name := coinData.name
    amount := wallet.amount
    currentPrice := currentPrice
    value := value
    purchaseValue := wallet.purchaseValue
    profit := value - wallet.purchaseValue
    profitPercentage :=
      (jsDiv (value - wallet.purchaseValue) wallet.purchaseValue).map (fun x => x * 100) }

/-- The call `userWallets.map(wallet => ...)`: `none` when the quote has no
entry for the symbol of some wallet (reading `coinData.quote` then throws). -/
def portfolioOf (quote : Quote) : List UserWallet → Option (List PortfolioEntry)
  | [] => some []
  | wallet :: rest =>
    match quote wallet.symbol with
    | none => none
    | some coinData =>
      match portfolioOf quote rest with
      | none => none
      | some entries => some (portfolioEntry coinData wallet :: entries)

/-- The handler `exports.getUserPortfolio`; `uid` is `req.user.id`.  It saves
nothing. -/
def getUserPortfolio (quote : Quote) (uid : String) (db : Db) : Db × PortfolioResponse :=
  let userWallets := db.wallets.filter (fun w => w.user = uid)
  if userWallets.length = 0 then (db, .portfolio [])
  else
    match portfolioOf quote userWallets with
    | none => (db, .serverError)
    | some portfolio => (db, .portfolio portfolio)

/-! ## `deleteAccount` of `controllers/userController.js` -/

/-- What `deleteAccount` sends back. -/
inductive DeleteResponse where
  /-- The reply `res.json({ msg })`. -/
  | deleted (msg : String)
  /-- The reply `res.status(status).json({ msg })`. -/
  | failure (status : Nat) (msg : String)
deriving DecidableEq, Repr

/-- The handler `exports.deleteAccount`; `uid` is `req.user.id`. -/
def deleteAccount (uid : String) (db : Db) : Db × DeleteResponse :=
  let wallets := db.wallets.filter (fun w => w.user = uid)
  if wallets.length > 0 then
    (db, .failure 400
      "Cannot delete account with active crypto wallets. Please sell all assets first.")
  else
    ({ users := db.users.eraseP (fun u => u.id = uid)
       wallets := db.wallets.filter (fun w => ¬ w.user = uid)
       transactions := db.transactions.filter (fun t => ¬ t.user = uid) },
     .deleted "User account deleted successfully")

/-! ## The helpers of `utils/validator.js` -/

/-- The value of a property read `object[key]`, as far as the helpers use it: a
number of the literal, or something inherited from `Object.prototype` (a
function, or the prototype itself under `__proto__`). -/
inductive PropertyValue where
  | number (value : ℚ)
  | inherited
deriving DecidableEq, Repr

/-- The property names that every object literal inherits from
`Object.prototype`. -/
def objectPrototypeKeys : List String :=
  ["constructor", "__defineGetter__", "__defineSetter__", "hasOwnProperty",
   "__lookupGetter__", "__lookupSetter__", "isPrototypeOf", "propertyIsEnumerable",
   "toString", "valueOf", "__proto__", "toLocaleString"]

/-- The read `minimums[symbol]` on the literal of `validateCryptoAmount`; `none`
is `undefined`. -/
def minimums (symbol : String) : Option PropertyValue :=
  if symbol = "BTC" then some (.number (1 / 100000))
  else if symbol = "ETH" then some (.number (1 / 10000))
  else if symbol = "XRP" then some (.number 1)
  else if symbol = "ADA" then some (.number 1)
  else if symbol = "DOGE" then some (.number 1)
  else if symbol = "DEFAULT" then some (.number (1 / 1000000))
  else if symbol ∈ objectPrototypeKeys then some .inherited
  else none

/-- The helper `validateCryptoAmount`: `amount >= (minimums[symbol] ||
minimums.DEFAULT)`.  An inherited property is truthy and compares as `NaN`, so
`>=` is false. -/
def validateCryptoAmount (symbol : String) (amount : ℚ) : Bool :=
  match minimums symbol with
  | some (.number minAmount) =>
    if minAmount ≠ 0 then decide (minAmount ≤ amount) else decide (1 / 1000000 ≤ amount)
  | some .inherited => false
  | none => decide (1 / 1000000 ≤ amount)

/-- A character class of a regular expression, as a list of inclusive
ranges. -/
def inRanges (ranges : List (Char × Char)) (c : Char) : Bool :=
  ranges.any (fun r => decide (r.1 ≤ c) && decide (c ≤ r.2))

/-- The pattern `^prefix[class]{min,max}$` against a list of characters. -/
def matchesRun (pre : List Char) (ranges : List (Char × Char)) (min max : Nat)
    (cs : List Char) : Bool :=
  pre.isPrefixOf cs &&
    (decide (min ≤ (cs.drop pre.length).length) &&
      decide ((cs.drop pre.length).length ≤ max) &&
      (cs.drop pre.length).all (inRanges ranges))

/-- The class `[a-km-zA-HJ-NP-Z1-9]` (base 58). -/
def base58 : List (Char × Char) :=
  [('a', 'k'), ('m', 'z'), ('A', 'H'), ('J', 'N'), ('P', 'Z'), ('1', '9')]

/-- The read `patterns[symbol]` of `validateWalletAddress` followed by
`.test(address)`, for the six symbols of the literal. -/
def testPattern (symbol : String) (address : List Char) : Option Bool :=
  if symbol = "BTC" then
    some (matchesRun ['1'] base58 25 34 address || matchesRun ['3'] base58 25 34 address ||
      matchesRun ['b', 'c', '1']
        [('a', 'a'), ('c', 'h'), ('j', 'n'), ('p', 'z'), ('0', '0'), ('2', '9')] 39 59 address)
  else if symbol = "ETH" then
    some (matchesRun ['0', 'x'] [('a', 'f'), ('A', 'F'), ('0', '9')] 40 40 address)
  else if symbol = "XRP" then
    some (matchesRun ['r'] [('0', '9'), ('a', 'z'), ('A', 'Z')] 24 34 address)
  else if symbol = "LTC" then
    some (matchesRun ['L'] base58 26 33 address || matchesRun ['M'] base58 26 33 address ||
      matchesRun ['3'] base58 26 33 address)
  else if symbol = "BCH" then
    some (matchesRun ['q'] [('a', 'z'), ('0', '9')] 41 41 address ||
      matchesRun ['p'] [('a', 'z'), ('0', '9')] 41 41 address)
  else if symbol = "DOGE" then
    some (match address with
      | 'D' :: c :: rest =>
        inRanges [('5', '9'), ('A', 'H'), ('J', 'N'), ('P', 'U')] c &&
          matchesRun [] [('1', '9'), ('A', 'H'), ('J', 'N'), ('P', 'Z'), ('a', 'k'), ('m', 'z')]
            32 32 rest
      | _ => false)
  else none

/-- The helper `validateWalletAddress`: `true` when there is no pattern for the
symbol, the result of the test otherwise; `none` when the call throws (an
inherited property is truthy and has no method `test`). -/
def validateWalletAddress (symbol address : String) : Option Bool :=
  match testPattern symbol address.data with
  | some result => some result
  | none => if symbol ∈ objectPrototypeKeys then none else some true

/-- The argument of `validateTransaction`; a field that is absent is `none`. -/
structure TransactionDetails where
  type : String
  amount : ℚ
  symbol : Option String
  address : Option String
deriving DecidableEq, Repr

/-- The object that `validateTransaction` returns. -/
structure ValidationResult where
  valid : Bool
  error : Option String
deriving DecidableEq, Repr

/-- Truthiness of an optional string: present and not empty. -/
def truthy (value : Option String) : Bool :=
  match value with
  | some text => text ≠ ""
  | none => false

/-- The helper `validateTransaction`; `none` when it throws. -/
def validateTransaction (details : TransactionDetails) : Option ValidationResult :=
  if ¬ details.type ∈ ["buy", "sell", "transfer", "deposit", "withdraw"] then
    some { valid := false, error := some "Invalid transaction type" }
  else if details.amount ≤ 0 then
    some { valid := false, error := some "Amount must be greater than zero" }
  else if details.type ∈ ["buy", "sell", "transfer"] ∧ truthy details.symbol then
    let symbol := details.symbol.getD ""
    if ¬ validateCryptoAmount symbol details.amount then
      some { valid := false, error := some ("Amount is below minimum for " ++ symbol) }
    else if details.type = "transfer" ∧ truthy details.address then
      match validateWalletAddress symbol (details.address.getD "") with
      | none => none
      | some true => some { valid := true, error := none }
      | some false =>
        some { valid := false, error := some ("Invalid " ++ symbol ++ " wallet address") }
    else some { valid := true, error := none }
  else some { valid := true, error := none }

/-! ## `POST /api/users/wallet/addFunds` of `routes/users.js` -/

namespace Routes

/-- What the route sends back. -/
inductive WalletResponse where
  /-- The reply `res.json(user.wallet)`. -/
  | wallet (wallet : Wallet)
  /-- The reply `res.status(status).json({ msg })`. -/
  | failure (status : Nat) (msg : String)
deriving DecidableEq, Repr

/-- The handler of `POST /api/users/wallet/addFunds` for an `amount` that is a
JSON number; `uid` is `req.user.id`.  The sum is exact; `Rounded.addFunds`
rounds it. -/
def addFunds (uid : String) (amount : ℚ) (db : Db) : Db × WalletResponse :=
  if amount = 0 ∨ amount ≤ 0 then (db, .failure 400 "Invalid amount")
  else
    match db.users.find? (fun u => u.id = uid) with
    | none => (db, .failure 404 "User not found")
    | some user =>
      let user : User :=
        { user with wallet := { user.wallet with balance := user.wallet.balance + amount } }
      ({ db with users := replaceFirst (fun u => u.id = user.id) user db.users },
       .wallet user.wallet)

end Routes

/-! ## More sample data -/

/-- The request `{ symbol: "BTC", amount: 0, paymentMethod: "credit_card" }`. -/
def buyZeroByCard : BuyBody := { symbol := "BTC", amount := 0, paymentMethod := "credit_card" }

/-- One user who holds 1 BTC with a cost basis of 0. -/
def freeCoinDb : Db :=
  { users := [{ id := "u1", accountBalance := 0 }]
    wallets := [{ user := "u1", symbol := "BTC", name := "Bitcoin", amount := 1,
                  purchaseValue := 0, averagePrice := some 0 }]
    transactions := [] }

/-- The deposit `{ amount: 50, paymentMethod: "paypal" }`. -/
def depositFifty : DepositBody := { amount := 50, paymentMethod := "paypal" }

/-- The withdrawal `{ amount: 50, withdrawMethod: "paypal", accountDetails: "acct" }`. -/
def withdrawFifty : WithdrawBody :=
  { amount := 50, withdrawMethod := "paypal", accountDetails := "acct" }

/-- The withdrawal `{ amount: 5000, withdrawMethod: "paypal", accountDetails: "acct" }`. -/
def withdrawFiveThousand : WithdrawBody :=
  { amount := 5000, withdrawMethod := "paypal", accountDetails := "acct" }

/-- Two users; the first has one recorded deposit, the second one recorded
deposit and a wallet. -/
def twoUsersDb : Db :=
  { users := [{ id := "u1", accountBalance := 50 }, { id := "u2", accountBalance := 10 }]
    wallets := [{ user := "u2", symbol := "BTC", name := "Bitcoin", amount := 2,
                  purchaseValue := 200, averagePrice := some 100 }]
    transactions :=
      [{ user := "u1", type := .deposit, symbol := none, amount := 50, price := none,
         totalValue := 50, paymentMethod := some "paypal", details := none },
       { user := "u2", type := .deposit, symbol := none, amount := 10, price := none,
         totalValue := 10, paymentMethod := some "paypal", details := none }] }

/-- The units of a cryptocurrency in a list of holdings: the sum of the amounts
of the entries for it (one entry at most when the holdings are a mapping). -/
def Routes.heldAmount (cryptoId : String) (holdings : List Routes.Holding) : ℚ :=
  ((holdings.filter (fun h => h.cryptoId = cryptoId)).map (fun h => h.amount)).sum

/-- A market with one user (balance 1000, no holdings) and one cryptocurrency
(price 100, supply 10). -/
def marketDb : Routes.Db :=
  { users := [{ id := "u1", wallet := { balance := 1000, cryptoHoldings := [] } }]
    cryptocurrencies := [{ id := "c1", currentPrice := 100, availableSupply := 10 }]
    transactions := [] }

/-! ## Numbers as IEEE doubles -/

/-- The integer nearest to `q`, a tie going to the even neighbour. -/
def roundHalfEven (q : ℚ) : ℤ :=
  if q - ⌊q⌋ < 1 / 2 then ⌊q⌋
  else if 1 / 2 < q - ⌊q⌋ then ⌊q⌋ + 1
  else if ⌊q⌋ % 2 = 0 then ⌊q⌋
  else ⌊q⌋ + 1

/-- The binary exponent that fixes the spacing of the doubles around `x`: the
floor of the base 2 logarithm of `|x|`, and `-1022` below the normal range. -/
def exponent (x : ℚ) : ℤ :=
  max (Int.log 2 |x|) (-1022)

/-- The distance between neighbouring doubles around `x` (a significand of 53
bits). -/
def ulp (x : ℚ) : ℚ :=
  (2 : ℚ) ^ (exponent x - 52)

/-- The double nearest to `x`, a tie going to the even significand: the value
that a JavaScript arithmetic operator returns when its exact result is `x`, for
a result in the finite range (below `2 ^ 1024` in magnitude). -/
def roundDouble (x : ℚ) : ℚ :=
  roundHalfEven (x / ulp x) * ulp x

/-- The rational `x` is a finite double. -/
def IsDouble (x : ℚ) : Prop :=
  roundDouble x = x ∧ |x| < (2 : ℚ) ^ (1024 : ℤ)

instance (x : ℚ) : Decidable (IsDouble x) := by
  unfold IsDouble
  infer_instance

/-! ## The handlers with rounded arithmetic

The handlers of `transactionController.js`, `routes/transactions.js` and
`routes/users.js` once more, with the result of every arithmetic operator
passed through `fl`.  With `fl = roundDouble` the numbers are those of
JavaScript; with `fl = id` the handlers are the ones above. -/

namespace Rounded

/-- The handler `exports.depositFunds`; the sum of
`user.accountBalance += parseFloat(amount)` is rounded by `fl`. -/
def depositFunds (fl : ℚ → ℚ) (errors : List String) (uid : String) (body : DepositBody)
    (db : Db) : Db × Response :=
  if ¬ errors.isEmpty then (db, .invalid errors)
  else
    match findById db.users uid with
    | none => (db, serverError)
    | some user =>
      let transaction : CryptoTransaction :=
        { user := uid
          type := .deposit
          symbol := none
          amount := body.amount
          price := none
          totalValue := body.amount
          paymentMethod := some body.paymentMethod
          details := none }
      ({ db with
         users := saveUser db.users
           { user with accountBalance := fl (user.accountBalance + body.amount) }
         transactions := db.transactions ++ [transaction] },
       .success "Deposit successful" transaction)

/-- The handler `exports.withdrawFunds`; the difference of
`user.accountBalance -= parseFloat(amount)` is rounded by `fl`. -/
def withdrawFunds (fl : ℚ → ℚ) (errors : List String) (uid : String) (body : WithdrawBody)
    (db : Db) : Db × Response :=
  if ¬ errors.isEmpty then (db, .invalid errors)
  else
    match findById db.users uid with
    | none => (db, serverError)
    | some user =>
      if user.accountBalance < body.amount then
        (db, .failure 400 "Insufficient funds")
      else
        let transaction : CryptoTransaction :=
          { user := uid
            type := .withdraw
            symbol := none
            amount := body.amount
            price := none
            totalValue := body.amount
            paymentMethod := some body.withdrawMethod
            details := some body.accountDetails }
        ({ db with
           users := saveUser db.users
             { user with accountBalance := fl (user.accountBalance - body.amount) }
           transactions := db.transactions ++ [transaction] },
         .success "Withdrawal initiated" transaction)

/-- The handler of `POST /api/transactions/buy` for an `amount` that is a JSON
number; the product, the two differences and the sum are rounded by `fl`. -/
def postBuy (fl : ℚ → ℚ) (uid cryptoId : String) (amount : ℚ) (db : Routes.Db) :
    Routes.Db × Routes.Response :=
  if amount = 0 ∨ amount ≤ 0 then (db, .failure 400 "Invalid amount")
  else
    match db.users.find? (fun u => u.id = uid) with
    | none => (db, .failure 404 "User not found")
    | some user =>
      match db.cryptocurrencies.find? (fun c => c.id = cryptoId) with
      | none => (db, .failure 404 "Cryptocurrency not found")
      | some cryptocurrency =>
        let totalCost := fl (amount * cryptocurrency.currentPrice)
        if user.wallet.balance < totalCost then
          (db, .failure 400 "Insufficient balance")
        else if cryptocurrency.availableSupply < amount then
          (db, .failure 400 "Insufficient cryptocurrency supply")
        else
          let transaction : Routes.Transaction :=
            { userId := user.id
              cryptoId := cryptocurrency.id
              type := .buy
              amount := amount
              price := cryptocurrency.currentPrice }
          let holdings :=
            match user.wallet.cryptoHoldings.find? (fun h => h.cryptoId = cryptoId) with
            | some _ =>
              Routes.modifyFirst (fun h => h.cryptoId = cryptoId)
                (fun h => { h with amount := fl (h.amount + amount) }) user.wallet.cryptoHoldings
            | none => user.wallet.cryptoHoldings ++ [{ cryptoId := cryptoId, amount := amount }]
          let user : Routes.User :=
            { user with
              wallet :=
                { balance := fl (user.wallet.balance - totalCost), cryptoHoldings := holdings } }
          let cryptocurrency : Routes.Cryptocurrency :=
            { cryptocurrency with
              availableSupply := fl (cryptocurrency.availableSupply - amount) }
          ({ users := replaceFirst (fun u => u.id = user.id) user db.users
             cryptocurrencies :=
               replaceFirst (fun c => c.id = cryptocurrency.id) cryptocurrency db.cryptocurrencies
             transactions := db.transactions ++ [transaction] },
           .ok transaction user.wallet cryptocurrency)

/-- The handler of `POST /api/transactions/sell` for an `amount` that is a JSON
number; the product, the two sums and the difference are rounded by `fl`. -/
def postSell (fl : ℚ → ℚ) (uid cryptoId : String) (amount : ℚ) (db : Routes.Db) :
    Routes.Db × Routes.Response :=
  if amount = 0 ∨ amount ≤ 0 then (db, .failure 400 "Invalid amount")
  else
    match db.users.find? (fun u => u.id = uid) with
    | none => (db, .failure 404 "User not found")
    | some user =>
      match db.cryptocurrencies.find? (fun c => c.id = cryptoId) with
      | none => (db, .failure 404 "Cryptocurrency not found")
      | some cryptocurrency =>
        match user.wallet.cryptoHoldings.find? (fun h => h.cryptoId = cryptoId) with
        | none => (db, .failure 400 "Insufficient cryptocurrency balance")
        | some holding =>
          if holding.amount < amount then
            (db, .failure 400 "Insufficient cryptocurrency balance")
          else
            let totalEarnings := fl (amount * cryptocurrency.currentPrice)
            let transaction : Routes.Transaction :=
              { userId := user.id
                cryptoId := cryptocurrency.id
                type := .sell
                amount := amount
                price := cryptocurrency.currentPrice }
            let holdings :=
              if fl (holding.amount - amount) = 0 then
                user.wallet.cryptoHoldings.eraseP (fun h => h.cryptoId = cryptoId)
              else
                Routes.modifyFirst (fun h => h.cryptoId = cryptoId)
                  (fun h => { h with amount := fl (h.amount - amount) })
                  user.wallet.cryptoHoldings
            let user : Routes.User :=
              { user with
                wallet :=
                  { balance := fl (user.wallet.balance + totalEarnings)
                    cryptoHoldings := holdings } }
            let cryptocurrency : Routes.Cryptocurrency :=
              { cryptocurrency with
                availableSupply := fl (cryptocurrency.availableSupply + amount) }
            ({ users := replaceFirst (fun u => u.id = user.id) user db.users
               cryptocurrencies :=
                 replaceFirst (fun c => c.id = cryptocurrency.id) cryptocurrency
                   db.cryptocurrencies
               transactions := db.transactions ++ [transaction] },
             .ok transaction user.wallet cryptocurrency)

/-- The handler of `POST /api/users/wallet/addFunds` for an `amount` that is a
JSON number; the sum of `user.wallet.balance += amount` is rounded by `fl`. -/
def addFunds (fl : ℚ → ℚ) (uid : String) (amount : ℚ) (db : Routes.Db) :
    Routes.Db × Routes.WalletResponse :=
  if amount = 0 ∨ amount ≤ 0 then (db, .failure 400 "Invalid amount")
  else
    match db.users.find? (fun u => u.id = uid) with
    | none => (db, .failure 404 "User not found")
    | some user =>
      let user : Routes.User :=
        { user with wallet := { user.wallet with balance := fl (user.wallet.balance + amount) } }
      ({ db with users := replaceFirst (fun u => u.id = user.id) user db.users },
       .wallet user.wallet)

end Rounded

/-! ## Sample data in doubles -/

/-- The double nearest to 0.1, the number that the JSON text `0.1` denotes. -/
def tenth : ℚ := 3602879701896397 / 36028797018963968

/-- The double nearest to 0.2, the number that the JSON text `0.2` denotes. -/
def fifth : ℚ := 3602879701896397 / 18014398509481984

/-- One user with the balance 0.1. -/
def tenthDb : Db :=
  { users := [{ id := "u1", accountBalance := tenth }], wallets := [], transactions := [] }

/-- The deposit `{ amount: 1, paymentMethod: "paypal" }`. -/
def depositOne : DepositBody := { amount := 1, paymentMethod := "paypal" }

/-- The withdrawal `{ amount: 1, withdrawMethod: "paypal", accountDetails: "acct" }`. -/
def withdrawOne : WithdrawBody :=
  { amount := 1, withdrawMethod := "paypal", accountDetails := "acct" }

/-- The deposit `{ amount: 0.5, paymentMethod: "paypal" }`. -/
def depositHalf : DepositBody := { amount := 1 / 2, paymentMethod := "paypal" }

/-- A market with one user (balance 1000, holding 0.1 of `c1`) and the
cryptocurrency `c1` (price 1, supply 10). -/
def tenthMarketDb : Routes.Db :=
  { users := [{ id := "u1",
                wallet := { balance := 1000,
                            cryptoHoldings := [{ cryptoId := "c1", amount := tenth }] } }]
    cryptocurrencies := [{ id := "c1", currentPrice := 1, availableSupply := 10 }]
    transactions := [] }

/-- The market `marketDb` after the user bought 2 of `c1`: balance 800, holding
2, supply 8. -/
def boughtMarketDb : Routes.Db :=
  { users := [{ id := "u1",
                wallet := { balance := 800,
                            cryptoHoldings := [{ cryptoId := "c1", amount := 2 }] } }]
    cryptocurrencies := [{ id := "c1", currentPrice := 100, availableSupply := 8 }]
    transactions :=
      [{ userId := "u1", cryptoId := "c1", type := .buy, amount := 2, price := 100 }] }

/-- The request `{ symbol: "btc", amount: 2, paymentMethod: "balance" }`. -/
def buyTwoLower : BuyBody := { symbol := "btc", amount := 2, paymentMethod := "balance" }

/-- Modelled from the spec: `t` is the upper-cased `s`, every letter `a` to `z`
replaced by its capital and every other character kept.  On a string of ASCII
characters this is what `String.prototype.toUpperCase` returns. -/
def UpperCased (s t : String) : Prop :=
  t.data = s.data.map (fun c => if 'a' ≤ c ∧ c ≤ 'z' then Char.ofNat (c.toNat - 32) else c)

instance (s t : String) : Decidable (UpperCased s t) := by
  unfold UpperCased
  infer_instance

/-- Every character of the string is an ASCII character. -/
def IsAscii (s : String) : Prop :=
  ∀ c ∈ s.data, c.toNat < 128

instance (s : String) : Decidable (IsAscii s) := by
  unfold IsAscii
  infer_instance

/-- Every stored position has a quantity above zero. -/
def PositionsPositive (wallets : List UserWallet) : Prop :=
  ∀ w ∈ wallets, 0 < w.amount

/-- No two user documents share an id (the `_id` of the store is unique). -/
def UsersUnique (users : List User) : Prop :=
  users.Pairwise (fun a b => a.id ≠ b.id)

/-- The holdings of the data model are a mapping: no two wallet documents share
user and symbol.  `buyCrypto` creates a wallet only when `findOne` found none,
so requests served one after another keep this. -/
def WalletsUnique (wallets : List UserWallet) : Prop :=
  wallets.Pairwise (fun a b => ¬ (a.user = b.user ∧ a.symbol = b.symbol))

/-! ## Lemmas on the collections -/

theorem find_replaceFirst {α : Type} (p : α → Bool) (new x : α) (l : List α)
    (hfind : l.find? p = some x) (hnew : p new = true) :
    (replaceFirst p new l).find? p = some new := by
  induction l with
  | nil => simp at hfind
  | cons a t ih =>
    by_cases ha : p a = true
    · simp [replaceFirst, ha, hnew]
    · simp only [List.find?_cons, ha] at hfind
      simp [replaceFirst, ha, ih hfind]

theorem findById_id {users : List User} {uid : String} {user : User}
    (h : findById users uid = some user) : user.id = uid := by
  have := List.find?_some h
  simpa using this

theorem findById_saveUser {users : List User} {uid : String} {user : User}
    (h : findById users uid = some user) (balance : ℚ) :
    findById (saveUser users { user with accountBalance := balance }) uid =
      some { user with accountBalance := balance } := by
  have hid := findById_id h
  unfold findById saveUser
  simp only [hid]
  exact find_replaceFirst _ _ user users h (by simp [hid])

theorem findOne_key {wallets : List UserWallet} {uid symbol : String} {wallet : UserWallet}
    (h : findOne wallets uid symbol = some wallet) :
    wallet.user = uid ∧ wallet.symbol = symbol := by
  have := List.find?_some h
  simpa using this

theorem findOne_saveWallet {wallets : List UserWallet} {uid symbol : String}
    {wallet : UserWallet} (h : findOne wallets uid symbol = some wallet)
    (amount purchaseValue : ℚ) (averagePrice : Option ℚ) :
    findOne (saveWallet wallets
        { wallet with
          amount := amount, purchaseValue := purchaseValue, averagePrice := averagePrice })
      uid symbol =
      some { wallet with
             amount := amount, purchaseValue := purchaseValue, averagePrice := averagePrice } := by
  obtain ⟨hu, hs⟩ := findOne_key h
  unfold findOne saveWallet
  simp only [hu, hs]
  exact find_replaceFirst _ _ wallet wallets h (by simp [hu, hs])

theorem findOne_append_new {wallets : List UserWallet} {uid symbol : String}
    (h : findOne wallets uid symbol = none) (wallet : UserWallet)
    (hu : wallet.user = uid) (hs : wallet.symbol = symbol) :
    findOne (wallets ++ [wallet]) uid symbol = some wallet := by
  unfold findOne at h ⊢
  rw [List.find?_append, h]
  simp [hu, hs]

/-! ## Theorems on `buyCrypto` and `sellCrypto` -/

/-- C1.  A buy that `buyCrypto` settles successfully at the quoted price leaves
`accountBalance` equal to the old balance minus `amount * price` when
`paymentMethod` is `"balance"`, and leaves the user collection (so every
balance) exactly as it was for every other payment method.  The statement
holds for every amount and price, in particular for the positive ones. -/
theorem buyCrypto_cashBalance (quote : Quote) (uid : String) (body : BuyBody) (db : Db)
    (coinData : CoinData) (msg : String) (transaction : CryptoTransaction)
    (hquote : quote (toUpperCase body.symbol) = some coinData)
    (hok : (buyCrypto quote uid body db).2 = .success msg transaction) :
    (body.paymentMethod = "balance" →
      ∃ user, findById db.users uid = some user ∧
        findById (buyCrypto quote uid body db).1.users uid =
          some { user with
                 accountBalance := user.accountBalance - body.amount * coinData.price }) ∧
    (body.paymentMethod ≠ "balance" → (buyCrypto quote uid body db).1.users = db.users) := by
  constructor
  · intro hpm
    simp only [buyCrypto, hquote, hpm, if_true] at hok ⊢
    cases huser : findById db.users uid with
    | none => simp [huser, serverError] at hok
    | some user =>
      simp only [huser] at hok ⊢
      by_cases hlt : user.accountBalance < coinData.price * body.amount
      · simp [hlt] at hok
      · simp only [hlt, if_false]
        refine ⟨user, rfl, ?_⟩
        rw [mul_comm body.amount]
        exact findById_saveUser huser _
  · intro hpm
    simp [buyCrypto, hquote, hpm]


theorem findOne_eraseP_append {wallets : List UserWallet} {uid symbol : String}
    (h : findOne wallets uid symbol = none) (wallet : UserWallet)
    (hu : wallet.user = uid) (hs : wallet.symbol = symbol) :
    (wallets ++ [wallet]).eraseP (fun w => w.user = uid ∧ w.symbol = symbol) = wallets := by
  unfold findOne at h
  rw [List.eraseP_append_right]
  · simp [hu, hs]
  · intro b hb
    have := List.find?_eq_none.mp h b hb
    simpa using this

theorem find_eraseP_eq_none {α : Type} (p : α → Bool) (R : α → α → Prop) (l : List α)
    (hR : l.Pairwise R) (hp : ∀ a b, p a = true → p b = true → ¬ R a b) :
    (l.eraseP p).find? p = none := by
  induction l with
  | nil => simp
  | cons a t ih =>
    rw [List.pairwise_cons] at hR
    cases hpa : p a with
    | true =>
      simp only [List.eraseP_cons, hpa, cond_true]
      rw [List.find?_eq_none]
      intro b hb hpb
      exact hp a b hpa hpb (hR.1 b hb)
    | false =>
      simp only [List.eraseP_cons, List.find?_cons, hpa, cond_false]
      exact ih hR.2

theorem find_modifyFirst {α : Type} (p : α → Bool) (f : α → α) (x : α) (l : List α)
    (hfind : l.find? p = some x) (hf : p (f x) = true) :
    (Routes.modifyFirst p f l).find? p = some (f x) := by
  induction l with
  | nil => simp at hfind
  | cons a t ih =>
    cases hpa : p a with
    | true =>
      simp only [List.find?_cons, hpa] at hfind
      have hax : a = x := by simpa using hfind
      subst hax
      simp [Routes.modifyFirst, hpa, hf]
    | false =>
      simp only [List.find?_cons, hpa] at hfind
      simp [Routes.modifyFirst, hpa, ih hfind]

theorem findOne_deleteWallet {wallets : List UserWallet} {uid symbol : String}
    {wallet : UserWallet} (hunique : WalletsUnique wallets)
    (h : findOne wallets uid symbol = some wallet) (amount : ℚ) :
    findOne (deleteWallet wallets { wallet with amount := amount }) uid symbol = none := by
  obtain ⟨hu, hs⟩ := findOne_key h
  unfold deleteWallet findOne
  simp only [hu, hs]
  refine find_eraseP_eq_none _ _ wallets hunique ?_
  intro a b ha hb hab
  have ha : a.user = uid ∧ a.symbol = symbol := by simpa using ha
  have hb : b.user = uid ∧ b.symbol = symbol := by simpa using hb
  exact hab ⟨ha.1.trans hb.1.symm, ha.2.trans hb.2.symm⟩

/-- The wallet collection after a buy that settled. -/
theorem buyCrypto_wallets (quote : Quote) (uid : String) (body : BuyBody) (db : Db)
    (coinData : CoinData) (msg : String) (transaction : CryptoTransaction)
    (hquote : quote (toUpperCase body.symbol) = some coinData)
    (hok : (buyCrypto quote uid body db).2 = .success msg transaction) :
    (buyCrypto quote uid body db).1.wallets =
      match findOne db.wallets uid (toUpperCase body.symbol) with
      | some wallet =>
        saveWallet db.wallets
          { wallet with
            amount := wallet.amount + body.amount
            purchaseValue := wallet.purchaseValue + coinData.price * body.amount
            averagePrice :=
              jsDiv (wallet.purchaseValue + coinData.price * body.amount)
                (wallet.amount + body.amount) }
      | none =>
        db.wallets ++
          [{ user := uid
             symbol := toUpperCase body.symbol
             name := coinData.name
             amount := body.amount
             purchaseValue := coinData.price * body.amount
             averagePrice := some coinData.price }] := by
  simp only [buyCrypto, hquote] at hok ⊢
  by_cases hpm : body.paymentMethod = "balance"
  · simp only [hpm, if_true] at hok ⊢
    cases huser : findById db.users uid with
    | none => simp [huser, serverError] at hok
    | some user =>
      simp only [huser] at hok ⊢
      by_cases hlt : user.accountBalance < coinData.price * body.amount
      · simp [hlt] at hok
      · simp only [hlt, if_false]
  · simp only [hpm, if_false]

/-- The position of the buyer after a buy that settled, when one existed. -/
theorem buyCrypto_wallet_existing (quote : Quote) (uid : String) (body : BuyBody) (db : Db)
    (coinData : CoinData) (msg : String) (transaction : CryptoTransaction)
    (hquote : quote (toUpperCase body.symbol) = some coinData)
    (hok : (buyCrypto quote uid body db).2 = .success msg transaction)
    (wallet : UserWallet)
    (hwallet : findOne db.wallets uid (toUpperCase body.symbol) = some wallet) :
    findOne (buyCrypto quote uid body db).1.wallets uid (toUpperCase body.symbol) =
      some { wallet with
             amount := wallet.amount + body.amount
             purchaseValue := wallet.purchaseValue + body.amount * coinData.price
             averagePrice :=
               jsDiv (wallet.purchaseValue + body.amount * coinData.price)
                 (wallet.amount + body.amount) } := by
  rw [buyCrypto_wallets quote uid body db coinData msg transaction hquote hok, hwallet]
  simp only [mul_comm body.amount]
  exact findOne_saveWallet hwallet _ _ _

/-- The position of the buyer after a buy that settled, when none existed. -/
theorem buyCrypto_wallet_new (quote : Quote) (uid : String) (body : BuyBody) (db : Db)
    (coinData : CoinData) (msg : String) (transaction : CryptoTransaction)
    (hquote : quote (toUpperCase body.symbol) = some coinData)
    (hok : (buyCrypto quote uid body db).2 = .success msg transaction)
    (hwallet : findOne db.wallets uid (toUpperCase body.symbol) = none) :
    findOne (buyCrypto quote uid body db).1.wallets uid (toUpperCase body.symbol) =
      some { user := uid
             symbol := toUpperCase body.symbol
             name := coinData.name
             amount := body.amount
             purchaseValue := body.amount * coinData.price
             averagePrice := some coinData.price } := by
  rw [buyCrypto_wallets quote uid body db coinData msg transaction hquote hok, hwallet]
  simp only [mul_comm body.amount]
  exact findOne_append_new hwallet _ rfl rfl

/-- A buy that settled had a quote. -/
theorem buyCrypto_success_quote (quote : Quote) (uid : String) (body : BuyBody) (db : Db)
    (msg : String) (transaction : CryptoTransaction)
    (hok : (buyCrypto quote uid body db).2 = .success msg transaction) :
    ∃ coinData, quote (toUpperCase body.symbol) = some coinData := by
  cases hquote : quote (toUpperCase body.symbol) with
  | none => simp [buyCrypto, hquote, serverError] at hok
  | some coinData => exact ⟨coinData, rfl⟩

/-- C2.  For an account whose position in the symbol is `wallet` (quantity
`wallet.amount`), a sell of a quantity `body.amount ≤ wallet.amount` at the
quoted price settles: the reply is `Sale successful`, `accountBalance` is the
old balance plus `amount * price`, and the position has quantity
`wallet.amount - amount`, or is gone from the collection when that is zero.
The bound `0 < amount` is not needed. -/
theorem sellCrypto_settles (quote : Quote) (uid : String) (body : SellBody) (db : Db)
    (wallet : UserWallet) (coinData : CoinData) (user : User)
    (hunique : WalletsUnique db.wallets)
    (hwallet : findOne db.wallets uid (toUpperCase body.symbol) = some wallet)
    (hle : body.amount ≤ wallet.amount)
    (hquote : quote (toUpperCase body.symbol) = some coinData)
    (huser : findById db.users uid = some user) :
    (∃ transaction,
      (sellCrypto quote uid body db).2 = .success "Sale successful" transaction) ∧
    findById (sellCrypto quote uid body db).1.users uid =
      some { user with
             accountBalance := user.accountBalance + body.amount * coinData.price } ∧
    findOne (sellCrypto quote uid body db).1.wallets uid (toUpperCase body.symbol) =
      if wallet.amount - body.amount = 0 then none
      else some { wallet with amount := wallet.amount - body.amount } := by
  have hnlt : ¬ wallet.amount < body.amount := not_lt.mpr hle
  simp only [sellCrypto, hwallet, hnlt, if_false, hquote, huser]
  refine ⟨⟨_, rfl⟩, ?_, ?_⟩
  · rw [mul_comm body.amount]
    exact findById_saveUser huser _
  · by_cases hzero : wallet.amount - body.amount = 0
    · have hle0 : wallet.amount - body.amount ≤ 0 := le_of_eq hzero
      simp only [hle0, hzero, if_true]
      exact findOne_deleteWallet hunique hwallet _
    · have hpos : ¬ wallet.amount - body.amount ≤ 0 := by
        intro h
        exact hzero (le_antisymm h (sub_nonneg.mpr hle))
      simp only [hpos, hzero, if_false]
      exact findOne_saveWallet hwallet _ wallet.purchaseValue wallet.averagePrice

/-- C3.  A buy with `paymentMethod = "balance"` whose cost `amount * price`
exceeds `accountBalance` is answered `400 Insufficient funds`, and the database
after the request is the database before it: users (so the balance), wallets
and transactions are the same. -/
theorem buyCrypto_insufficient_funds (quote : Quote) (uid : String) (body : BuyBody)
    (db : Db) (coinData : CoinData) (user : User)
    (hpm : body.paymentMethod = "balance")
    (hquote : quote (toUpperCase body.symbol) = some coinData)
    (huser : findById db.users uid = some user)
    (hlt : user.accountBalance < body.amount * coinData.price) :
    buyCrypto quote uid body db = (db, .failure 400 "Insufficient funds") := by
  rw [mul_comm] at hlt
  simp [buyCrypto, hquote, hpm, huser, hlt]

/-- C4.  A sell of a symbol for which the user has no wallet, or of a quantity
greater than the wallet holds, is answered `400 Insufficient crypto balance`,
and the database after the request is the database before it: users (so the
balance), wallets and transactions are the same. -/
theorem sellCrypto_insufficient_holdings (quote : Quote) (uid : String) (body : SellBody)
    (db : Db)
    (h : findOne db.wallets uid (toUpperCase body.symbol) = none ∨
      ∃ wallet, findOne db.wallets uid (toUpperCase body.symbol) = some wallet ∧
        wallet.amount < body.amount) :
    sellCrypto quote uid body db = (db, .failure 400 "Insufficient crypto balance") := by
  rcases h with hnone | ⟨wallet, hwallet, hlt⟩
  · simp [sellCrypto, hnone]
  · simp [sellCrypto, hwallet, hlt]


/-- C5.  After a buy of `body.amount` at `coinData.price` that settled: a wallet
that existed with quantity `Q = wallet.amount` and cost basis
`C = wallet.purchaseValue` has quantity `Q + amount`, cost basis
`C + amount * price` and `averagePrice` the JavaScript quotient
`(C + amount * price) / (Q + amount)` (`jsDiv`, the rational quotient whenever
the divisor is not zero); when no wallet existed, one is created with quantity
`amount` and cost basis `amount * price`.  In particular, from an account
without the position, buying 1 unit at 100 and then 1 unit at 200 gives
quantity 2, cost basis 300 and `averagePrice` 150. -/
theorem buyCrypto_position (quote : Quote) (uid : String) (body : BuyBody) (db : Db)
    (coinData : CoinData) (msg : String) (transaction : CryptoTransaction)
    (hquote : quote (toUpperCase body.symbol) = some coinData)
    (hok : (buyCrypto quote uid body db).2 = .success msg transaction) :
    (∀ wallet, findOne db.wallets uid (toUpperCase body.symbol) = some wallet →
      findOne (buyCrypto quote uid body db).1.wallets uid (toUpperCase body.symbol) =
        some { wallet with
               amount := wallet.amount + body.amount
               purchaseValue := wallet.purchaseValue + body.amount * coinData.price
               averagePrice :=
                 jsDiv (wallet.purchaseValue + body.amount * coinData.price)
                   (wallet.amount + body.amount) }) ∧
    (findOne db.wallets uid (toUpperCase body.symbol) = none →
      findOne (buyCrypto quote uid body db).1.wallets uid (toUpperCase body.symbol) =
        some { user := uid
               symbol := toUpperCase body.symbol
               name := coinData.name
               amount := body.amount
               purchaseValue := body.amount * coinData.price
               averagePrice := some coinData.price }) ∧
    (∀ (db0 : Db) (uid0 : String) (quote1 quote2 : Quote) (symbol pm1 pm2 : String)
        (coin1 coin2 : CoinData) (msg1 msg2 : String) (tx1 tx2 : CryptoTransaction),
      findOne db0.wallets uid0 (toUpperCase symbol) = none →
      quote1 (toUpperCase symbol) = some coin1 → coin1.price = 100 →
      quote2 (toUpperCase symbol) = some coin2 → coin2.price = 200 →
      (buyCrypto quote1 uid0 ⟨symbol, 1, pm1⟩ db0).2 = .success msg1 tx1 →
      (buyCrypto quote2 uid0 ⟨symbol, 1, pm2⟩
        (buyCrypto quote1 uid0 ⟨symbol, 1, pm1⟩ db0).1).2 = .success msg2 tx2 →
      findOne
          (buyCrypto quote2 uid0 ⟨symbol, 1, pm2⟩
            (buyCrypto quote1 uid0 ⟨symbol, 1, pm1⟩ db0).1).1.wallets
          uid0 (toUpperCase symbol) =
        some { user := uid0
               symbol := toUpperCase symbol
               name := coin1.name
               amount := 2
               purchaseValue := 300
               averagePrice := some 150 }) ∧
    (∀ a b : ℚ, b ≠ 0 → jsDiv a b = some (a / b)) := by
  refine ⟨?_, ?_, ?_, ?_⟩
  · intro wallet hwallet
    exact buyCrypto_wallet_existing quote uid body db coinData msg transaction hquote hok
      wallet hwallet
  · intro hwallet
    exact buyCrypto_wallet_new quote uid body db coinData msg transaction hquote hok hwallet
  · intro db0 uid0 quote1 quote2 symbol pm1 pm2 coin1 coin2 msg1 msg2 tx1 tx2 hnone hq1 hp1
      hq2 hp2 hok1 hok2
    have h1 := buyCrypto_wallet_new quote1 uid0 ⟨symbol, 1, pm1⟩ db0 coin1 msg1 tx1 hq1 hok1
      hnone
    have h2 := buyCrypto_wallet_existing quote2 uid0 ⟨symbol, 1, pm2⟩ _ coin2 msg2 tx2 hq2
      hok2 _ h1
    rw [h2]
    simp only [hp1, hp2, jsDiv]
    norm_num
  · intro a b hb
    simp [jsDiv, hb]

/-- C7.  Starting from an account with no wallet for the symbol, a buy of a
quantity that settles followed by a sell of the same quantity that settles
leaves no wallet document for the symbol (the document is deleted, not kept
with quantity zero).  This holds for every quantity, in particular for the
positive ones. -/
theorem buy_then_sell_all_removes (quote1 quote2 : Quote) (uid symbol pm : String)
    (amount : ℚ) (db : Db) (msg1 msg2 : String) (tx1 tx2 : CryptoTransaction)
    (hnone : findOne db.wallets uid (toUpperCase symbol) = none)
    (hbuy : (buyCrypto quote1 uid ⟨symbol, amount, pm⟩ db).2 = .success msg1 tx1)
    (hsell : (sellCrypto quote2 uid ⟨symbol, amount⟩
      (buyCrypto quote1 uid ⟨symbol, amount, pm⟩ db).1).2 = .success msg2 tx2) :
    findOne
      (sellCrypto quote2 uid ⟨symbol, amount⟩
        (buyCrypto quote1 uid ⟨symbol, amount, pm⟩ db).1).1.wallets
      uid (toUpperCase symbol) = none := by
  obtain ⟨coin1, hq1⟩ := buyCrypto_success_quote quote1 uid ⟨symbol, amount, pm⟩ db msg1 tx1 hbuy
  have hw := buyCrypto_wallet_new quote1 uid ⟨symbol, amount, pm⟩ db coin1 msg1 tx1 hq1 hbuy
    hnone
  have hws := buyCrypto_wallets quote1 uid ⟨symbol, amount, pm⟩ db coin1 msg1 tx1 hq1 hbuy
  simp only [hnone] at hws hw
  simp only [sellCrypto, hw, lt_self_iff_false, if_false, sub_self, le_refl, if_true]
    at hsell ⊢
  cases hq2 : quote2 (toUpperCase symbol) with
  | none => simp [hq2, serverError] at hsell
  | some coin2 =>
    simp only [hq2] at hsell ⊢
    have hdel : ∀ purchaseValue : ℚ,
        deleteWallet (buyCrypto quote1 uid ⟨symbol, amount, pm⟩ db).1.wallets
          { user := uid, symbol := toUpperCase symbol, name := coin1.name, amount := 0,
            purchaseValue := purchaseValue, averagePrice := some coin1.price } =
        db.wallets := by
      intro purchaseValue
      rw [hws]
      exact findOne_eraseP_append hnone _ rfl rfl
    cases hu : findById (buyCrypto quote1 uid ⟨symbol, amount, pm⟩ db).1.users uid with
    | none => simp [hu, serverError] at hsell
    | some user =>
      simp only [hu]
      rw [hdel]
      exact hnone


/-! ## What the buy path and the validated paths keep -/

/-- On the buy path the stored `averagePrice` is cost basis over quantity: after
a buy of a non-zero quantity that settled, the position of the buyer satisfies
`averagePrice = purchaseValue / amount`. -/
theorem buyCrypto_averagePrice (quote : Quote) (uid : String) (body : BuyBody) (db : Db)
    (msg : String) (transaction : CryptoTransaction) (hamount : body.amount ≠ 0)
    (hok : (buyCrypto quote uid body db).2 = .success msg transaction) :
    ∃ wallet,
      findOne (buyCrypto quote uid body db).1.wallets uid (toUpperCase body.symbol) =
        some wallet ∧
      wallet.averagePrice = jsDiv wallet.purchaseValue wallet.amount := by
  obtain ⟨coinData, hquote⟩ := buyCrypto_success_quote quote uid body db msg transaction hok
  cases hwallet : findOne db.wallets uid (toUpperCase body.symbol) with
  | none =>
    refine ⟨_, buyCrypto_wallet_new quote uid body db coinData msg transaction hquote hok
      hwallet, ?_⟩
    simp [jsDiv, hamount]
  | some wallet =>
    exact ⟨_, buyCrypto_wallet_existing quote uid body db coinData msg transaction hquote hok
      wallet hwallet, rfl⟩

/-- A buy that settled keeps a non-negative balance non-negative, whatever the
amount and the price. -/
theorem buyCrypto_balance_nonneg (quote : Quote) (uid : String) (body : BuyBody) (db : Db)
    (user : User) (msg : String) (transaction : CryptoTransaction)
    (huser : findById db.users uid = some user) (hbal : 0 ≤ user.accountBalance)
    (hok : (buyCrypto quote uid body db).2 = .success msg transaction) :
    ∃ user', findById (buyCrypto quote uid body db).1.users uid = some user' ∧
      0 ≤ user'.accountBalance := by
  cases hquote : quote (toUpperCase body.symbol) with
  | none => simp [buyCrypto, hquote, serverError] at hok
  | some coinData =>
    simp only [buyCrypto, hquote, huser] at hok ⊢
    by_cases hpm : body.paymentMethod = "balance"
    · simp only [hpm, if_true] at hok ⊢
      by_cases hlt : user.accountBalance < coinData.price * body.amount
      · simp [hlt] at hok
      · simp only [hlt, if_false]
        exact ⟨_, findById_saveUser huser _, sub_nonneg.mpr (not_lt.mp hlt)⟩
    · simp only [hpm, if_false]
      exact ⟨user, huser, hbal⟩

/-- A sell of a non-negative quantity at a non-negative price that settled keeps
a non-negative balance non-negative. -/
theorem sellCrypto_balance_nonneg (quote : Quote) (uid : String) (body : SellBody) (db : Db)
    (user : User) (coinData : CoinData) (msg : String) (transaction : CryptoTransaction)
    (huser : findById db.users uid = some user) (hbal : 0 ≤ user.accountBalance)
    (hquote : quote (toUpperCase body.symbol) = some coinData)
    (hprice : 0 ≤ coinData.price) (hamount : 0 ≤ body.amount)
    (hok : (sellCrypto quote uid body db).2 = .success msg transaction) :
    ∃ user', findById (sellCrypto quote uid body db).1.users uid = some user' ∧
      0 ≤ user'.accountBalance := by
  cases hwallet : findOne db.wallets uid (toUpperCase body.symbol) with
  | none => simp [sellCrypto, hwallet] at hok
  | some wallet =>
    simp only [sellCrypto, hwallet, hquote, huser] at hok ⊢
    by_cases hlt : wallet.amount < body.amount
    · simp [hlt] at hok
    · simp only [hlt, if_false]
      exact ⟨_, findById_saveUser huser _, add_nonneg hbal (mul_nonneg hprice hamount)⟩

/-- Behind `validators.depositValidation`, `depositFunds` answers an amount below
1, so every amount `≤ 0`, with the validation errors and changes nothing. -/
theorem depositFunds_rejects_small (uid : String) (body : DepositBody) (db : Db)
    (hamount : body.amount < 1) :
    depositFunds (depositValidation body) uid body db =
      (db, .invalid (depositValidation body)) := by
  have hne : ¬ (1 ≤ body.amount) := not_le.mpr hamount
  simp [depositFunds, depositValidation, hne]

/-- Behind `validators.withdrawValidation`, `withdrawFunds` answers an amount
below 1, so every amount `≤ 0`, with the validation errors and changes
nothing. -/
theorem withdrawFunds_rejects_small (uid : String) (body : WithdrawBody) (db : Db)
    (hamount : body.amount < 1) :
    withdrawFunds (withdrawValidation body) uid body db =
      (db, .invalid (withdrawValidation body)) := by
  have hne : ¬ (1 ≤ body.amount) := not_le.mpr hamount
  simp [withdrawFunds, withdrawValidation, hne]

/-- Behind `validators.depositValidation`, a deposit that settled keeps a
non-negative balance non-negative. -/
theorem depositFunds_balance_nonneg (uid : String) (body : DepositBody) (db : Db)
    (user : User) (msg : String) (transaction : CryptoTransaction)
    (huser : findById db.users uid = some user) (hbal : 0 ≤ user.accountBalance)
    (hok : (depositFunds (depositValidation body) uid body db).2 =
      .success msg transaction) :
    ∃ user', findById (depositFunds (depositValidation body) uid body db).1.users uid =
        some user' ∧ 0 ≤ user'.accountBalance := by
  by_cases hamount : body.amount < 1
  · rw [depositFunds_rejects_small uid body db hamount] at hok
    simp at hok
  · have hge : (0 : ℚ) ≤ body.amount := le_trans zero_le_one (not_lt.mp hamount)
    unfold depositFunds at hok ⊢
    by_cases herr : (depositValidation body).isEmpty = true
    · simp only [herr, not_true_eq_false, if_false, huser]
      exact ⟨_, findById_saveUser huser _, add_nonneg hbal hge⟩
    · simp [herr] at hok

/-- A withdrawal that settled keeps the balance non-negative, whatever errors
the validation recorded. -/
theorem withdrawFunds_balance_nonneg (errors : List String) (uid : String)
    (body : WithdrawBody) (db : Db) (msg : String) (transaction : CryptoTransaction)
    (hok : (withdrawFunds errors uid body db).2 = .success msg transaction) :
    ∃ user', findById (withdrawFunds errors uid body db).1.users uid = some user' ∧
      0 ≤ user'.accountBalance := by
  unfold withdrawFunds at hok ⊢
  by_cases herr : errors.isEmpty = true
  · simp only [herr, not_true_eq_false, if_false] at hok ⊢
    cases huser : findById db.users uid with
    | none => simp [huser, serverError] at hok
    | some user =>
      simp only [huser] at hok ⊢
      by_cases hlt : user.accountBalance < body.amount
      · simp [hlt] at hok
      · simp only [hlt, if_false]
        exact ⟨_, findById_saveUser huser _, sub_nonneg.mpr (not_lt.mp hlt)⟩
  · simp [herr] at hok

/-! ## The routes of `routes/transactions.js` -/

/-- Both routes answer an amount `≤ 0` with `400 Invalid amount` and change
nothing. -/
theorem postBuy_postSell_invalid_amount (uid cryptoId : String) (amount : ℚ) (db : Routes.Db)
    (hamount : amount ≤ 0) :
    Routes.postBuy uid cryptoId amount db = (db, .failure 400 "Invalid amount") ∧
    Routes.postSell uid cryptoId amount db = (db, .failure 400 "Invalid amount") := by
  simp [Routes.postBuy, Routes.postSell, hamount]

/-- The buy route answers a cost above the wallet balance with
`400 Insufficient balance` and changes nothing. -/
theorem postBuy_insufficient_balance (uid cryptoId : String) (amount : ℚ) (db : Routes.Db)
    (user : Routes.User) (cryptocurrency : Routes.Cryptocurrency) (hamount : 0 < amount)
    (huser : db.users.find? (fun u => u.id = uid) = some user)
    (hcrypto : db.cryptocurrencies.find? (fun c => c.id = cryptoId) = some cryptocurrency)
    (hlt : user.wallet.balance < amount * cryptocurrency.currentPrice) :
    Routes.postBuy uid cryptoId amount db = (db, .failure 400 "Insufficient balance") := by
  have h1 : ¬ amount = 0 := ne_of_gt hamount
  have h2 : ¬ amount ≤ 0 := not_le.mpr hamount
  simp [Routes.postBuy, h1, h2, huser, hcrypto, hlt]

/-- The sell route answers a sale of a cryptocurrency that is not held, or of
more than is held, with `400 Insufficient cryptocurrency balance` and changes
nothing. -/
theorem postSell_insufficient_holdings (uid cryptoId : String) (amount : ℚ) (db : Routes.Db)
    (user : Routes.User) (cryptocurrency : Routes.Cryptocurrency) (hamount : 0 < amount)
    (huser : db.users.find? (fun u => u.id = uid) = some user)
    (hcrypto : db.cryptocurrencies.find? (fun c => c.id = cryptoId) = some cryptocurrency)
    (h : user.wallet.cryptoHoldings.find? (fun h => h.cryptoId = cryptoId) = none ∨
      ∃ holding,
        user.wallet.cryptoHoldings.find? (fun h => h.cryptoId = cryptoId) = some holding ∧
        holding.amount < amount) :
    Routes.postSell uid cryptoId amount db =
      (db, .failure 400 "Insufficient cryptocurrency balance") := by
  have h1 : ¬ amount = 0 := ne_of_gt hamount
  have h2 : ¬ amount ≤ 0 := not_le.mpr hamount
  rcases h with hnone | ⟨holding, hholding, hlt⟩
  · simp [Routes.postSell, h1, h2, huser, hcrypto, hnone]
  · simp [Routes.postSell, h1, h2, huser, hcrypto, hholding, hlt]

/-- The sell route settles a sale of `0 < amount ≤ holding.amount`: the wallet
balance grows by `amount * currentPrice`, and the holding has the quantity
`holding.amount - amount`, or is spliced out when that is zero. -/
theorem postSell_settles (uid cryptoId : String) (amount : ℚ) (db : Routes.Db)
    (user : Routes.User) (cryptocurrency : Routes.Cryptocurrency) (holding : Routes.Holding)
    (hamount : 0 < amount)
    (huser : db.users.find? (fun u => u.id = uid) = some user)
    (hcrypto : db.cryptocurrencies.find? (fun c => c.id = cryptoId) = some cryptocurrency)
    (hunique : user.wallet.cryptoHoldings.Pairwise (fun a b => a.cryptoId ≠ b.cryptoId))
    (hholding : user.wallet.cryptoHoldings.find? (fun h => h.cryptoId = cryptoId) =
      some holding)
    (hle : amount ≤ holding.amount) :
    ∃ user', (Routes.postSell uid cryptoId amount db).1.users.find? (fun u => u.id = uid) =
        some user' ∧
      user'.wallet.balance = user.wallet.balance + amount * cryptocurrency.currentPrice ∧
      user'.wallet.cryptoHoldings.find? (fun h => h.cryptoId = cryptoId) =
        if holding.amount - amount = 0 then none
        else some { holding with amount := holding.amount - amount } := by
  have h1 : ¬ amount = 0 := ne_of_gt hamount
  have h2 : ¬ amount ≤ 0 := not_le.mpr hamount
  have h3 : ¬ holding.amount < amount := not_lt.mpr hle
  have hid : user.id = uid := by simpa using List.find?_some huser
  have hcid : holding.cryptoId = cryptoId := by simpa using List.find?_some hholding
  simp only [Routes.postSell, h1, h2, or_self, if_false, huser, hcrypto, hholding, h3]
  simp only [hid]
  refine ⟨_, find_replaceFirst _ _ user db.users huser (by simp [hid]), ?_, ?_⟩
  · rfl
  · by_cases hzero : holding.amount - amount = 0
    · simp only [hzero, if_true]
      refine find_eraseP_eq_none _ _ _ hunique ?_
      intro a b ha hb hab
      have ha : a.cryptoId = cryptoId := by simpa using ha
      have hb : b.cryptoId = cryptoId := by simpa using hb
      exact hab (ha.trans hb.symm)
    · simp only [hzero, if_false]
      exact find_modifyFirst _ _ holding _ hholding (by simp [hcid])

theorem eraseP_append_new {α : Type} (p : α → Bool) (l : List α) (x : α)
    (h : l.find? p = none) (hx : p x = true) : (l ++ [x]).eraseP p = l := by
  rw [List.eraseP_append_right]
  · simp [hx]
  · intro b hb
    have := List.find?_eq_none.mp h b hb
    simpa using this

/-- From a wallet without the cryptocurrency, a buy of a quantity through the
buy route followed by a sale of the same quantity through the sell route, both
settled, leaves no holding of it. -/
theorem postBuy_then_postSell_removes (uid cryptoId : String) (amount : ℚ) (db : Routes.Db)
    (user : Routes.User) (tx1 tx2 : Routes.Transaction) (w1 w2 : Routes.Wallet)
    (c1 c2 : Routes.Cryptocurrency)
    (huser : db.users.find? (fun u => u.id = uid) = some user)
    (hnone : user.wallet.cryptoHoldings.find? (fun h => h.cryptoId = cryptoId) = none)
    (hbuy : (Routes.postBuy uid cryptoId amount db).2 = .ok tx1 w1 c1)
    (hsell : (Routes.postSell uid cryptoId amount (Routes.postBuy uid cryptoId amount db).1).2 =
      .ok tx2 w2 c2) :
    ∃ user',
      (Routes.postSell uid cryptoId amount
        (Routes.postBuy uid cryptoId amount db).1).1.users.find? (fun u => u.id = uid) =
        some user' ∧
      user'.wallet.cryptoHoldings.find? (fun h => h.cryptoId = cryptoId) = none := by
  have hid : user.id = uid := by simpa using List.find?_some huser
  subst hid
  by_cases hamount : amount = 0 ∨ amount ≤ 0
  · simp [Routes.postBuy, hamount] at hbuy
  cases hcrypto : db.cryptocurrencies.find? (fun c => c.id = cryptoId) with
  | none => simp [Routes.postBuy, hamount, huser, hcrypto] at hbuy
  | some cryptocurrency =>
    have hcid : cryptocurrency.id = cryptoId := by simpa using List.find?_some hcrypto
    subst hcid
    by_cases hbal : user.wallet.balance < amount * cryptocurrency.currentPrice
    · simp [Routes.postBuy, hamount, huser, hcrypto, hbal] at hbuy
    by_cases hsup : cryptocurrency.availableSupply < amount
    · simp [Routes.postBuy, hamount, huser, hcrypto, hbal, hsup] at hbuy
    have hstate : (Routes.postBuy user.id cryptocurrency.id amount db).1 =
        { users := replaceFirst (fun u => u.id = user.id)
            { user with
              wallet :=
                { balance := user.wallet.balance - amount * cryptocurrency.currentPrice
                  cryptoHoldings :=
                    user.wallet.cryptoHoldings ++ [{ cryptoId := cryptocurrency.id, amount := amount }] } }
            db.users
          cryptocurrencies := replaceFirst (fun c => c.id = cryptocurrency.id)
            { cryptocurrency with
              availableSupply := cryptocurrency.availableSupply - amount }
            db.cryptocurrencies
          transactions := db.transactions ++
            [{ userId := user.id, cryptoId := cryptocurrency.id, type := .buy, amount := amount,
               price := cryptocurrency.currentPrice }] } := by
      simp only [Routes.postBuy, hamount, if_false, huser, hcrypto, hbal, hsup, hnone]
    have hu1 := find_replaceFirst (fun u : Routes.User => decide (u.id = user.id))
      { user with
        wallet :=
          { balance := user.wallet.balance - amount * cryptocurrency.currentPrice
            cryptoHoldings :=
              user.wallet.cryptoHoldings ++ [{ cryptoId := cryptocurrency.id, amount := amount }] } }
      user db.users huser (by simp)
    have hc1 := find_replaceFirst (fun c : Routes.Cryptocurrency => decide (c.id = cryptocurrency.id))
      { cryptocurrency with availableSupply := cryptocurrency.availableSupply - amount }
      cryptocurrency db.cryptocurrencies hcrypto (by simp)
    have hh1 : (user.wallet.cryptoHoldings ++
        [({ cryptoId := cryptocurrency.id, amount := amount } : Routes.Holding)]).find?
          (fun h => h.cryptoId = cryptocurrency.id) = some { cryptoId := cryptocurrency.id, amount := amount } := by
      rw [List.find?_append, hnone]
      simp
    have hdel := eraseP_append_new (fun h : Routes.Holding => decide (h.cryptoId = cryptocurrency.id))
      user.wallet.cryptoHoldings { cryptoId := cryptocurrency.id, amount := amount } hnone (by simp)
    rw [hstate]
    simp only [Routes.postSell, hamount, if_false, hu1, hc1, hh1, lt_self_iff_false, sub_self,
      if_true, hdel]
    refine ⟨_, find_replaceFirst _ _ _ _ hu1 (by simp), ?_⟩
    exact hnone

/-! ## Evaluations on the sample data -/

theorem toUpperCase_BTC : toUpperCase "BTC" = "BTC" := by decide

theorem quote100_BTC (symbol : String) (h : symbol = "BTC") :
    quote100 (toUpperCase symbol) = some { name := "Bitcoin", price := 100 } := by
  subst h
  simp [quote100, toUpperCase_BTC]

theorem quote200_BTC (symbol : String) (h : symbol = "BTC") :
    quote200 (toUpperCase symbol) = some { name := "Bitcoin", price := 200 } := by
  subst h
  simp [quote200, toUpperCase_BTC]

theorem buyCrypto_buyTwo :
    buyCrypto quote100 "u1" buyTwo sampleDb =
      ({ users := [{ id := "u1", accountBalance := 800 }]
         wallets := [holderWallet]
         transactions := [buyTwoTransaction] },
       .success "Purchase successful" buyTwoTransaction) := by
  simp [buyCrypto, buyTwo, quote100, sampleDb, toUpperCase_BTC, findById, findOne, saveUser,
    replaceFirst, holderWallet, buyTwoTransaction]
  norm_num

theorem buyCrypto_buyOneByCard :
    buyCrypto quote100 "u1" buyOneByCard sampleDb =
      ({ users := [{ id := "u1", accountBalance := 1000 }]
         wallets := [oneCoinWallet]
         transactions := [buyOneTransaction 100] },
       .success "Purchase successful" (buyOneTransaction 100)) := by
  simp [buyCrypto, buyOneByCard, quote100, sampleDb, toUpperCase_BTC, findOne,
    oneCoinWallet, buyOneTransaction]

theorem buyCrypto_buyOneByCard_again :
    buyCrypto quote200 "u1" buyOneByCard (buyCrypto quote100 "u1" buyOneByCard sampleDb).1 =
      ({ users := [{ id := "u1", accountBalance := 1000 }]
         wallets := [{ user := "u1", symbol := "BTC", name := "Bitcoin", amount := 2,
                       purchaseValue := 300, averagePrice := some 150 }]
         transactions := [buyOneTransaction 100, buyOneTransaction 200] },
       .success "Purchase successful" (buyOneTransaction 200)) := by
  rw [buyCrypto_buyOneByCard]
  simp [buyCrypto, buyOneByCard, quote200, toUpperCase_BTC, findOne, saveWallet, replaceFirst,
    oneCoinWallet, buyOneTransaction, jsDiv]
  norm_num

theorem sellCrypto_holder_one :
    sellCrypto quote100 "u1" { symbol := "BTC", amount := 1 } holderDb =
      ({ users := [{ id := "u1", accountBalance := 100 }]
         wallets := [{ holderWallet with amount := 1 }]
         transactions := [sellTransaction 1] },
       .success "Sale successful" (sellTransaction 1)) := by
  simp [sellCrypto, quote100, holderDb, toUpperCase_BTC, findById, findOne, saveUser,
    saveWallet, replaceFirst, holderWallet, sellTransaction]
  norm_num

theorem sellCrypto_holder_minus_one :
    sellCrypto quote100 "u1" { symbol := "BTC", amount := -1 } holderDb =
      ({ users := [{ id := "u1", accountBalance := -100 }]
         wallets := [{ holderWallet with amount := 3 }]
         transactions := [sellTransaction (-1)] },
       .success "Sale successful" (sellTransaction (-1))) := by
  simp [sellCrypto, quote100, holderDb, toUpperCase_BTC, findById, findOne, saveUser,
    saveWallet, replaceFirst, holderWallet, sellTransaction]
  norm_num


theorem sellCrypto_after_buyTwo_all :
    sellCrypto quote100 "u1" { symbol := "BTC", amount := 2 }
        (buyCrypto quote100 "u1" buyTwo sampleDb).1 =
      ({ users := [{ id := "u1", accountBalance := 1000 }]
         wallets := []
         transactions := [buyTwoTransaction, sellTransaction 2] },
       .success "Sale successful" (sellTransaction 2)) := by
  rw [buyCrypto_buyTwo]
  simp [sellCrypto, quote100, toUpperCase_BTC, findById, findOne, saveUser, deleteWallet,
    replaceFirst, holderWallet, sellTransaction]
  norm_num

theorem sellCrypto_after_buyTwo_one :
    sellCrypto quote100 "u1" { symbol := "BTC", amount := 1 }
        (buyCrypto quote100 "u1" buyTwo sampleDb).1 =
      ({ users := [{ id := "u1", accountBalance := 900 }]
         wallets := [{ holderWallet with amount := 1 }]
         transactions := [buyTwoTransaction, sellTransaction 1] },
       .success "Sale successful" (sellTransaction 1)) := by
  rw [buyCrypto_buyTwo]
  simp [sellCrypto, quote100, toUpperCase_BTC, findById, findOne, saveUser, saveWallet,
    replaceFirst, holderWallet, sellTransaction]
  norm_num

theorem findOne_holderDb :
    findOne holderDb.wallets "u1" (toUpperCase "BTC") = some holderWallet := by
  simp [findOne, holderDb, holderWallet, toUpperCase_BTC]

/-! ## Instances of the theorems -/

/-- C1, an instance: buying 2 BTC at 100 from a balance of 1000 leaves 800. -/
theorem buyCrypto_cashBalance_witness :
    quote100 (toUpperCase buyTwo.symbol) = some { name := "Bitcoin", price := 100 } ∧
    (buyCrypto quote100 "u1" buyTwo sampleDb).2 =
      .success "Purchase successful" buyTwoTransaction ∧
    ((buyTwo.paymentMethod = "balance" →
      ∃ user, findById sampleDb.users "u1" = some user ∧
        findById (buyCrypto quote100 "u1" buyTwo sampleDb).1.users "u1" =
          some { user with
                 accountBalance :=
                   user.accountBalance - buyTwo.amount * (CoinData.mk "Bitcoin" 100).price }) ∧
    (buyTwo.paymentMethod ≠ "balance" →
      (buyCrypto quote100 "u1" buyTwo sampleDb).1.users = sampleDb.users)) :=
  ⟨quote100_BTC _ rfl, by rw [buyCrypto_buyTwo],
   buyCrypto_cashBalance quote100 "u1" buyTwo sampleDb { name := "Bitcoin", price := 100 }
     "Purchase successful" buyTwoTransaction (quote100_BTC _ rfl)
     (by rw [buyCrypto_buyTwo])⟩

/-- C2, an instance: selling 1 of 2 BTC at 100 from a balance of 0 settles with
a balance of 100 and a position of 1. -/
theorem sellCrypto_settles_witness :
    WalletsUnique holderDb.wallets ∧
    findOne holderDb.wallets "u1" (toUpperCase "BTC") = some holderWallet ∧
    (1 : ℚ) ≤ holderWallet.amount ∧
    quote100 (toUpperCase "BTC") = some { name := "Bitcoin", price := 100 } ∧
    findById holderDb.users "u1" = some { id := "u1", accountBalance := 0 } ∧
    (∃ transaction,
      (sellCrypto quote100 "u1" { symbol := "BTC", amount := 1 } holderDb).2 =
        .success "Sale successful" transaction) ∧
    findById (sellCrypto quote100 "u1" { symbol := "BTC", amount := 1 } holderDb).1.users "u1" =
      some { id := "u1", accountBalance := 0 + 1 * 100 } ∧
    findOne (sellCrypto quote100 "u1" { symbol := "BTC", amount := 1 } holderDb).1.wallets "u1"
        (toUpperCase "BTC") =
      if holderWallet.amount - 1 = 0 then none
      else some { holderWallet with amount := holderWallet.amount - 1 } :=
  ⟨by simp [WalletsUnique, holderDb], findOne_holderDb, by norm_num [holderWallet],
   quote100_BTC _ rfl, by simp [findById, holderDb],
   sellCrypto_settles quote100 "u1" { symbol := "BTC", amount := 1 } holderDb holderWallet
     { name := "Bitcoin", price := 100 } { id := "u1", accountBalance := 0 }
     (by simp [WalletsUnique, holderDb]) findOne_holderDb (by norm_num [holderWallet])
     (quote100_BTC _ rfl) (by simp [findById, holderDb])⟩

/-- C3, an instance: buying 20 BTC at 100 from a balance of 1000 is rejected. -/
theorem buyCrypto_insufficient_funds_witness :
    buyTwenty.paymentMethod = "balance" ∧
    quote100 (toUpperCase buyTwenty.symbol) = some { name := "Bitcoin", price := 100 } ∧
    findById sampleDb.users "u1" = some { id := "u1", accountBalance := 1000 } ∧
    (1000 : ℚ) < buyTwenty.amount * 100 ∧
    buyCrypto quote100 "u1" buyTwenty sampleDb = (sampleDb, .failure 400 "Insufficient funds") :=
  ⟨rfl, quote100_BTC _ rfl, by simp [findById, sampleDb], by norm_num [buyTwenty],
   buyCrypto_insufficient_funds quote100 "u1" buyTwenty sampleDb
     { name := "Bitcoin", price := 100 } { id := "u1", accountBalance := 1000 } rfl
     (quote100_BTC _ rfl) (by simp [findById, sampleDb]) (by norm_num [buyTwenty])⟩

/-- C4, an instance: selling 3 BTC from a position of 2 is rejected. -/
theorem sellCrypto_insufficient_holdings_witness :
    (findOne holderDb.wallets "u1" (toUpperCase "BTC") = none ∨
      ∃ wallet, findOne holderDb.wallets "u1" (toUpperCase "BTC") = some wallet ∧
        wallet.amount < 3) ∧
    sellCrypto quote100 "u1" { symbol := "BTC", amount := 3 } holderDb =
      (holderDb, .failure 400 "Insufficient crypto balance") :=
  ⟨Or.inr ⟨holderWallet, findOne_holderDb, by norm_num [holderWallet]⟩,
   sellCrypto_insufficient_holdings quote100 "u1" { symbol := "BTC", amount := 3 } holderDb
     (Or.inr ⟨holderWallet, findOne_holderDb, by norm_num [holderWallet]⟩)⟩

/-- C5, an instance: 1 BTC bought at 100 and 1 BTC bought at 200 make a position
of quantity 2, cost basis 300 and average price 150. -/
theorem buyCrypto_position_witness :
    quote200 (toUpperCase buyOneByCard.symbol) = some { name := "Bitcoin", price := 200 } ∧
    (buyCrypto quote200 "u1" buyOneByCard
      (buyCrypto quote100 "u1" buyOneByCard sampleDb).1).2 =
        .success "Purchase successful" (buyOneTransaction 200) ∧
    findOne (buyCrypto quote100 "u1" buyOneByCard sampleDb).1.wallets "u1"
      (toUpperCase buyOneByCard.symbol) = some oneCoinWallet ∧
    findOne
        (buyCrypto quote200 "u1" buyOneByCard
          (buyCrypto quote100 "u1" buyOneByCard sampleDb).1).1.wallets
        "u1" (toUpperCase buyOneByCard.symbol) =
      some { oneCoinWallet with
             amount := 1 + 1
             purchaseValue := 100 + 1 * 200
             averagePrice := jsDiv (100 + 1 * 200) (1 + 1) } ∧
    jsDiv (100 + 1 * 200) (1 + 1) = some 150 := by
  have hquote := quote200_BTC buyOneByCard.symbol rfl
  have hok : (buyCrypto quote200 "u1" buyOneByCard
      (buyCrypto quote100 "u1" buyOneByCard sampleDb).1).2 =
        .success "Purchase successful" (buyOneTransaction 200) := by
    rw [buyCrypto_buyOneByCard_again]
  have hwallet : findOne (buyCrypto quote100 "u1" buyOneByCard sampleDb).1.wallets "u1"
      (toUpperCase buyOneByCard.symbol) = some oneCoinWallet := by
    rw [buyCrypto_buyOneByCard]
    simp [findOne, oneCoinWallet, buyOneByCard, toUpperCase_BTC]
  refine ⟨hquote, hok, hwallet, ?_, ?_⟩
  · exact (buyCrypto_position quote200 "u1" buyOneByCard
      (buyCrypto quote100 "u1" buyOneByCard sampleDb).1 { name := "Bitcoin", price := 200 }
      "Purchase successful" (buyOneTransaction 200) hquote hok).1 oneCoinWallet hwallet
  · norm_num [jsDiv]

/-- C7, an instance: buying 2 BTC at 100 and then selling 2 BTC leaves no wallet
for BTC. -/
theorem buy_then_sell_all_removes_witness :
    findOne sampleDb.wallets "u1" (toUpperCase "BTC") = none ∧
    (buyCrypto quote100 "u1" ⟨"BTC", 2, "balance"⟩ sampleDb).2 =
      .success "Purchase successful" buyTwoTransaction ∧
    (sellCrypto quote100 "u1" ⟨"BTC", 2⟩
      (buyCrypto quote100 "u1" ⟨"BTC", 2, "balance"⟩ sampleDb).1).2 =
        .success "Sale successful" (sellTransaction 2) ∧
    findOne
      (sellCrypto quote100 "u1" ⟨"BTC", 2⟩
        (buyCrypto quote100 "u1" ⟨"BTC", 2, "balance"⟩ sampleDb).1).1.wallets
      "u1" (toUpperCase "BTC") = none :=
  ⟨by simp [findOne, sampleDb], by rw [← buyTwo, buyCrypto_buyTwo],
   by rw [← buyTwo, sellCrypto_after_buyTwo_all],
   buy_then_sell_all_removes quote100 quote100 "u1" "BTC" "balance" 2 sampleDb
     "Purchase successful" "Sale successful" buyTwoTransaction (sellTransaction 2)
     (by simp [findOne, sampleDb]) (by rw [← buyTwo, buyCrypto_buyTwo])
     (by rw [← buyTwo, sellCrypto_after_buyTwo_all])⟩


/-! ## Where the handlers leave the specification -/

/-- C6, evaluated: selling 1 BTC from a position of quantity 2 and cost basis 200
leaves a position of quantity 1 whose cost basis is still 200, where the
proportional reduction `C - (q / Q) * C` is 100. -/
theorem sellCrypto_keeps_purchaseValue :
    findOne (sellCrypto quote100 "u1" { symbol := "BTC", amount := 1 } holderDb).1.wallets
        "u1" "BTC" =
      some { user := "u1", symbol := "BTC", name := "Bitcoin", amount := 1,
             purchaseValue := 200, averagePrice := some 100 } ∧
    holderWallet.purchaseValue - (1 / holderWallet.amount) * holderWallet.purchaseValue = 100 := by
  rw [sellCrypto_holder_one]
  constructor
  · simp [findOne, holderWallet]
  · norm_num [holderWallet]

/-- C8, evaluated: from a balance of 0 and a position of 2 BTC, the request
`{ symbol: "BTC", amount: -1 }` is answered `Sale successful` at the price 100
and leaves `accountBalance` at -100 (and the position at 3). -/
theorem sellCrypto_negative_amount_overdraws :
    findById holderDb.users "u1" = some { id := "u1", accountBalance := 0 } ∧
    (sellCrypto quote100 "u1" { symbol := "BTC", amount := -1 } holderDb).2 =
      .success "Sale successful" (sellTransaction (-1)) ∧
    findById (sellCrypto quote100 "u1" { symbol := "BTC", amount := -1 } holderDb).1.users "u1" =
      some { id := "u1", accountBalance := -100 } ∧
    findOne (sellCrypto quote100 "u1" { symbol := "BTC", amount := -1 } holderDb).1.wallets
        "u1" "BTC" =
      some { holderWallet with amount := 3 } := by
  rw [sellCrypto_holder_minus_one]
  refine ⟨?_, rfl, ?_, ?_⟩
  · simp [findById, holderDb]
  · simp [findById]
  · simp [findOne, holderWallet]

/-- C9, evaluated: the request `{ symbol: "BTC", amount: -1, paymentMethod:
"balance" }` is not rejected: at the price 100 it is answered `Purchase
successful`, raises `accountBalance` from 1000 to 1100 and creates a wallet of
quantity -1. -/
theorem buyCrypto_accepts_negative_amount :
    buyCrypto quote100 "u1" buyMinusOne sampleDb =
      ({ users := [{ id := "u1", accountBalance := 1100 }]
         wallets := [{ user := "u1", symbol := "BTC", name := "Bitcoin", amount := -1,
                       purchaseValue := -100, averagePrice := some 100 }]
         transactions := [{ user := "u1", type := .buy, symbol := some "BTC", amount := -1,
                            price := some 100, totalValue := -100,
                            paymentMethod := some "balance", details := none }] },
       .success "Purchase successful"
         { user := "u1", type := .buy, symbol := some "BTC", amount := -1,
           price := some 100, totalValue := -100,
           paymentMethod := some "balance", details := none }) := by
  simp [buyCrypto, buyMinusOne, quote100, sampleDb, toUpperCase_BTC, findById, findOne,
    saveUser, replaceFirst]
  norm_num

/-- C10, evaluated: after buying 2 BTC at 100 and selling 1, the stored position
has quantity 1, cost basis 200 and `averagePrice` 100, while cost basis
divided by quantity is 200. -/
theorem sellCrypto_breaks_averagePrice :
    ∃ wallet,
      findOne
        (sellCrypto quote100 "u1" { symbol := "BTC", amount := 1 }
          (buyCrypto quote100 "u1" buyTwo sampleDb).1).1.wallets "u1" "BTC" = some wallet ∧
      wallet.averagePrice = some 100 ∧
      jsDiv wallet.purchaseValue wallet.amount = some 200 := by
  rw [sellCrypto_after_buyTwo_one]
  refine ⟨{ holderWallet with amount := 1 }, ?_, rfl, ?_⟩
  · simp [findOne, holderWallet]
  · norm_num [jsDiv, holderWallet]


/-! ## Quantities of the stored positions -/

theorem mem_replaceFirst {α : Type} (p : α → Bool) (new : α) (l : List α) (x : α)
    (h : x ∈ replaceFirst p new l) : x = new ∨ x ∈ l := by
  induction l with
  | nil => simp [replaceFirst] at h
  | cons a t ih =>
    cases ha : p a with
    | true =>
      simp only [replaceFirst, ha, if_true, List.mem_cons] at h
      rcases h with h | h
      · exact Or.inl h
      · exact Or.inr (List.mem_cons_of_mem _ h)
    | false =>
      simp only [replaceFirst, ha, Bool.false_eq_true, if_false, List.mem_cons] at h
      rcases h with h | h
      · exact Or.inr (by simp [h])
      · rcases ih h with h | h
        · exact Or.inl h
        · exact Or.inr (List.mem_cons_of_mem _ h)

/-- A sell, whatever its amount and its outcome, keeps every stored quantity
above zero: the wallet it touches is deleted when its quantity is `≤ 0`. -/
theorem sellCrypto_positions_positive (quote : Quote) (uid : String) (body : SellBody)
    (db : Db) (hpos : PositionsPositive db.wallets) :
    PositionsPositive (sellCrypto quote uid body db).1.wallets := by
  unfold sellCrypto
  cases hwallet : findOne db.wallets uid (toUpperCase body.symbol) with
  | none => exact hpos
  | some wallet =>
    by_cases hlt : wallet.amount < body.amount
    · simpa [hlt] using hpos
    · cases hquote : quote (toUpperCase body.symbol) with
      | none => simpa [hlt] using hpos
      | some coinData =>
        have hwallets : PositionsPositive
            (if wallet.amount - body.amount ≤ 0 then
              deleteWallet db.wallets { wallet with amount := wallet.amount - body.amount }
            else saveWallet db.wallets { wallet with amount := wallet.amount - body.amount }) := by
          by_cases hle : wallet.amount - body.amount ≤ 0
          · simp only [hle, if_true]
            intro w hw
            exact hpos w (List.mem_of_mem_eraseP hw)
          · simp only [hle, if_false]
            intro w hw
            rcases mem_replaceFirst _ _ _ _ hw with h | h
            · rw [h]
              exact not_le.mp hle
            · exact hpos w h
        cases huser : findById db.users uid with
        | none => simpa [hlt] using hwallets
        | some user => simpa [hlt] using hwallets

/-- A buy of a quantity above zero that settled keeps every stored quantity
above zero. -/
theorem buyCrypto_positions_positive (quote : Quote) (uid : String) (body : BuyBody)
    (db : Db) (msg : String) (transaction : CryptoTransaction)
    (hpos : PositionsPositive db.wallets) (hamount : 0 < body.amount)
    (hok : (buyCrypto quote uid body db).2 = .success msg transaction) :
    PositionsPositive (buyCrypto quote uid body db).1.wallets := by
  obtain ⟨coinData, hquote⟩ := buyCrypto_success_quote quote uid body db msg transaction hok
  rw [buyCrypto_wallets quote uid body db coinData msg transaction hquote hok]
  cases hwallet : findOne db.wallets uid (toUpperCase body.symbol) with
  | none =>
    intro w hw
    simp only [List.mem_append, List.mem_singleton] at hw
    rcases hw with h | h
    · exact hpos w h
    · rw [h]
      exact hamount
  | some wallet =>
    have hmem : wallet ∈ db.wallets := List.mem_of_find?_eq_some hwallet
    intro w hw
    rcases mem_replaceFirst _ _ _ _ hw with h | h
    · rw [h]
      exact add_pos (hpos wallet hmem) hamount
    · exact hpos w h

theorem modifyFirst_eq_replaceFirst {α : Type} (p : α → Bool) (f : α → α) (x : α)
    (l : List α) (hfind : l.find? p = some x) :
    Routes.modifyFirst p f l = replaceFirst p (f x) l := by
  induction l with
  | nil => simp at hfind
  | cons a t ih =>
    cases hpa : p a with
    | true =>
      simp only [List.find?_cons, hpa, Option.some.injEq] at hfind
      subst hfind
      simp [Routes.modifyFirst, replaceFirst, hpa]
    | false =>
      simp only [List.find?_cons, hpa] at hfind
      simp [Routes.modifyFirst, replaceFirst, hpa, ih hfind]

/-- The routes of `routes/transactions.js` keep every held quantity above zero:
a buy or a sale, whatever its outcome, of a database in which every holding of
every user is above zero leaves such a database. -/
theorem routes_holdings_positive (uid cryptoId : String) (amount : ℚ) (db : Routes.Db)
    (hpos : ∀ u ∈ db.users, ∀ h ∈ u.wallet.cryptoHoldings, 0 < h.amount) :
    (∀ u ∈ (Routes.postBuy uid cryptoId amount db).1.users,
      ∀ h ∈ u.wallet.cryptoHoldings, 0 < h.amount) ∧
    (∀ u ∈ (Routes.postSell uid cryptoId amount db).1.users,
      ∀ h ∈ u.wallet.cryptoHoldings, 0 < h.amount) := by
  by_cases hamount : amount = 0 ∨ amount ≤ 0
  · simpa [Routes.postBuy, Routes.postSell, hamount] using hpos
  have hgt : 0 < amount := by
    have h := not_or.mp hamount
    exact not_le.mp h.2
  cases huser : db.users.find? (fun u => u.id = uid) with
  | none => simpa [Routes.postBuy, Routes.postSell, hamount, huser] using hpos
  | some user =>
    have humem : user ∈ db.users := List.mem_of_find?_eq_some huser
    cases hcrypto : db.cryptocurrencies.find? (fun c => c.id = cryptoId) with
    | none => simpa [Routes.postBuy, Routes.postSell, hamount, huser, hcrypto] using hpos
    | some cryptocurrency =>
      constructor
      · by_cases hbal : user.wallet.balance < amount * cryptocurrency.currentPrice
        · simpa [Routes.postBuy, hamount, huser, hcrypto, hbal] using hpos
        by_cases hsup : cryptocurrency.availableSupply < amount
        · simpa [Routes.postBuy, hamount, huser, hcrypto, hbal, hsup] using hpos
        simp only [Routes.postBuy, hamount, if_false, huser, hcrypto, hbal, hsup]
        intro u hu h hh
        rcases mem_replaceFirst _ _ _ _ hu with hnew | hold
        · subst hnew
          cases hfind : user.wallet.cryptoHoldings.find? (fun h => h.cryptoId = cryptoId) with
          | none =>
            simp only [hfind, List.mem_append, List.mem_singleton] at hh
            rcases hh with hh | hh
            · exact hpos user humem h hh
            · rw [hh]
              exact hgt
          | some holding =>
            simp only [hfind] at hh
            rw [modifyFirst_eq_replaceFirst _ _ holding _ hfind] at hh
            rcases mem_replaceFirst _ _ _ _ hh with hh | hh
            · rw [hh]
              exact add_pos (hpos user humem holding (List.mem_of_find?_eq_some hfind)) hgt
            · exact hpos user humem h hh
        · exact hpos u hold h hh
      · cases hfind : user.wallet.cryptoHoldings.find? (fun h => h.cryptoId = cryptoId) with
        | none => simpa [Routes.postSell, hamount, huser, hcrypto, hfind] using hpos
        | some holding =>
          by_cases hlt : holding.amount < amount
          · simpa [Routes.postSell, hamount, huser, hcrypto, hfind, hlt] using hpos
          simp only [Routes.postSell, hamount, if_false, huser, hcrypto, hfind, hlt]
          intro u hu h hh
          rcases mem_replaceFirst _ _ _ _ hu with hnew | hold
          · subst hnew
            by_cases hzero : holding.amount - amount = 0
            · simp only [hzero, if_true] at hh
              exact hpos user humem h (List.mem_of_mem_eraseP hh)
            · simp only [hzero, if_false] at hh
              rw [modifyFirst_eq_replaceFirst _ _ holding _ hfind] at hh
              rcases mem_replaceFirst _ _ _ _ hh with hh | hh
              · rw [hh]
                exact lt_of_le_of_ne (sub_nonneg.mpr (not_lt.mp hlt)) (Ne.symm hzero)
              · exact hpos user humem h hh
          · exact hpos u hold h hh

/-! ## `depositFunds` and `withdrawFunds` -/

/-- The result of `withdrawFunds` for a request without validation errors whose
amount the balance covers. -/
theorem withdrawFunds_covered (errors : List String) (uid : String) (body : WithdrawBody)
    (db : Db) (user : User) (herr : errors.isEmpty = true)
    (huser : findById db.users uid = some user) (hle : body.amount ≤ user.accountBalance) :
    withdrawFunds errors uid body db =
      ({ db with
         users := saveUser db.users
           { user with accountBalance := user.accountBalance - body.amount }
         transactions := db.transactions ++
           [{ user := uid, type := .withdraw, symbol := none, amount := body.amount,
              price := none, totalValue := body.amount,
              paymentMethod := some body.withdrawMethod,
              details := some body.accountDetails }] },
       .success "Withdrawal initiated"
         { user := uid, type := .withdraw, symbol := none, amount := body.amount,
           price := none, totalValue := body.amount,
           paymentMethod := some body.withdrawMethod,
           details := some body.accountDetails }) := by
  have hnlt : ¬ user.accountBalance < body.amount := not_lt.mpr hle
  simp only [withdrawFunds, herr, not_true_eq_false, if_false, huser, hnlt]

/-- The result of `depositFunds` for a request without validation errors. -/
theorem depositFunds_accepted (errors : List String) (uid : String) (body : DepositBody)
    (db : Db) (user : User) (herr : errors.isEmpty = true)
    (huser : findById db.users uid = some user) :
    depositFunds errors uid body db =
      ({ db with
         users := saveUser db.users
           { user with accountBalance := user.accountBalance + body.amount }
         transactions := db.transactions ++
           [{ user := uid, type := .deposit, symbol := none, amount := body.amount,
              price := none, totalValue := body.amount,
              paymentMethod := some body.paymentMethod, details := none }] },
       .success "Deposit successful"
         { user := uid, type := .deposit, symbol := none, amount := body.amount,
           price := none, totalValue := body.amount,
           paymentMethod := some body.paymentMethod, details := none }) := by
  simp only [depositFunds, herr, not_true_eq_false, if_false, huser]

/-- C12.  For a request that passed validation (no recorded error) of a user
with balance `user.accountBalance`: when the amount is greater than the
balance, `withdrawFunds` answers `400 Insufficient funds` and the database is
the one before, so no transaction is recorded and the balance is unchanged;
when the amount is at most the balance, it answers `Withdrawal initiated`, the
new balance is the old one minus the amount, and exactly one transaction of
type `withdraw` with `totalValue = amount` is appended. -/
theorem withdrawFunds_iff_covered (errors : List String) (uid : String) (body : WithdrawBody)
    (db : Db) (user : User) (herr : errors.isEmpty = true)
    (huser : findById db.users uid = some user) :
    (user.accountBalance < body.amount →
      withdrawFunds errors uid body db = (db, .failure 400 "Insufficient funds")) ∧
    (body.amount ≤ user.accountBalance →
      ∃ transaction,
        (withdrawFunds errors uid body db).2 = .success "Withdrawal initiated" transaction ∧
        findById (withdrawFunds errors uid body db).1.users uid =
          some { user with accountBalance := user.accountBalance - body.amount } ∧
        (withdrawFunds errors uid body db).1.transactions = db.transactions ++ [transaction] ∧
        transaction.type = .withdraw ∧ transaction.totalValue = body.amount) := by
  constructor
  · intro hlt
    simp [withdrawFunds, herr, huser, hlt]
  · intro hle
    rw [withdrawFunds_covered errors uid body db user herr huser hle]
    exact ⟨_, rfl, findById_saveUser huser _, rfl, rfl, rfl⟩

/-- The chain `validators.depositValidation` records no error exactly for an
amount of at least 1 and one of the three payment methods. -/
theorem depositValidation_isEmpty (body : DepositBody) :
    (depositValidation body).isEmpty = true ↔
      1 ≤ body.amount ∧ body.paymentMethod ∈ ["credit_card", "bank_transfer", "paypal"] := by
  unfold depositValidation
  by_cases h1 : 1 ≤ body.amount <;>
    by_cases h2 : body.paymentMethod ∈ ["credit_card", "bank_transfer", "paypal"] <;>
    simp [h1, h2]

/-- The route `addFunds` of the other ledger: an amount above zero for a known
user is added to the wallet balance; the holdings and the transaction log stay
as they were (that ledger has no deposit transactions). -/
theorem addFunds_settles (uid : String) (amount : ℚ) (db : Routes.Db) (user : Routes.User)
    (hamount : 0 < amount) (huser : db.users.find? (fun u => u.id = uid) = some user) :
    (Routes.addFunds uid amount db).1.users.find? (fun u => u.id = uid) =
      some { user with wallet := { user.wallet with balance := user.wallet.balance + amount } } ∧
    (Routes.addFunds uid amount db).1.transactions = db.transactions ∧
    (Routes.addFunds uid amount db).1.cryptocurrencies = db.cryptocurrencies := by
  have h1 : ¬ amount = 0 := ne_of_gt hamount
  have h2 : ¬ amount ≤ 0 := not_le.mpr hamount
  have hid : user.id = uid := by simpa using List.find?_some huser
  subst hid
  simp only [Routes.addFunds, h1, h2, or_self, if_false, huser, and_true]
  exact find_replaceFirst _ _ user db.users huser (by simp)

/-! ## `getUserPortfolio` -/

/-- An entry computed from a position whose cost basis is 0 has a
`profitPercentage` that is not a finite number. -/
theorem portfolioEntry_zero_purchaseValue (coinData : CoinData) (wallet : UserWallet)
    (hzero : wallet.purchaseValue = 0) :
    (portfolioEntry coinData wallet).profitPercentage = none := by
  simp [portfolioEntry, jsDiv, hzero]

theorem portfolioOf_forall2 (quote : Quote) (wallets : List UserWallet)
    (hquote : ∀ w ∈ wallets, ∃ coinData, quote w.symbol = some coinData) :
    ∃ entries, portfolioOf quote wallets = some entries ∧
      List.Forall₂
        (fun wallet entry =>
          ∃ coinData, quote wallet.symbol = some coinData ∧
            entry = portfolioEntry coinData wallet)
        wallets entries := by
  induction wallets with
  | nil => exact ⟨[], rfl, List.Forall₂.nil⟩
  | cons wallet rest ih =>
    obtain ⟨coinData, hcoin⟩ := hquote wallet (List.mem_cons_self _ _)
    obtain ⟨entries, hentries, hall⟩ :=
      ih (fun w hw => hquote w (List.mem_cons_of_mem _ hw))
    refine ⟨portfolioEntry coinData wallet :: entries, ?_, ?_⟩
    · simp [portfolioOf, hcoin, hentries]
    · exact List.Forall₂.cons ⟨coinData, hcoin, rfl⟩ hall

/-- C16.  When the quote has an entry for the symbol of every wallet of the
user, `getUserPortfolio` answers with one entry per wallet of the user, in the
order of the wallets, with `value = amount * price`,
`profit = value - purchaseValue` and, for a cost basis that is not 0,
`profitPercentage = profit / purchaseValue * 100`; the database after the
request is the database before it. -/
theorem getUserPortfolio_entries (quote : Quote) (uid : String) (db : Db)
    (hquote : ∀ w ∈ db.wallets, w.user = uid → ∃ coinData, quote w.symbol = some coinData) :
    ∃ entries, getUserPortfolio quote uid db = (db, .portfolio entries) ∧
      List.Forall₂
        (fun wallet entry =>
          ∃ coinData, quote wallet.symbol = some coinData ∧
            entry.coin = wallet.symbol ∧ entry.name = coinData.name ∧
            entry.amount = wallet.amount ∧ entry.currentPrice = coinData.price ∧
            entry.purchaseValue = wallet.purchaseValue ∧
            entry.value = wallet.amount * coinData.price ∧
            entry.profit = entry.value - wallet.purchaseValue ∧
            (wallet.purchaseValue ≠ 0 →
              entry.profitPercentage = some (entry.profit / wallet.purchaseValue * 100)))
        (db.wallets.filter (fun w => w.user = uid)) entries := by
  have hq : ∀ w ∈ db.wallets.filter (fun w => w.user = uid),
      ∃ coinData, quote w.symbol = some coinData := by
    intro w hw
    have hw := List.mem_filter.mp hw
    exact hquote w hw.1 (by simpa using hw.2)
  obtain ⟨entries, hentries, hall⟩ := portfolioOf_forall2 quote _ hq
  refine ⟨entries, ?_, ?_⟩
  · unfold getUserPortfolio
    by_cases hlen : (db.wallets.filter (fun w => w.user = uid)).length = 0
    · have hnil : db.wallets.filter (fun w => w.user = uid) = [] :=
        List.length_eq_zero.mp hlen
      rw [hnil] at hentries
      simp only [portfolioOf, Option.some.injEq] at hentries
      simp [hnil, ← hentries]
    · simp only [hlen, if_false, hentries]
  · refine List.Forall₂.imp ?_ hall
    intro wallet entry h
    obtain ⟨coinData, hcoin, rfl⟩ := h
    refine ⟨coinData, hcoin, rfl, rfl, rfl, rfl, rfl, rfl, rfl, ?_⟩
    intro hne
    simp [portfolioEntry, jsDiv, hne]

/-! ## A failed price lookup -/

/-- C17.  When the price service has no answer for the symbol of the request,
`buyCrypto` answers `500 Server Error` and `sellCrypto` does not settle, and
after either the database (balances, wallets, transactions) is the one
before. -/
theorem failed_lookup_aborts (quote : Quote) (uid : String) (buyBody : BuyBody)
    (sellBody : SellBody) (db : Db)
    (hbuy : quote (toUpperCase buyBody.symbol) = none)
    (hsell : quote (toUpperCase sellBody.symbol) = none) :
    buyCrypto quote uid buyBody db = (db, serverError) ∧
    (sellCrypto quote uid sellBody db).1 = db ∧
    (∀ msg transaction, (sellCrypto quote uid sellBody db).2 ≠ .success msg transaction) := by
  refine ⟨by simp [buyCrypto, hbuy], ?_, ?_⟩
  · unfold sellCrypto
    cases hwallet : findOne db.wallets uid (toUpperCase sellBody.symbol) with
    | none => rfl
    | some wallet =>
      by_cases hlt : wallet.amount < sellBody.amount
      · simp [hlt]
      · simp [hlt, hsell]
  · intro msg transaction
    unfold sellCrypto
    cases hwallet : findOne db.wallets uid (toUpperCase sellBody.symbol) with
    | none => simp
    | some wallet =>
      by_cases hlt : wallet.amount < sellBody.amount
      · simp [hlt]
      · simp [hlt, hsell, serverError]

/-! ## `deleteAccount` -/

theorem find_eraseP_of_disjoint {α : Type} (p q : α → Bool) (l : List α)
    (hpq : ∀ a, p a = true → q a = false) :
    (l.eraseP p).find? q = l.find? q := by
  induction l with
  | nil => simp
  | cons a t ih =>
    cases hpa : p a with
    | true =>
      simp only [List.eraseP_cons, hpa, cond_true, List.find?_cons, hpq a hpa]
    | false =>
      simp only [List.eraseP_cons, hpa, cond_false, List.find?_cons, ih]

/-- C18.  For a user with at least one wallet document, `deleteAccount` answers
`400` and the database (users, wallets, transactions) is the one before.  For
a user with no wallet document it answers that the account is deleted: the
user document is gone, every other user document is as before, the
transactions that remain are exactly those of the other users, in their order,
and the wallets are as before. -/
theorem deleteAccount_only_without_wallets (uid : String) (db : Db)
    (hunique : UsersUnique db.users) :
    ((∃ w ∈ db.wallets, w.user = uid) →
      deleteAccount uid db =
        (db, .failure 400
          "Cannot delete account with active crypto wallets. Please sell all assets first.")) ∧
    ((∀ w ∈ db.wallets, w.user ≠ uid) →
      (deleteAccount uid db).2 = .deleted "User account deleted successfully" ∧
      findById (deleteAccount uid db).1.users uid = none ∧
      (∀ other, other ≠ uid →
        findById (deleteAccount uid db).1.users other = findById db.users other) ∧
      (deleteAccount uid db).1.transactions =
        db.transactions.filter (fun t => t.user ≠ uid) ∧
      (deleteAccount uid db).1.wallets = db.wallets) := by
  constructor
  · intro hex
    obtain ⟨w, hw, hu⟩ := hex
    have hmem : w ∈ db.wallets.filter (fun w => w.user = uid) :=
      List.mem_filter.mpr ⟨hw, by simpa using hu⟩
    have hlen : (db.wallets.filter (fun w => w.user = uid)).length > 0 :=
      List.length_pos_of_mem hmem
    simp only [deleteAccount, hlen, if_true]
  · intro hall
    have hnil : db.wallets.filter (fun w => w.user = uid) = [] := by
      rw [List.filter_eq_nil_iff]
      intro w hw
      simpa using hall w hw
    have hsame : db.wallets.filter (fun w => ¬ w.user = uid) = db.wallets := by
      rw [List.filter_eq_self]
      intro w hw
      simpa using hall w hw
    have hres : deleteAccount uid db =
        ({ users := db.users.eraseP (fun u => u.id = uid)
           wallets := db.wallets.filter (fun w => ¬ w.user = uid)
           transactions := db.transactions.filter (fun t => ¬ t.user = uid) },
         .deleted "User account deleted successfully") := by
      simp only [deleteAccount, hnil, List.length_nil, gt_iff_lt, lt_self_iff_false, if_false]
    rw [hres]
    refine ⟨rfl, ?_, ?_, ?_, hsame⟩
    · unfold findById
      refine find_eraseP_eq_none _ _ db.users hunique ?_
      intro a b ha hb hab
      have ha : a.id = uid := by simpa using ha
      have hb : b.id = uid := by simpa using hb
      exact hab (ha.trans hb.symm)
    · intro other hother
      unfold findById
      refine find_eraseP_of_disjoint _ _ db.users ?_
      intro a ha
      have ha : a.id = uid := by simpa using ha
      simp [ha, Ne.symm hother]
    · simp

/-! ## The transaction log -/

/-- The user document of a sell that settled. -/
theorem sellCrypto_success_user (quote : Quote) (uid : String) (body : SellBody) (db : Db)
    (msg : String) (transaction : CryptoTransaction)
    (hok : (sellCrypto quote uid body db).2 = .success msg transaction) :
    ∃ wallet coinData user,
      findOne db.wallets uid (toUpperCase body.symbol) = some wallet ∧
      ¬ wallet.amount < body.amount ∧
      quote (toUpperCase body.symbol) = some coinData ∧
      findById db.users uid = some user := by
  unfold sellCrypto at hok
  cases hwallet : findOne db.wallets uid (toUpperCase body.symbol) with
  | none => simp [hwallet] at hok
  | some wallet =>
    by_cases hlt : wallet.amount < body.amount
    · simp [hwallet, hlt] at hok
    · cases hquote : quote (toUpperCase body.symbol) with
      | none => simp [hwallet, hlt, hquote, serverError] at hok
      | some coinData =>
        cases huser : findById db.users uid with
        | none => simp [hwallet, hlt, hquote, huser, serverError] at hok
        | some user => exact ⟨wallet, coinData, user, rfl, hlt, rfl, rfl⟩

/-- A request that `buyCrypto` does not settle leaves the database as it was. -/
theorem buyCrypto_rejected (quote : Quote) (uid : String) (body : BuyBody) (db : Db)
    (hrej : ∀ msg transaction, (buyCrypto quote uid body db).2 ≠ .success msg transaction) :
    (buyCrypto quote uid body db).1 = db := by
  unfold buyCrypto at hrej ⊢
  cases hquote : quote (toUpperCase body.symbol) with
  | none => rfl
  | some coinData =>
    simp only [hquote] at hrej ⊢
    by_cases hpm : body.paymentMethod = "balance"
    · simp only [hpm, if_true] at hrej ⊢
      cases huser : findById db.users uid with
      | none => rfl
      | some user =>
        simp only [huser] at hrej ⊢
        by_cases hlt : user.accountBalance < coinData.price * body.amount
        · simp [hlt]
        · simp [hlt] at hrej
    · simp [hpm] at hrej

/-! ## `validateTransaction` -/

/-- Outside the property names inherited from `Object.prototype`,
`validateCryptoAmount` compares the amount with the minimum of the symbol:
`BTC` 0.00001, `ETH` 0.0001, `XRP`, `ADA` and `DOGE` 1, every other symbol
0.000001. -/
theorem validateCryptoAmount_minimum (symbol : String) (amount : ℚ)
    (hown : symbol ∉ objectPrototypeKeys) :
    validateCryptoAmount symbol amount =
      decide ((if symbol = "BTC" then (1 / 100000 : ℚ)
        else if symbol = "ETH" then 1 / 10000
        else if symbol = "XRP" ∨ symbol = "ADA" ∨ symbol = "DOGE" then 1
        else 1 / 1000000) ≤ amount) := by
  unfold validateCryptoAmount minimums
  by_cases h1 : symbol = "BTC"
  · simp [h1]
  by_cases h2 : symbol = "ETH"
  · simp [h1, h2]
  by_cases h3 : symbol = "XRP"
  · simp [h1, h2, h3]
  by_cases h4 : symbol = "ADA"
  · simp [h1, h2, h3, h4]
  by_cases h5 : symbol = "DOGE"
  · simp [h1, h2, h3, h4, h5]
  by_cases h6 : symbol = "DEFAULT"
  · simp [h1, h2, h3, h4, h5, h6]
  simp [h1, h2, h3, h4, h5, h6, hown]

/-- What `validateTransaction` returns outside transfers: a type outside the
five is answered `Invalid transaction type`; an amount `≤ 0` of a known type
`Amount must be greater than zero`; for `buy` and `sell` with a symbol that is
not empty the result is valid exactly when `amount > 0` and
`validateCryptoAmount symbol amount`; for `deposit` and `withdraw` exactly when
`amount > 0`. -/
theorem validateTransaction_cases (details : TransactionDetails) :
    (details.type ∉ ["buy", "sell", "transfer", "deposit", "withdraw"] →
      validateTransaction details =
        some { valid := false, error := some "Invalid transaction type" }) ∧
    (details.type ∈ ["buy", "sell", "transfer", "deposit", "withdraw"] →
      details.amount ≤ 0 →
      validateTransaction details =
        some { valid := false, error := some "Amount must be greater than zero" }) ∧
    (∀ symbol, (details.type = "buy" ∨ details.type = "sell") →
      details.symbol = some symbol → symbol ≠ "" →
      ∃ result, validateTransaction details = some result ∧
        (result.valid = true ↔
          0 < details.amount ∧ validateCryptoAmount symbol details.amount = true)) ∧
    ((details.type = "deposit" ∨ details.type = "withdraw") →
      ∃ result, validateTransaction details = some result ∧
        (result.valid = true ↔ 0 < details.amount)) := by
  refine ⟨?_, ?_, ?_, ?_⟩
  · intro htype
    simp [validateTransaction, htype]
  · intro htype hamount
    simp only [validateTransaction, htype, not_true_eq_false, if_false, hamount, if_true]
  · intro symbol htype hsymbol hne
    have hmem : details.type ∈ ["buy", "sell", "transfer", "deposit", "withdraw"] := by
      rcases htype with h | h <;> simp [h]
    have hcrypto : details.type ∈ ["buy", "sell", "transfer"] := by
      rcases htype with h | h <;> simp [h]
    have htransfer : ¬ details.type = "transfer" := by
      rcases htype with h | h <;> simp [h]
    by_cases hamount : details.amount ≤ 0
    · refine ⟨{ valid := false, error := some "Amount must be greater than zero" }, ?_, ?_⟩
      · simp only [validateTransaction, hmem, not_true_eq_false, if_false, hamount, if_true]
      · simp [not_lt.mpr hamount]
    · have hpos : 0 < details.amount := not_le.mp hamount
      cases hvalid : validateCryptoAmount symbol details.amount with
      | true =>
        refine ⟨{ valid := true, error := none }, ?_, by simp [hpos]⟩
        simp [validateTransaction, hmem, hamount, hcrypto, hsymbol, truthy, hne, hvalid,
          htransfer]
      | false =>
        refine ⟨{ valid := false, error := some ("Amount is below minimum for " ++ symbol) },
          ?_, by simp⟩
        simp [validateTransaction, hmem, hamount, hcrypto, hsymbol, truthy, hne, hvalid]
  · intro htype
    have hmem : details.type ∈ ["buy", "sell", "transfer", "deposit", "withdraw"] := by
      rcases htype with h | h <;> simp [h]
    have hcrypto : ¬ details.type ∈ ["buy", "sell", "transfer"] := by
      rcases htype with h | h <;> simp [h]
    by_cases hamount : details.amount ≤ 0
    · refine ⟨{ valid := false, error := some "Amount must be greater than zero" }, ?_, ?_⟩
      · simp only [validateTransaction, hmem, not_true_eq_false, if_false, hamount, if_true]
      · simp [not_lt.mpr hamount]
    · have hpos : 0 < details.amount := not_le.mp hamount
      refine ⟨{ valid := true, error := none }, ?_, by simp [hpos]⟩
      simp [validateTransaction, hmem, hamount, hcrypto]

/-! ## Instances of the later theorems -/

theorem withdrawValidation_withdrawFifty :
    (withdrawValidation withdrawFifty).isEmpty = true := by
  simp [withdrawValidation, withdrawFifty]

theorem withdrawValidation_withdrawFiveThousand :
    (withdrawValidation withdrawFiveThousand).isEmpty = true := by
  simp [withdrawValidation, withdrawFiveThousand]

theorem depositValidation_depositFifty :
    (depositValidation depositFifty).isEmpty = true := by
  simp [depositValidation, depositFifty]

theorem findById_sampleDb :
    findById sampleDb.users "u1" = some { id := "u1", accountBalance := 1000 } := by
  simp [findById, sampleDb]

/-- C12, an instance: from a balance of 1000 a withdrawal of 5000 is answered
`Insufficient funds` and a withdrawal of 50 leaves 950 and records one
transaction. -/
theorem withdrawFunds_iff_covered_witness :
    (withdrawValidation withdrawFifty).isEmpty = true ∧
    (withdrawValidation withdrawFiveThousand).isEmpty = true ∧
    findById sampleDb.users "u1" = some { id := "u1", accountBalance := 1000 } ∧
    withdrawFunds (withdrawValidation withdrawFiveThousand) "u1" withdrawFiveThousand sampleDb =
      (sampleDb, .failure 400 "Insufficient funds") ∧
    (∃ transaction,
      (withdrawFunds (withdrawValidation withdrawFifty) "u1" withdrawFifty sampleDb).2 =
        .success "Withdrawal initiated" transaction ∧
      findById (withdrawFunds (withdrawValidation withdrawFifty) "u1" withdrawFifty
        sampleDb).1.users "u1" = some { id := "u1", accountBalance := 1000 - 50 } ∧
      (withdrawFunds (withdrawValidation withdrawFifty) "u1" withdrawFifty
        sampleDb).1.transactions = sampleDb.transactions ++ [transaction] ∧
      transaction.type = .withdraw ∧ transaction.totalValue = 50) :=
  ⟨withdrawValidation_withdrawFifty, withdrawValidation_withdrawFiveThousand,
   findById_sampleDb,
   (withdrawFunds_iff_covered _ "u1" withdrawFiveThousand sampleDb _
     withdrawValidation_withdrawFiveThousand findById_sampleDb).1
     (by norm_num [withdrawFiveThousand]),
   (withdrawFunds_iff_covered _ "u1" withdrawFifty sampleDb _
     withdrawValidation_withdrawFifty findById_sampleDb).2
     (by norm_num [withdrawFifty])⟩

theorem quote100_holderDb :
    ∀ w ∈ holderDb.wallets, w.user = "u1" → ∃ coinData, quote100 w.symbol = some coinData := by
  intro w hw _
  simp only [holderDb, List.mem_singleton] at hw
  subst hw
  exact ⟨{ name := "Bitcoin", price := 100 }, by simp [quote100]⟩

/-- C16, an instance: the portfolio of the holder of 2 BTC bought for 200, at
the price 100, has one entry. -/
theorem getUserPortfolio_entries_witness :
    (∀ w ∈ holderDb.wallets, w.user = "u1" → ∃ coinData, quote100 w.symbol = some coinData) ∧
    ∃ entries, getUserPortfolio quote100 "u1" holderDb = (holderDb, .portfolio entries) ∧
      List.Forall₂
        (fun wallet entry =>
          ∃ coinData, quote100 wallet.symbol = some coinData ∧
            entry.coin = wallet.symbol ∧ entry.name = coinData.name ∧
            entry.amount = wallet.amount ∧ entry.currentPrice = coinData.price ∧
            entry.purchaseValue = wallet.purchaseValue ∧
            entry.value = wallet.amount * coinData.price ∧
            entry.profit = entry.value - wallet.purchaseValue ∧
            (wallet.purchaseValue ≠ 0 →
              entry.profitPercentage = some (entry.profit / wallet.purchaseValue * 100)))
        (holderDb.wallets.filter (fun w => w.user = "u1")) entries :=
  ⟨quote100_holderDb, getUserPortfolio_entries quote100 "u1" holderDb quote100_holderDb⟩

theorem quote100_ETH : quote100 (toUpperCase "ETH") = none := by
  have h : toUpperCase "ETH" = "ETH" := by decide
  simp [quote100, h]

/-- C17, an instance: with no quote for ETH, a buy and a sell of ETH leave the
database of the holder as it was. -/
theorem failed_lookup_aborts_witness :
    quote100 (toUpperCase "ETH") = none ∧
    buyCrypto quote100 "u1" ⟨"ETH", 1, "balance"⟩ holderDb = (holderDb, serverError) ∧
    (sellCrypto quote100 "u1" ⟨"ETH", 1⟩ holderDb).1 = holderDb ∧
    (∀ msg transaction,
      (sellCrypto quote100 "u1" ⟨"ETH", 1⟩ holderDb).2 ≠ .success msg transaction) :=
  ⟨quote100_ETH,
   failed_lookup_aborts quote100 "u1" ⟨"ETH", 1, "balance"⟩ ⟨"ETH", 1⟩ holderDb quote100_ETH
     quote100_ETH⟩

theorem usersUnique_twoUsersDb : UsersUnique twoUsersDb.users := by
  simp [UsersUnique, twoUsersDb]

/-- C18, an instance: of two users, the one with a wallet is not deleted; the
one without is deleted with its one transaction, and the transaction of the
other user stays. -/
theorem deleteAccount_only_without_wallets_witness :
    UsersUnique twoUsersDb.users ∧
    deleteAccount "u2" twoUsersDb =
      (twoUsersDb, .failure 400
        "Cannot delete account with active crypto wallets. Please sell all assets first.") ∧
    (deleteAccount "u1" twoUsersDb).2 = .deleted "User account deleted successfully" ∧
    findById (deleteAccount "u1" twoUsersDb).1.users "u1" = none ∧
    (deleteAccount "u1" twoUsersDb).1.transactions =
      twoUsersDb.transactions.filter (fun t => t.user ≠ "u1") :=
  ⟨usersUnique_twoUsersDb,
   (deleteAccount_only_without_wallets "u2" twoUsersDb usersUnique_twoUsersDb).1
     ⟨_, List.mem_singleton.mpr rfl, rfl⟩,
   ((deleteAccount_only_without_wallets "u1" twoUsersDb usersUnique_twoUsersDb).2
     (by simp [twoUsersDb])).1,
   ((deleteAccount_only_without_wallets "u1" twoUsersDb usersUnique_twoUsersDb).2
     (by simp [twoUsersDb])).2.1,
   ((deleteAccount_only_without_wallets "u1" twoUsersDb usersUnique_twoUsersDb).2
     (by simp [twoUsersDb])).2.2.2.1⟩

/-! ## Where the later handlers leave the specification -/

/-- C11, evaluated: the request `{ symbol: "BTC", amount: 0, paymentMethod:
"credit_card" }` is answered `Purchase successful` at the price 100 and leaves a
stored position of quantity 0. -/
theorem buyCrypto_zero_amount_stores_position :
    (buyCrypto quote100 "u1" buyZeroByCard sampleDb).2 =
      .success "Purchase successful"
        { user := "u1", type := .buy, symbol := some "BTC", amount := 0, price := some 100,
          totalValue := 0, paymentMethod := some "credit_card", details := none } ∧
    findOne (buyCrypto quote100 "u1" buyZeroByCard sampleDb).1.wallets "u1" "BTC" =
      some { user := "u1", symbol := "BTC", name := "Bitcoin", amount := 0,
             purchaseValue := 0, averagePrice := some 100 } := by
  have h : buyCrypto quote100 "u1" buyZeroByCard sampleDb =
      ({ users := [{ id := "u1", accountBalance := 1000 }]
         wallets := [{ user := "u1", symbol := "BTC", name := "Bitcoin", amount := 0,
                       purchaseValue := 0, averagePrice := some 100 }]
         transactions := [{ user := "u1", type := .buy, symbol := some "BTC", amount := 0,
                            price := some 100, totalValue := 0,
                            paymentMethod := some "credit_card", details := none }] },
       .success "Purchase successful"
         { user := "u1", type := .buy, symbol := some "BTC", amount := 0, price := some 100,
           totalValue := 0, paymentMethod := some "credit_card", details := none }) := by
    simp [buyCrypto, buyZeroByCard, quote100, sampleDb, toUpperCase_BTC, findOne]
  rw [h]
  exact ⟨rfl, by simp [findOne]⟩

/-- C15, evaluated: for a position of 1 BTC with cost basis 0 and a price of
100, `getUserPortfolio` answers with the entry whose `profitPercentage` is
`(100 - 0) / 0 * 100`, which is not a finite number (`Infinity`). -/
theorem getUserPortfolio_zero_cost_basis :
    getUserPortfolio quote100 "u1" freeCoinDb =
      (freeCoinDb,
       .portfolio
         [{ coin := "BTC", name := "Bitcoin", amount := 1, currentPrice := 100, value := 100,
            purchaseValue := 0, profit := 100, profitPercentage := none }]) := by
  simp [getUserPortfolio, freeCoinDb, portfolioOf, portfolioEntry, quote100, jsDiv]

/-- C20, evaluated: `validateTransaction` answers the purchase of 5 units of the
symbol `constructor` with `Amount is below minimum for constructor`, although 5
is above the minimum 0.000001 of an unlisted symbol. -/
theorem validateTransaction_inherited_symbol :
    validateTransaction
        { type := "buy", amount := 5, symbol := some "constructor", address := none } =
      some { valid := false, error := some "Amount is below minimum for constructor" } ∧
    (1 / 1000000 : ℚ) ≤ 5 := by
  constructor
  · simp [validateTransaction, truthy, validateCryptoAmount, minimums, objectPrototypeKeys]
  · norm_num


/-! ## Conservation of units in `routes/transactions.js` -/

theorem heldAmount_append_new (cryptoId : String) (holdings : List Routes.Holding)
    (amount : ℚ) :
    Routes.heldAmount cryptoId (holdings ++ [{ cryptoId := cryptoId, amount := amount }]) =
      Routes.heldAmount cryptoId holdings + amount := by
  simp [Routes.heldAmount, List.filter_append]

theorem heldAmount_replaceFirst (cryptoId : String) (holdings : List Routes.Holding)
    (holding : Routes.Holding) (amount : ℚ)
    (hfind : holdings.find? (fun h => h.cryptoId = cryptoId) = some holding) :
    Routes.heldAmount cryptoId
        (replaceFirst (fun h => h.cryptoId = cryptoId) { holding with amount := amount }
          holdings) =
      Routes.heldAmount cryptoId holdings - holding.amount + amount := by
  have hcid : holding.cryptoId = cryptoId := by simpa using List.find?_some hfind
  induction holdings with
  | nil => simp at hfind
  | cons a t ih =>
    by_cases ha : a.cryptoId = cryptoId
    · have hax : a = holding := by simpa [List.find?_cons, ha] using hfind
      subst hax
      simp [Routes.heldAmount, replaceFirst, List.filter_cons, ha]
      ring
    · have hfind' : t.find? (fun h => h.cryptoId = cryptoId) = some holding := by
        simpa [List.find?_cons, ha] using hfind
      have ih' := ih hfind'
      simp only [Routes.heldAmount] at ih' ⊢
      simp [replaceFirst, List.filter_cons, ha, ih']

theorem heldAmount_eraseP (cryptoId : String) (holdings : List Routes.Holding)
    (holding : Routes.Holding)
    (hfind : holdings.find? (fun h => h.cryptoId = cryptoId) = some holding) :
    Routes.heldAmount cryptoId (holdings.eraseP (fun h => h.cryptoId = cryptoId)) =
      Routes.heldAmount cryptoId holdings - holding.amount := by
  induction holdings with
  | nil => simp at hfind
  | cons a t ih =>
    by_cases ha : a.cryptoId = cryptoId
    · have hax : a = holding := by simpa [List.find?_cons, ha] using hfind
      subst hax
      simp [Routes.heldAmount, List.eraseP_cons, List.filter_cons, ha]
    · have hfind' : t.find? (fun h => h.cryptoId = cryptoId) = some holding := by
        simpa [List.find?_cons, ha] using hfind
      have ih' := ih hfind'
      simp only [Routes.heldAmount] at ih' ⊢
      simp [List.eraseP_cons, List.filter_cons, ha, ih']

theorem heldAmount_of_find_none (cryptoId : String) (holdings : List Routes.Holding)
    (hfind : holdings.find? (fun h => h.cryptoId = cryptoId) = none) :
    Routes.heldAmount cryptoId holdings = 0 := by
  have hnil : holdings.filter (fun h => h.cryptoId = cryptoId) = [] := by
    rw [List.filter_eq_nil_iff]
    intro h hh
    exact List.find?_eq_none.mp hfind h hh
  simp [Routes.heldAmount, hnil]


/-- The result of the buy route when every check passes. -/
theorem postBuy_settled (amount : ℚ) (db : Routes.Db) (user : Routes.User)
    (cryptocurrency : Routes.Cryptocurrency) (hamount : 0 < amount)
    (huser : db.users.find? (fun u => u.id = user.id) = some user)
    (hcrypto : db.cryptocurrencies.find? (fun c => c.id = cryptocurrency.id) =
      some cryptocurrency)
    (hbal : ¬ user.wallet.balance < amount * cryptocurrency.currentPrice)
    (hsup : ¬ cryptocurrency.availableSupply < amount) :
    (Routes.postBuy user.id cryptocurrency.id amount db).1 =
      { users := replaceFirst (fun u => u.id = user.id)
          { user with
            wallet :=
              { balance := user.wallet.balance - amount * cryptocurrency.currentPrice
                cryptoHoldings :=
                  match user.wallet.cryptoHoldings.find?
                      (fun h => h.cryptoId = cryptocurrency.id) with
                  | some _ =>
                    Routes.modifyFirst (fun h => h.cryptoId = cryptocurrency.id)
                      (fun h => { h with amount := h.amount + amount })
                      user.wallet.cryptoHoldings
                  | none =>
                    user.wallet.cryptoHoldings ++
                      [{ cryptoId := cryptocurrency.id, amount := amount }] } }
          db.users
        cryptocurrencies := replaceFirst (fun c => c.id = cryptocurrency.id)
          { cryptocurrency with availableSupply := cryptocurrency.availableSupply - amount }
          db.cryptocurrencies
        transactions := db.transactions ++
          [{ userId := user.id, cryptoId := cryptocurrency.id, type := .buy, amount := amount,
             price := cryptocurrency.currentPrice }] } := by
  have h1 : ¬ (amount = 0 ∨ amount ≤ 0) := by
    intro h
    rcases h with h | h
    · exact (ne_of_gt hamount) h
    · exact (not_le.mpr hamount) h
  simp only [Routes.postBuy, h1, if_false, huser, hcrypto, hbal, hsup]

/-- The result of the sell route when every check passes. -/
theorem postSell_settled (amount : ℚ) (db : Routes.Db) (user : Routes.User)
    (cryptocurrency : Routes.Cryptocurrency) (holding : Routes.Holding) (hamount : 0 < amount)
    (huser : db.users.find? (fun u => u.id = user.id) = some user)
    (hcrypto : db.cryptocurrencies.find? (fun c => c.id = cryptocurrency.id) =
      some cryptocurrency)
    (hholding : user.wallet.cryptoHoldings.find? (fun h => h.cryptoId = cryptocurrency.id) =
      some holding)
    (hle : ¬ holding.amount < amount) :
    (Routes.postSell user.id cryptocurrency.id amount db).1 =
      { users := replaceFirst (fun u => u.id = user.id)
          { user with
            wallet :=
              { balance := user.wallet.balance + amount * cryptocurrency.currentPrice
                cryptoHoldings :=
                  if holding.amount - amount = 0 then
                    user.wallet.cryptoHoldings.eraseP (fun h => h.cryptoId = cryptocurrency.id)
                  else
                    Routes.modifyFirst (fun h => h.cryptoId = cryptocurrency.id)
                      (fun h => { h with amount := h.amount - amount })
                      user.wallet.cryptoHoldings } }
          db.users
        cryptocurrencies := replaceFirst (fun c => c.id = cryptocurrency.id)
          { cryptocurrency with availableSupply := cryptocurrency.availableSupply + amount }
          db.cryptocurrencies
        transactions := db.transactions ++
          [{ userId := user.id, cryptoId := cryptocurrency.id, type := .sell, amount := amount,
             price := cryptocurrency.currentPrice }] } := by
  have h1 : ¬ (amount = 0 ∨ amount ≤ 0) := by
    intro h
    rcases h with h | h
    · exact (ne_of_gt hamount) h
    · exact (not_le.mpr hamount) h
  simp only [Routes.postSell, h1, if_false, huser, hcrypto, hholding, hle]

/-- What a buy that the route settled had passed. -/
theorem postBuy_ok_checks (uid cryptoId : String) (amount : ℚ) (db : Routes.Db)
    (user : Routes.User) (cryptocurrency : Routes.Cryptocurrency)
    (transaction : Routes.Transaction) (wallet : Routes.Wallet) (c : Routes.Cryptocurrency)
    (huser : db.users.find? (fun u => u.id = uid) = some user)
    (hcrypto : db.cryptocurrencies.find? (fun c => c.id = cryptoId) = some cryptocurrency)
    (hok : (Routes.postBuy uid cryptoId amount db).2 = .ok transaction wallet c) :
    0 < amount ∧ ¬ user.wallet.balance < amount * cryptocurrency.currentPrice ∧
      ¬ cryptocurrency.availableSupply < amount := by
  by_cases hamount : amount = 0 ∨ amount ≤ 0
  · simp [Routes.postBuy, hamount] at hok
  by_cases hbal : user.wallet.balance < amount * cryptocurrency.currentPrice
  · simp [Routes.postBuy, hamount, huser, hcrypto, hbal] at hok
  by_cases hsup : cryptocurrency.availableSupply < amount
  · simp [Routes.postBuy, hamount, huser, hcrypto, hbal, hsup] at hok
  exact ⟨not_le.mp (not_or.mp hamount).2, hbal, hsup⟩

/-- What a sale that the route settled had passed. -/
theorem postSell_ok_checks (uid cryptoId : String) (amount : ℚ) (db : Routes.Db)
    (user : Routes.User) (cryptocurrency : Routes.Cryptocurrency)
    (transaction : Routes.Transaction) (wallet : Routes.Wallet) (c : Routes.Cryptocurrency)
    (huser : db.users.find? (fun u => u.id = uid) = some user)
    (hcrypto : db.cryptocurrencies.find? (fun c => c.id = cryptoId) = some cryptocurrency)
    (hok : (Routes.postSell uid cryptoId amount db).2 = .ok transaction wallet c) :
    0 < amount ∧
      ∃ holding,
        user.wallet.cryptoHoldings.find? (fun h => h.cryptoId = cryptoId) = some holding ∧
        ¬ holding.amount < amount := by
  by_cases hamount : amount = 0 ∨ amount ≤ 0
  · simp [Routes.postSell, hamount] at hok
  cases hholding : user.wallet.cryptoHoldings.find? (fun h => h.cryptoId = cryptoId) with
  | none => simp [Routes.postSell, hamount, huser, hcrypto, hholding] at hok
  | some holding =>
    by_cases hlt : holding.amount < amount
    · simp [Routes.postSell, hamount, huser, hcrypto, hholding, hlt] at hok
    · exact ⟨not_le.mp (not_or.mp hamount).2, holding, rfl, hlt⟩


theorem marketDb_user :
    marketDb.users.find? (fun u => u.id = "u1") =
      some { id := "u1", wallet := { balance := 1000, cryptoHoldings := [] } } := by
  simp [marketDb]

theorem marketDb_cryptocurrency :
    marketDb.cryptocurrencies.find? (fun c => c.id = "c1") =
      some { id := "c1", currentPrice := 100, availableSupply := 10 } := by
  simp [marketDb]

/-! ## Rounding to the nearest double -/

theorem roundHalfEven_of_lt (q : ℚ) (n : ℤ) (h1 : (n : ℚ) ≤ q) (h2 : q < n + 1 / 2) :
    roundHalfEven q = n := by
  have hfloor : ⌊q⌋ = n := by
    rw [Int.floor_eq_iff]
    constructor
    · exact h1
    · linarith
  have h3 : q - (n : ℚ) < 1 / 2 := by linarith
  simp only [roundHalfEven, hfloor, h3, if_true]

theorem roundHalfEven_of_gt (q : ℚ) (n : ℤ) (h1 : (n : ℚ) + 1 / 2 < q) (h2 : q < n + 1) :
    roundHalfEven q = n + 1 := by
  have hfloor : ⌊q⌋ = n := by
    rw [Int.floor_eq_iff]
    constructor
    · linarith
    · exact h2
  have h3 : ¬ q - (n : ℚ) < 1 / 2 := by linarith
  have h4 : 1 / 2 < q - (n : ℚ) := by linarith
  simp only [roundHalfEven, hfloor, h3, h4, if_false, if_true]

theorem roundHalfEven_tie (q : ℚ) (n : ℤ) (h : q = n + 1 / 2) :
    roundHalfEven q = if n % 2 = 0 then n else n + 1 := by
  have hfloor : ⌊q⌋ = n := by
    rw [Int.floor_eq_iff]
    constructor
    · linarith
    · linarith
  have h3 : ¬ q - (n : ℚ) < 1 / 2 := by linarith
  have h4 : ¬ 1 / 2 < q - (n : ℚ) := by linarith
  simp only [roundHalfEven, hfloor, h3, h4, if_false]

theorem roundHalfEven_intCast (n : ℤ) : roundHalfEven (n : ℚ) = n :=
  roundHalfEven_of_lt _ n le_rfl (by linarith)

theorem floor_le_roundHalfEven (q : ℚ) : ⌊q⌋ ≤ roundHalfEven q := by
  unfold roundHalfEven
  split_ifs <;> omega

theorem le_roundHalfEven (n : ℤ) (q : ℚ) (h : (n : ℚ) ≤ q) : n ≤ roundHalfEven q :=
  le_trans (Int.le_floor.mpr h) (floor_le_roundHalfEven q)

theorem ulp_pos (x : ℚ) : 0 < ulp x := by
  unfold ulp
  positivity

theorem roundDouble_nonneg (x : ℚ) (h : 0 ≤ x) : 0 ≤ roundDouble x := by
  unfold roundDouble
  have h1 : (0 : ℤ) ≤ roundHalfEven (x / ulp x) :=
    le_roundHalfEven 0 _ (by simpa using div_nonneg h (ulp_pos x).le)
  exact mul_nonneg (by exact_mod_cast h1) (ulp_pos x).le

theorem exponent_eq (x : ℚ) (e : ℤ) (hlo : (2 : ℚ) ^ e ≤ |x|) (hhi : |x| < (2 : ℚ) ^ (e + 1))
    (he : -1022 ≤ e) : exponent x = e := by
  have hpos : 0 < |x| := lt_of_lt_of_le (by positivity) hlo
  have h1 : e ≤ Int.log 2 |x| := by
    rw [← Int.zpow_le_iff_le_log (by norm_num) hpos]
    simpa using hlo
  have h2 : Int.log 2 |x| < e + 1 := by
    rw [← Int.lt_zpow_iff_log_lt (by norm_num) hpos]
    simpa using hhi
  have h3 : Int.log 2 |x| = e := by omega
  simp [exponent, h3, he]

/-- The value of `roundDouble x` from the exponent of `x` and the rounded
significand. -/
theorem roundDouble_eq (x : ℚ) (e n : ℤ) (hlo : (2 : ℚ) ^ e ≤ |x|)
    (hhi : |x| < (2 : ℚ) ^ (e + 1)) (he : -1022 ≤ e)
    (hn : roundHalfEven (x / (2 : ℚ) ^ (e - 52)) = n) :
    roundDouble x = n * (2 : ℚ) ^ (e - 52) := by
  simp only [roundDouble, ulp, exponent_eq x e hlo hhi he, hn]

/-- A multiple of the spacing of its own binade is a double. -/
theorem roundDouble_of_multiple (x : ℚ) (e n : ℤ) (hlo : (2 : ℚ) ^ e ≤ |x|)
    (hhi : |x| < (2 : ℚ) ^ (e + 1)) (he : -1022 ≤ e) (hx : x = n * (2 : ℚ) ^ (e - 52)) :
    roundDouble x = x := by
  have hpos : (0 : ℚ) < (2 : ℚ) ^ (e - 52) := by positivity
  have hq : x / (2 : ℚ) ^ (e - 52) = (n : ℚ) := by
    rw [hx]
    field_simp
  rw [roundDouble_eq x e n hlo hhi he (by rw [hq]; exact roundHalfEven_intCast n)]
  exact hx.symm

theorem two_pow_mul_ulp (x : ℚ) :
    (((2 : ℤ) ^ 52 : ℤ) : ℚ) * ulp x = (2 : ℚ) ^ exponent x := by
  simp only [ulp, zpow_sub₀ (by norm_num : (2 : ℚ) ≠ 0)]
  norm_num
  field_simp

/-- Rounding does not go below a double that the exact value reaches. -/
theorem le_roundDouble (a x : ℚ) (hpos : 0 < a) (ha : roundDouble a = a) (hle : a ≤ x) :
    a ≤ roundDouble x := by
  have hx : 0 < x := lt_of_lt_of_le hpos hle
  have habs : |a| = a := abs_of_pos hpos
  have hxabs : |x| = x := abs_of_pos hx
  have hlog : Int.log 2 a ≤ Int.log 2 x := Int.log_mono_right hpos hle
  have hexp : exponent a ≤ exponent x := by
    simp only [exponent, habs, hxabs]
    exact max_le_max hlog le_rfl
  have hu : 0 < ulp x := ulp_pos x
  rcases eq_or_lt_of_le hexp with heq | hlt
  · have hua : ulp a = ulp x := by simp only [ulp, heq]
    have ha' : (roundHalfEven (a / ulp x) : ℚ) * ulp x = a := by
      have := ha
      simpa only [roundDouble, hua] using this
    have h1 : ((roundHalfEven (a / ulp x) : ℤ) : ℚ) ≤ x / ulp x := by
      rw [le_div_iff₀ hu, ha']
      exact hle
    have h2 := le_roundHalfEven _ _ h1
    have h3 : ((roundHalfEven (a / ulp x) : ℤ) : ℚ) ≤ (roundHalfEven (x / ulp x) : ℚ) := by
      exact_mod_cast h2
    calc a = (roundHalfEven (a / ulp x) : ℚ) * ulp x := ha'.symm
      _ ≤ (roundHalfEven (x / ulp x) : ℚ) * ulp x := mul_le_mul_of_nonneg_right h3 hu.le
      _ = roundDouble x := rfl
  · have hex : exponent x = Int.log 2 x := by
      have h1 : -1022 ≤ exponent a := le_max_right _ _
      have h2 : -1022 < exponent x := lt_of_le_of_lt h1 hlt
      simp only [exponent, hxabs] at h2 ⊢
      rcases le_total (Int.log 2 x) (-1022) with h | h
      · rw [max_eq_right h] at h2
        exact absurd h2 (lt_irrefl _)
      · exact max_eq_left h
    have hloga : Int.log 2 a + 1 ≤ exponent x := by
      have h1 : Int.log 2 a ≤ exponent a := by
        simp only [exponent, habs]
        exact le_max_left _ _
      omega
    have h2x : (2 : ℚ) ^ exponent x ≤ x := by
      rw [hex]
      have := Int.zpow_log_le_self (b := 2) (by norm_num) hx
      simpa using this
    have ha2 : a < (2 : ℚ) ^ exponent x := by
      have h1 : a < (2 : ℚ) ^ (Int.log 2 a + 1) := by
        have := Int.lt_zpow_succ_log_self (b := 2) (by norm_num) a
        simpa using this
      exact lt_of_lt_of_le h1 (zpow_le_zpow_right₀ (by norm_num) hloga)
    have hq : (((2 : ℤ) ^ 52 : ℤ) : ℚ) ≤ x / ulp x := by
      rw [le_div_iff₀ hu]
      have := two_pow_mul_ulp x
      rw [this]
      exact h2x
    have h3 := le_roundHalfEven _ _ hq
    have h4 : (((2 : ℤ) ^ 52 : ℤ) : ℚ) ≤ (roundHalfEven (x / ulp x) : ℚ) := by
      exact_mod_cast h3
    have h5 : (2 : ℚ) ^ exponent x ≤ roundDouble x := by
      have := two_pow_mul_ulp x
      rw [← this]
      exact mul_le_mul_of_nonneg_right h4 hu.le
    exact le_trans ha2.le h5

/-! ## Values on the sample data -/

theorem roundDouble_tenth : roundDouble tenth = tenth :=
  roundDouble_of_multiple tenth (-4) 7205759403792794 (by norm_num [tenth, abs_of_pos])
    (by norm_num [tenth, abs_of_pos]) (by norm_num) (by norm_num [tenth])

theorem roundDouble_fifth : roundDouble fifth = fifth :=
  roundDouble_of_multiple fifth (-3) 7205759403792794 (by norm_num [fifth, abs_of_pos])
    (by norm_num [fifth, abs_of_pos]) (by norm_num) (by norm_num [fifth])

theorem isDouble_tenth : IsDouble tenth :=
  ⟨roundDouble_tenth, by norm_num [tenth, abs_of_pos]⟩

theorem isDouble_fifth : IsDouble fifth :=
  ⟨roundDouble_fifth, by norm_num [fifth, abs_of_pos]⟩

theorem roundDouble_tenth_add_one :
    roundDouble (tenth + 1) = 2476979795053773 / 2251799813685248 := by
  rw [roundDouble_eq (tenth + 1) 0 4953959590107546 (by norm_num [tenth, abs_of_pos])
    (by norm_num [tenth, abs_of_pos]) (by norm_num)
    (by
      have h := roundHalfEven_of_gt (39631676720860365 / 8) 4953959590107545
        (by norm_num) (by norm_num)
      norm_num [tenth] at h ⊢
      exact h)]
  norm_num

theorem roundDouble_after_withdrawal :
    roundDouble (2476979795053773 / 2251799813685248 - 1) =
      225179981368525 / 2251799813685248 := by
  have h : (2476979795053773 / 2251799813685248 - 1 : ℚ) =
      225179981368525 / 2251799813685248 := by norm_num
  rw [h]
  exact roundDouble_of_multiple _ (-4) 7205759403792800 (by norm_num [abs_of_pos])
    (by norm_num [abs_of_pos]) (by norm_num) (by norm_num)

theorem roundDouble_1000 : roundDouble 1000 = 1000 :=
  roundDouble_of_multiple 1000 9 8796093022208000 (by norm_num [abs_of_pos])
    (by norm_num [abs_of_pos]) (by norm_num) (by norm_num)

theorem roundDouble_1050 : roundDouble 1050 = 1050 :=
  roundDouble_of_multiple 1050 10 4617948836659200 (by norm_num [abs_of_pos])
    (by norm_num [abs_of_pos]) (by norm_num) (by norm_num)

theorem roundDouble_1005 : roundDouble 1005 = 1005 :=
  roundDouble_of_multiple 1005 9 8840073487319040 (by norm_num [abs_of_pos])
    (by norm_num [abs_of_pos]) (by norm_num) (by norm_num)

theorem roundDouble_800 : roundDouble 800 = 800 :=
  roundDouble_of_multiple 800 9 7036874417766400 (by norm_num [abs_of_pos])
    (by norm_num [abs_of_pos]) (by norm_num) (by norm_num)

theorem roundDouble_200 : roundDouble 200 = 200 :=
  roundDouble_of_multiple 200 7 7036874417766400 (by norm_num [abs_of_pos])
    (by norm_num [abs_of_pos]) (by norm_num) (by norm_num)

theorem roundDouble_50 : roundDouble 50 = 50 :=
  roundDouble_of_multiple 50 5 7036874417766400 (by norm_num [abs_of_pos])
    (by norm_num [abs_of_pos]) (by norm_num) (by norm_num)

theorem roundDouble_8 : roundDouble 8 = 8 :=
  roundDouble_of_multiple 8 3 4503599627370496 (by norm_num [abs_of_pos])
    (by norm_num [abs_of_pos]) (by norm_num) (by norm_num)

theorem roundDouble_1000_sub_fifth :
    roundDouble (1000 - fifth) = 4397166901801779 / 4398046511104 := by
  rw [roundDouble_eq (1000 - fifth) 9 8794333803603558 (by norm_num [fifth, abs_of_pos])
    (by norm_num [fifth, abs_of_pos]) (by norm_num)
    (by
      have h := roundHalfEven_of_lt (18010795629780087603 / 2048) 8794333803603558
        (by norm_num) (by norm_num)
      norm_num [fifth] at h ⊢
      exact h)]
  norm_num

theorem roundDouble_tenth_add_fifth :
    roundDouble (tenth + fifth) = 1351079888211149 / 4503599627370496 := by
  rw [roundDouble_eq (tenth + fifth) (-2) 5404319552844596
    (by norm_num [tenth, fifth, abs_of_pos]) (by norm_num [tenth, fifth, abs_of_pos])
    (by norm_num)
    (by
      have h := roundHalfEven_tie (10808639105689191 / 2) 5404319552844595 (by norm_num)
      norm_num [tenth, fifth] at h ⊢
      exact h)]
  norm_num

theorem roundDouble_10_sub_fifth :
    roundDouble (10 - fifth) = 2758454771764429 / 281474976710656 := by
  rw [roundDouble_eq (10 - fifth) 3 5516909543528858 (by norm_num [fifth, abs_of_pos])
    (by norm_num [fifth, abs_of_pos]) (by norm_num)
    (by
      have h := roundHalfEven_of_gt (176541105392923443 / 32) 5516909543528857
        (by norm_num) (by norm_num)
      norm_num [fifth] at h ⊢
      exact h)]
  norm_num

/-! ## Deposits and withdrawals in double arithmetic -/

/-- Without rounding, the handlers with rounded arithmetic are the handlers of
the sections above. -/
theorem rounded_id_handlers :
    Rounded.depositFunds id = depositFunds ∧ Rounded.withdrawFunds id = withdrawFunds ∧
    Rounded.postBuy id = Routes.postBuy ∧ Rounded.postSell id = Routes.postSell ∧
    Rounded.addFunds id = Routes.addFunds :=
  ⟨rfl, rfl, rfl, rfl, rfl⟩

/-- The result of the rounded `depositFunds` for a request without validation
errors. -/
theorem rounded_depositFunds_accepted (fl : ℚ → ℚ) (errors : List String) (uid : String)
    (body : DepositBody) (db : Db) (user : User) (herr : errors.isEmpty = true)
    (huser : findById db.users uid = some user) :
    Rounded.depositFunds fl errors uid body db =
      ({ db with
         users := saveUser db.users
           { user with accountBalance := fl (user.accountBalance + body.amount) }
         transactions := db.transactions ++
           [{ user := uid, type := .deposit, symbol := none, amount := body.amount,
              price := none, totalValue := body.amount,
              paymentMethod := some body.paymentMethod, details := none }] },
       .success "Deposit successful"
         { user := uid, type := .deposit, symbol := none, amount := body.amount,
           price := none, totalValue := body.amount,
           paymentMethod := some body.paymentMethod, details := none }) := by
  simp only [Rounded.depositFunds, herr, not_true_eq_false, if_false, huser]

/-- The result of the rounded `withdrawFunds` for a request without validation
errors whose amount the balance covers. -/
theorem rounded_withdrawFunds_covered (fl : ℚ → ℚ) (errors : List String) (uid : String)
    (body : WithdrawBody) (db : Db) (user : User) (herr : errors.isEmpty = true)
    (huser : findById db.users uid = some user) (hle : body.amount ≤ user.accountBalance) :
    Rounded.withdrawFunds fl errors uid body db =
      ({ db with
         users := saveUser db.users
           { user with accountBalance := fl (user.accountBalance - body.amount) }
         transactions := db.transactions ++
           [{ user := uid, type := .withdraw, symbol := none, amount := body.amount,
              price := none, totalValue := body.amount,
              paymentMethod := some body.withdrawMethod,
              details := some body.accountDetails }] },
       .success "Withdrawal initiated"
         { user := uid, type := .withdraw, symbol := none, amount := body.amount,
           price := none, totalValue := body.amount,
           paymentMethod := some body.withdrawMethod,
           details := some body.accountDetails }) := by
  have hnlt : ¬ user.accountBalance < body.amount := not_lt.mpr hle
  simp only [Rounded.withdrawFunds, herr, not_true_eq_false, if_false, huser, hnlt]

/-- C14, as amended.  In double arithmetic, for a user with a balance `≥ 0` and
an amount above zero that is a double: a deposit of the amount followed by a
withdrawal of the same amount, both having passed validation, both settle, and
the balance left is the rounded difference of the rounded sum and the amount.
It is the original balance when the balance and the sum of balance and amount
are doubles, that is when the sum is not rounded. -/
theorem deposit_then_withdraw_doubles (errors1 errors2 : List String)
    (uid paymentMethod withdrawMethod accountDetails : String) (amount : ℚ) (db : Db)
    (user : User) (herr1 : errors1.isEmpty = true) (herr2 : errors2.isEmpty = true)
    (huser : findById db.users uid = some user) (hbal : 0 ≤ user.accountBalance)
    (hamount : 0 < amount) (hdouble : IsDouble amount) :
    (∃ transaction,
      (Rounded.depositFunds roundDouble errors1 uid ⟨amount, paymentMethod⟩ db).2 =
        .success "Deposit successful" transaction) ∧
    (∃ transaction,
      (Rounded.withdrawFunds roundDouble errors2 uid ⟨amount, withdrawMethod, accountDetails⟩
        (Rounded.depositFunds roundDouble errors1 uid ⟨amount, paymentMethod⟩ db).1).2 =
        .success "Withdrawal initiated" transaction) ∧
    findById
      (Rounded.withdrawFunds roundDouble errors2 uid ⟨amount, withdrawMethod, accountDetails⟩
        (Rounded.depositFunds roundDouble errors1 uid ⟨amount, paymentMethod⟩ db).1).1.users
      uid =
      some { user with
        accountBalance := roundDouble (roundDouble (user.accountBalance + amount) - amount) } ∧
    (IsDouble user.accountBalance → IsDouble (user.accountBalance + amount) →
      findById
        (Rounded.withdrawFunds roundDouble errors2 uid ⟨amount, withdrawMethod, accountDetails⟩
          (Rounded.depositFunds roundDouble errors1 uid ⟨amount, paymentMethod⟩ db).1).1.users
        uid = some user) := by
  have hdep := rounded_depositFunds_accepted roundDouble errors1 uid ⟨amount, paymentMethod⟩ db
    user herr1 huser
  have hu1 : findById
      (Rounded.depositFunds roundDouble errors1 uid ⟨amount, paymentMethod⟩ db).1.users uid =
      some { user with accountBalance := roundDouble (user.accountBalance + amount) } := by
    rw [hdep]
    exact findById_saveUser huser _
  have hle : amount ≤ roundDouble (user.accountBalance + amount) :=
    le_roundDouble amount _ hamount hdouble.1 (le_add_of_nonneg_left hbal)
  have hwd := rounded_withdrawFunds_covered roundDouble errors2 uid
    ⟨amount, withdrawMethod, accountDetails⟩
    (Rounded.depositFunds roundDouble errors1 uid ⟨amount, paymentMethod⟩ db).1
    { user with accountBalance := roundDouble (user.accountBalance + amount) } herr2 hu1 hle
  have hfinal : findById
      (Rounded.withdrawFunds roundDouble errors2 uid ⟨amount, withdrawMethod, accountDetails⟩
        (Rounded.depositFunds roundDouble errors1 uid ⟨amount, paymentMethod⟩ db).1).1.users
      uid =
      some { user with
        accountBalance := roundDouble (roundDouble (user.accountBalance + amount) - amount) } := by
    rw [hwd]
    exact findById_saveUser hu1 _
  refine ⟨⟨_, by rw [hdep]⟩, ⟨_, by rw [hwd]⟩, hfinal, ?_⟩
  intro hb hsum
  rw [hfinal, hsum.1, add_sub_cancel_right, hb.1]

theorem roundDouble_one : roundDouble 1 = 1 :=
  roundDouble_of_multiple 1 0 4503599627370496 (by norm_num [abs_of_pos])
    (by norm_num [abs_of_pos]) (by norm_num) (by norm_num)

theorem depositValidation_depositOne : (depositValidation depositOne).isEmpty = true := by
  simp [depositValidation, depositOne]

theorem withdrawValidation_withdrawOne : (withdrawValidation withdrawOne).isEmpty = true := by
  simp [withdrawValidation, withdrawOne]

theorem rounded_depositFunds_tenthDb :
    Rounded.depositFunds roundDouble (depositValidation depositOne) "u1" depositOne tenthDb =
      ({ users := [{ id := "u1", accountBalance := 2476979795053773 / 2251799813685248 }]
         wallets := []
         transactions :=
           [{ user := "u1", type := .deposit, symbol := none, amount := 1, price := none,
              totalValue := 1, paymentMethod := some "paypal", details := none }] },
       .success "Deposit successful"
         { user := "u1", type := .deposit, symbol := none, amount := 1, price := none,
           totalValue := 1, paymentMethod := some "paypal", details := none }) := by
  rw [rounded_depositFunds_accepted roundDouble _ "u1" depositOne tenthDb
    { id := "u1", accountBalance := tenth } depositValidation_depositOne
    (by simp [findById, tenthDb])]
  simp [depositOne, tenthDb, saveUser, replaceFirst, roundDouble_tenth_add_one]

/-- C14, where the claim fails.  In double arithmetic, from the balance 0.1 a
deposit of 1 and then a withdrawal of 1 both settle, and the balance left is
0.10000000000000009, not the 0.1 before: the sum 1.1 is rounded. -/
theorem deposit_then_withdraw_not_roundtrip :
    IsDouble tenth ∧ 0 ≤ tenth ∧ IsDouble 1 ∧
    (depositValidation depositOne).isEmpty = true ∧
    (withdrawValidation withdrawOne).isEmpty = true ∧
    findById tenthDb.users "u1" = some { id := "u1", accountBalance := tenth } ∧
    (Rounded.depositFunds roundDouble (depositValidation depositOne) "u1" depositOne tenthDb).2 =
      .success "Deposit successful"
        { user := "u1", type := .deposit, symbol := none, amount := 1, price := none,
          totalValue := 1, paymentMethod := some "paypal", details := none } ∧
    Rounded.withdrawFunds roundDouble (withdrawValidation withdrawOne) "u1" withdrawOne
        (Rounded.depositFunds roundDouble (depositValidation depositOne) "u1" depositOne
          tenthDb).1 =
      ({ users := [{ id := "u1", accountBalance := 225179981368525 / 2251799813685248 }]
         wallets := []
         transactions :=
           [{ user := "u1", type := .deposit, symbol := none, amount := 1, price := none,
              totalValue := 1, paymentMethod := some "paypal", details := none },
            { user := "u1", type := .withdraw, symbol := none, amount := 1, price := none,
              totalValue := 1, paymentMethod := some "paypal", details := some "acct" }] },
       .success "Withdrawal initiated"
         { user := "u1", type := .withdraw, symbol := none, amount := 1, price := none,
           totalValue := 1, paymentMethod := some "paypal", details := some "acct" }) ∧
    (225179981368525 / 2251799813685248 : ℚ) ≠ tenth := by
  refine ⟨isDouble_tenth, by norm_num [tenth], ⟨roundDouble_one, by norm_num [abs_of_pos]⟩,
    depositValidation_depositOne, withdrawValidation_withdrawOne,
    by simp [findById, tenthDb], by rw [rounded_depositFunds_tenthDb], ?_, by norm_num [tenth]⟩
  rw [rounded_depositFunds_tenthDb]
  rw [rounded_withdrawFunds_covered roundDouble _ "u1" withdrawOne _
    { id := "u1", accountBalance := 2476979795053773 / 2251799813685248 }
    withdrawValidation_withdrawOne (by simp [findById]) (by norm_num [withdrawOne])]
  simp [withdrawOne, saveUser, replaceFirst, roundDouble_after_withdrawal]

theorem isDouble_50 : IsDouble 50 :=
  ⟨roundDouble_50, by norm_num [abs_of_pos]⟩

theorem isDouble_1000 : IsDouble 1000 :=
  ⟨roundDouble_1000, by norm_num [abs_of_pos]⟩

theorem isDouble_1000_add_50 : IsDouble (1000 + 50) := by
  have h : (1000 + 50 : ℚ) = 1050 := by norm_num
  rw [h]
  exact ⟨roundDouble_1050, by norm_num [abs_of_pos]⟩

/-- C14 as amended, an instance: 50 deposited into and then withdrawn from a
balance of 1000 leaves 1000; the sum 1050 is a double. -/
theorem deposit_then_withdraw_doubles_witness :
    (depositValidation depositFifty).isEmpty = true ∧
    (withdrawValidation withdrawFifty).isEmpty = true ∧
    findById sampleDb.users "u1" = some { id := "u1", accountBalance := 1000 } ∧
    (0 : ℚ) ≤ 1000 ∧ (0 : ℚ) < 50 ∧ IsDouble 50 ∧ IsDouble 1000 ∧ IsDouble (1000 + 50) ∧
    findById
      (Rounded.withdrawFunds roundDouble (withdrawValidation withdrawFifty) "u1"
        ⟨50, "paypal", "acct"⟩
        (Rounded.depositFunds roundDouble (depositValidation depositFifty) "u1" ⟨50, "paypal"⟩
          sampleDb).1).1.users
      "u1" = some { id := "u1", accountBalance := 1000 } :=
  ⟨depositValidation_depositFifty, withdrawValidation_withdrawFifty, findById_sampleDb,
   by norm_num, by norm_num, isDouble_50, isDouble_1000, isDouble_1000_add_50,
   (deposit_then_withdraw_doubles _ _ "u1" "paypal" "paypal" "acct" 50 sampleDb _
     depositValidation_depositFifty withdrawValidation_withdrawFifty findById_sampleDb
     (by norm_num) (by norm_num) isDouble_50).2.2.2 isDouble_1000 isDouble_1000_add_50⟩

/-! ## Conservation of units in double arithmetic -/

/-- The database after the rounded buy route when every check passes. -/
theorem rounded_postBuy_settled (fl : ℚ → ℚ) (amount : ℚ) (db : Routes.Db)
    (user : Routes.User) (cryptocurrency : Routes.Cryptocurrency) (hamount : 0 < amount)
    (huser : db.users.find? (fun u => u.id = user.id) = some user)
    (hcrypto : db.cryptocurrencies.find? (fun c => c.id = cryptocurrency.id) =
      some cryptocurrency)
    (hbal : ¬ user.wallet.balance < fl (amount * cryptocurrency.currentPrice))
    (hsup : ¬ cryptocurrency.availableSupply < amount) :
    (Rounded.postBuy fl user.id cryptocurrency.id amount db).1 =
      { users := replaceFirst (fun u => u.id = user.id)
          { user with
            wallet :=
              { balance :=
                  fl (user.wallet.balance - fl (amount * cryptocurrency.currentPrice))
                cryptoHoldings :=
                  match user.wallet.cryptoHoldings.find?
                      (fun h => h.cryptoId = cryptocurrency.id) with
                  | some _ =>
                    Routes.modifyFirst (fun h => h.cryptoId = cryptocurrency.id)
                      (fun h => { h with amount := fl (h.amount + amount) })
                      user.wallet.cryptoHoldings
                  | none =>
                    user.wallet.cryptoHoldings ++
                      [{ cryptoId := cryptocurrency.id, amount := amount }] } }
          db.users
        cryptocurrencies := replaceFirst (fun c => c.id = cryptocurrency.id)
          { cryptocurrency with
            availableSupply := fl (cryptocurrency.availableSupply - amount) }
          db.cryptocurrencies
        transactions := db.transactions ++
          [{ userId := user.id, cryptoId := cryptocurrency.id, type := .buy, amount := amount,
             price := cryptocurrency.currentPrice }] } := by
  have h1 : ¬ (amount = 0 ∨ amount ≤ 0) := by
    intro h
    rcases h with h | h
    · exact (ne_of_gt hamount) h
    · exact (not_le.mpr hamount) h
  simp only [Rounded.postBuy, h1, if_false, huser, hcrypto, hbal, hsup]

/-- The database after the rounded sell route when every check passes. -/
theorem rounded_postSell_settled (fl : ℚ → ℚ) (amount : ℚ) (db : Routes.Db)
    (user : Routes.User) (cryptocurrency : Routes.Cryptocurrency) (holding : Routes.Holding)
    (hamount : 0 < amount)
    (huser : db.users.find? (fun u => u.id = user.id) = some user)
    (hcrypto : db.cryptocurrencies.find? (fun c => c.id = cryptocurrency.id) =
      some cryptocurrency)
    (hholding : user.wallet.cryptoHoldings.find? (fun h => h.cryptoId = cryptocurrency.id) =
      some holding)
    (hle : ¬ holding.amount < amount) :
    (Rounded.postSell fl user.id cryptocurrency.id amount db).1 =
      { users := replaceFirst (fun u => u.id = user.id)
          { user with
            wallet :=
              { balance :=
                  fl (user.wallet.balance + fl (amount * cryptocurrency.currentPrice))
                cryptoHoldings :=
                  if fl (holding.amount - amount) = 0 then
                    user.wallet.cryptoHoldings.eraseP (fun h => h.cryptoId = cryptocurrency.id)
                  else
                    Routes.modifyFirst (fun h => h.cryptoId = cryptocurrency.id)
                      (fun h => { h with amount := fl (h.amount - amount) })
                      user.wallet.cryptoHoldings } }
          db.users
        cryptocurrencies := replaceFirst (fun c => c.id = cryptocurrency.id)
          { cryptocurrency with
            availableSupply := fl (cryptocurrency.availableSupply + amount) }
          db.cryptocurrencies
        transactions := db.transactions ++
          [{ userId := user.id, cryptoId := cryptocurrency.id, type := .sell, amount := amount,
             price := cryptocurrency.currentPrice }] } := by
  have h1 : ¬ (amount = 0 ∨ amount ≤ 0) := by
    intro h
    rcases h with h | h
    · exact (ne_of_gt hamount) h
    · exact (not_le.mpr hamount) h
  simp only [Rounded.postSell, h1, if_false, huser, hcrypto, hholding, hle]

/-- What a buy that the rounded route settled had passed. -/
theorem rounded_postBuy_ok_checks (fl : ℚ → ℚ) (uid cryptoId : String) (amount : ℚ)
    (db : Routes.Db) (user : Routes.User) (cryptocurrency : Routes.Cryptocurrency)
    (transaction : Routes.Transaction) (wallet : Routes.Wallet) (c : Routes.Cryptocurrency)
    (huser : db.users.find? (fun u => u.id = uid) = some user)
    (hcrypto : db.cryptocurrencies.find? (fun c => c.id = cryptoId) = some cryptocurrency)
    (hok : (Rounded.postBuy fl uid cryptoId amount db).2 = .ok transaction wallet c) :
    0 < amount ∧ ¬ user.wallet.balance < fl (amount * cryptocurrency.currentPrice) ∧
      ¬ cryptocurrency.availableSupply < amount := by
  by_cases hamount : amount = 0 ∨ amount ≤ 0
  · simp [Rounded.postBuy, hamount] at hok
  by_cases hbal : user.wallet.balance < fl (amount * cryptocurrency.currentPrice)
  · simp [Rounded.postBuy, hamount, huser, hcrypto, hbal] at hok
  by_cases hsup : cryptocurrency.availableSupply < amount
  · simp [Rounded.postBuy, hamount, huser, hcrypto, hbal, hsup] at hok
  exact ⟨not_le.mp (not_or.mp hamount).2, hbal, hsup⟩

/-- What a sale that the rounded route settled had passed. -/
theorem rounded_postSell_ok_checks (fl : ℚ → ℚ) (uid cryptoId : String) (amount : ℚ)
    (db : Routes.Db) (user : Routes.User) (cryptocurrency : Routes.Cryptocurrency)
    (transaction : Routes.Transaction) (wallet : Routes.Wallet) (c : Routes.Cryptocurrency)
    (huser : db.users.find? (fun u => u.id = uid) = some user)
    (hcrypto : db.cryptocurrencies.find? (fun c => c.id = cryptoId) = some cryptocurrency)
    (hok : (Rounded.postSell fl uid cryptoId amount db).2 = .ok transaction wallet c) :
    0 < amount ∧
      ∃ holding,
        user.wallet.cryptoHoldings.find? (fun h => h.cryptoId = cryptoId) = some holding ∧
        ¬ holding.amount < amount := by
  by_cases hamount : amount = 0 ∨ amount ≤ 0
  · simp [Rounded.postSell, hamount] at hok
  cases hholding : user.wallet.cryptoHoldings.find? (fun h => h.cryptoId = cryptoId) with
  | none => simp [Rounded.postSell, hamount, huser, hcrypto, hholding] at hok
  | some holding =>
    by_cases hlt : holding.amount < amount
    · simp [Rounded.postSell, hamount, huser, hcrypto, hholding, hlt] at hok
    · exact ⟨not_le.mp (not_or.mp hamount).2, holding, rfl, hlt⟩

/-- C21, as amended.  In the ledger of `routes/transactions.js`, in double
arithmetic, for a known user, a known cryptocurrency and a numeric amount: after
a buy that the route settled, and after a sale that the route settled,
`availableSupply` plus the units the user holds of the cryptocurrency is what
it was before whenever the new supply and the new holding are doubles, that is
whenever neither update is rounded; an `availableSupply ≥ 0` is still `≥ 0` (a
settled request has `amount > 0`).  A buy of more than `availableSupply` is
rejected and changes nothing; when the amount is above zero and the balance
covers the cost, the answer is `400 Insufficient cryptocurrency supply`. -/
theorem units_conserved_doubles (uid cryptoId : String) (amount : ℚ) (db : Routes.Db)
    (user : Routes.User) (cryptocurrency : Routes.Cryptocurrency)
    (huser : db.users.find? (fun u => u.id = uid) = some user)
    (hcrypto : db.cryptocurrencies.find? (fun c => c.id = cryptoId) = some cryptocurrency) :
    (∀ transaction wallet c,
      (Rounded.postBuy roundDouble uid cryptoId amount db).2 = .ok transaction wallet c →
      0 < amount ∧
      ∃ user' cryptocurrency',
        (Rounded.postBuy roundDouble uid cryptoId amount db).1.users.find?
          (fun u => u.id = uid) = some user' ∧
        (Rounded.postBuy roundDouble uid cryptoId amount db).1.cryptocurrencies.find?
          (fun c => c.id = cryptoId) = some cryptocurrency' ∧
        (IsDouble (cryptocurrency.availableSupply - amount) →
          (∀ holding,
            user.wallet.cryptoHoldings.find? (fun h => h.cryptoId = cryptoId) = some holding →
            IsDouble (holding.amount + amount)) →
          cryptocurrency'.availableSupply +
              Routes.heldAmount cryptoId user'.wallet.cryptoHoldings =
            cryptocurrency.availableSupply +
              Routes.heldAmount cryptoId user.wallet.cryptoHoldings) ∧
        (0 ≤ cryptocurrency.availableSupply → 0 ≤ cryptocurrency'.availableSupply)) ∧
    (∀ transaction wallet c,
      (Rounded.postSell roundDouble uid cryptoId amount db).2 = .ok transaction wallet c →
      0 < amount ∧
      ∃ user' cryptocurrency',
        (Rounded.postSell roundDouble uid cryptoId amount db).1.users.find?
          (fun u => u.id = uid) = some user' ∧
        (Rounded.postSell roundDouble uid cryptoId amount db).1.cryptocurrencies.find?
          (fun c => c.id = cryptoId) = some cryptocurrency' ∧
        (IsDouble (cryptocurrency.availableSupply + amount) →
          (∀ holding,
            user.wallet.cryptoHoldings.find? (fun h => h.cryptoId = cryptoId) = some holding →
            IsDouble (holding.amount - amount)) →
          cryptocurrency'.availableSupply +
              Routes.heldAmount cryptoId user'.wallet.cryptoHoldings =
            cryptocurrency.availableSupply +
              Routes.heldAmount cryptoId user.wallet.cryptoHoldings) ∧
        (0 ≤ cryptocurrency.availableSupply → 0 ≤ cryptocurrency'.availableSupply)) ∧
    (cryptocurrency.availableSupply < amount →
      (Rounded.postBuy roundDouble uid cryptoId amount db).1 = db ∧
      (∃ status msg,
        (Rounded.postBuy roundDouble uid cryptoId amount db).2 = .failure status msg) ∧
      (0 < amount →
        ¬ user.wallet.balance < roundDouble (amount * cryptocurrency.currentPrice) →
        (Rounded.postBuy roundDouble uid cryptoId amount db).2 =
          .failure 400 "Insufficient cryptocurrency supply")) := by
  have hid : user.id = uid := by simpa using List.find?_some huser
  have hcid : cryptocurrency.id = cryptoId := by simpa using List.find?_some hcrypto
  refine ⟨?_, ?_, ?_⟩
  · intro transaction wallet c hok
    obtain ⟨hamount, hbal, hsup⟩ :=
      rounded_postBuy_ok_checks roundDouble uid cryptoId amount db user cryptocurrency
        transaction wallet c huser hcrypto hok
    subst hid
    subst hcid
    refine ⟨hamount, ?_⟩
    rw [rounded_postBuy_settled roundDouble amount db user cryptocurrency hamount huser hcrypto
      hbal hsup]
    refine ⟨_, _, find_replaceFirst _ _ user db.users huser (by simp),
      find_replaceFirst _ _ cryptocurrency db.cryptocurrencies hcrypto (by simp), ?_, ?_⟩
    · intro hsupply hholding
      cases hfind : user.wallet.cryptoHoldings.find?
          (fun h => h.cryptoId = cryptocurrency.id) with
      | none =>
        simp only [heldAmount_append_new, hsupply.1]
        ring
      | some holding =>
        simp only [modifyFirst_eq_replaceFirst _ _ holding _ hfind,
          heldAmount_replaceFirst _ _ holding _ hfind, hsupply.1, (hholding holding hfind).1]
        ring
    · intro _
      exact roundDouble_nonneg _ (sub_nonneg.mpr (not_lt.mp hsup))
  · intro transaction wallet c hok
    obtain ⟨hamount, holding, hholding, hle⟩ :=
      rounded_postSell_ok_checks roundDouble uid cryptoId amount db user cryptocurrency
        transaction wallet c huser hcrypto hok
    subst hid
    subst hcid
    refine ⟨hamount, ?_⟩
    rw [rounded_postSell_settled roundDouble amount db user cryptocurrency holding hamount huser
      hcrypto hholding hle]
    refine ⟨_, _, find_replaceFirst _ _ user db.users huser (by simp),
      find_replaceFirst _ _ cryptocurrency db.cryptocurrencies hcrypto (by simp), ?_, ?_⟩
    · intro hsupply hexact
      have hh := (hexact holding hholding).1
      simp only [hh, hsupply.1]
      by_cases hzero : holding.amount - amount = 0
      · simp only [hzero, if_true, heldAmount_eraseP _ _ holding hholding]
        have hq : holding.amount = amount := sub_eq_zero.mp hzero
        rw [hq]
        ring
      · simp only [hzero, if_false, modifyFirst_eq_replaceFirst _ _ holding _ hholding,
          heldAmount_replaceFirst _ _ holding _ hholding, hh]
        ring
    · intro hsupply
      exact roundDouble_nonneg _ (add_nonneg hsupply (le_of_lt hamount))
  · intro hsup
    by_cases hamount : amount = 0 ∨ amount ≤ 0
    · refine ⟨by simp [Rounded.postBuy, hamount], ⟨400, "Invalid amount", by
        simp [Rounded.postBuy, hamount]⟩, ?_⟩
      intro hpos
      exact absurd hpos (by
        rcases hamount with h | h
        · simp [h]
        · exact not_lt.mpr h)
    · by_cases hbal : user.wallet.balance < roundDouble (amount * cryptocurrency.currentPrice)
      · refine ⟨by simp [Rounded.postBuy, hamount, huser, hcrypto, hbal],
          ⟨400, "Insufficient balance", by
            simp [Rounded.postBuy, hamount, huser, hcrypto, hbal]⟩, ?_⟩
        intro _ hnot
        exact absurd hbal hnot
      · refine ⟨by simp [Rounded.postBuy, hamount, huser, hcrypto, hbal, hsup],
          ⟨400, "Insufficient cryptocurrency supply", by
            simp [Rounded.postBuy, hamount, huser, hcrypto, hbal, hsup]⟩, ?_⟩
        intro _ _
        simp [Rounded.postBuy, hamount, huser, hcrypto, hbal, hsup]

/-- C21, where the claim fails.  In double arithmetic, with a supply of 10 and
a holding of 0.1, the route settles a buy of 0.2 and leaves the supply
9.800000000000000710 and the holding 0.3000000000000000444 (both sums are
rounded): supply plus holding is no longer what it was. -/
theorem units_not_conserved_doubles :
    IsDouble tenth ∧ IsDouble fifth ∧
    Rounded.postBuy roundDouble "u1" "c1" fifth tenthMarketDb =
      ({ users :=
           [{ id := "u1",
              wallet :=
                { balance := 4397166901801779 / 4398046511104,
                  cryptoHoldings :=
                    [{ cryptoId := "c1", amount := 1351079888211149 / 4503599627370496 }] } }]
         cryptocurrencies :=
           [{ id := "c1", currentPrice := 1,
              availableSupply := 2758454771764429 / 281474976710656 }]
         transactions :=
           [{ userId := "u1", cryptoId := "c1", type := .buy, amount := fifth, price := 1 }] },
       .ok { userId := "u1", cryptoId := "c1", type := .buy, amount := fifth, price := 1 }
         { balance := 4397166901801779 / 4398046511104,
           cryptoHoldings :=
             [{ cryptoId := "c1", amount := 1351079888211149 / 4503599627370496 }] }
         { id := "c1", currentPrice := 1,
           availableSupply := 2758454771764429 / 281474976710656 }) ∧
    (2758454771764429 / 281474976710656 : ℚ) +
        Routes.heldAmount "c1"
          [{ cryptoId := "c1", amount := 1351079888211149 / 4503599627370496 }] ≠
      10 + Routes.heldAmount "c1" [{ cryptoId := "c1", amount := tenth }] := by
  have h1 : ¬ (fifth = 0 ∨ fifth ≤ 0) := by norm_num [fifth]
  have h2 : ¬ (1000 : ℚ) < fifth := by norm_num [fifth]
  have h3 : ¬ (10 : ℚ) < fifth := by norm_num [fifth]
  refine ⟨isDouble_tenth, isDouble_fifth, ?_, ?_⟩
  · simp [Rounded.postBuy, tenthMarketDb, h1, h2, h3, roundDouble_fifth, replaceFirst,
      Routes.modifyFirst, roundDouble_1000_sub_fifth, roundDouble_tenth_add_fifth,
      roundDouble_10_sub_fifth]
  · norm_num [Routes.heldAmount, tenth]

theorem roundDouble_zero : roundDouble 0 = 0 := by
  simp [roundDouble, roundHalfEven]

theorem roundDouble_10 : roundDouble 10 = 10 :=
  roundDouble_of_multiple 10 3 5629499534213120 (by norm_num [abs_of_pos])
    (by norm_num [abs_of_pos]) (by norm_num) (by norm_num)

/-- The market after the buy of 2: balance 800, holding 2, supply 8. -/
theorem rounded_postBuy_marketDb :
    Rounded.postBuy roundDouble "u1" "c1" 2 marketDb =
      (boughtMarketDb,
       .ok { userId := "u1", cryptoId := "c1", type := .buy, amount := 2, price := 100 }
         { balance := 800, cryptoHoldings := [{ cryptoId := "c1", amount := 2 }] }
         { id := "c1", currentPrice := 100, availableSupply := 8 }) := by
  have h1 : roundDouble (2 * 100) = 200 := by
    rw [show (2 * 100 : ℚ) = 200 by norm_num]
    exact roundDouble_200
  have h2 : roundDouble (1000 - 200) = 800 := by
    rw [show (1000 - 200 : ℚ) = 800 by norm_num]
    exact roundDouble_800
  have h3 : roundDouble (10 - 2) = 8 := by
    rw [show (10 - 2 : ℚ) = 8 by norm_num]
    exact roundDouble_8
  have h4 : ¬ (1000 : ℚ) < 200 := by norm_num
  have h5 : ¬ (10 : ℚ) < 2 := by norm_num
  simp [Rounded.postBuy, marketDb, boughtMarketDb, replaceFirst, h1, h2, h3, h4, h5]

/-- The sale of the 2 bought: balance 1000, no holding, supply 10. -/
theorem rounded_postSell_boughtMarketDb :
    Rounded.postSell roundDouble "u1" "c1" 2 boughtMarketDb =
      ({ users := [{ id := "u1", wallet := { balance := 1000, cryptoHoldings := [] } }]
         cryptocurrencies := [{ id := "c1", currentPrice := 100, availableSupply := 10 }]
         transactions :=
           [{ userId := "u1", cryptoId := "c1", type := .buy, amount := 2, price := 100 },
            { userId := "u1", cryptoId := "c1", type := .sell, amount := 2, price := 100 }] },
       .ok { userId := "u1", cryptoId := "c1", type := .sell, amount := 2, price := 100 }
         { balance := 1000, cryptoHoldings := [] }
         { id := "c1", currentPrice := 100, availableSupply := 10 }) := by
  have h1 : roundDouble (2 * 100) = 200 := by
    rw [show (2 * 100 : ℚ) = 200 by norm_num]
    exact roundDouble_200
  have h2 : roundDouble (800 + 200) = 1000 := by
    rw [show (800 + 200 : ℚ) = 1000 by norm_num]
    exact roundDouble_1000
  have h3 : roundDouble (8 + 2) = 10 := by
    rw [show (8 + 2 : ℚ) = 10 by norm_num]
    exact roundDouble_10
  simp [Rounded.postSell, boughtMarketDb, replaceFirst, h1, h2, h3, roundDouble_zero]

theorem isDouble_8 : IsDouble 8 :=
  ⟨roundDouble_8, by norm_num [abs_of_pos]⟩

theorem isDouble_10 : IsDouble 10 :=
  ⟨roundDouble_10, by norm_num [abs_of_pos]⟩

theorem isDouble_zero : IsDouble 0 :=
  ⟨roundDouble_zero, by norm_num⟩

theorem boughtMarketDb_user :
    boughtMarketDb.users.find? (fun u => u.id = "u1") =
      some { id := "u1",
             wallet := { balance := 800,
                         cryptoHoldings := [{ cryptoId := "c1", amount := 2 }] } } := by
  simp [boughtMarketDb]

theorem boughtMarketDb_cryptocurrency :
    boughtMarketDb.cryptocurrencies.find? (fun c => c.id = "c1") =
      some { id := "c1", currentPrice := 100, availableSupply := 8 } := by
  simp [boughtMarketDb]

/-- C21 as amended, an instance.  From a supply of 10 and no holding the buy of
2 leaves supply and holding that add up to 10; the sale of the 2 leaves supply
and holding that add up to 10 again; a buy of 20 is rejected and changes
nothing.  All the numbers are whole, so no update is rounded. -/
theorem units_conserved_doubles_witness :
    marketDb.users.find? (fun u => u.id = "u1") =
      some { id := "u1", wallet := { balance := 1000, cryptoHoldings := [] } } ∧
    marketDb.cryptocurrencies.find? (fun c => c.id = "c1") =
      some { id := "c1", currentPrice := 100, availableSupply := 10 } ∧
    (Rounded.postBuy roundDouble "u1" "c1" 2 marketDb).2 =
      .ok { userId := "u1", cryptoId := "c1", type := .buy, amount := 2, price := 100 }
        { balance := 800, cryptoHoldings := [{ cryptoId := "c1", amount := 2 }] }
        { id := "c1", currentPrice := 100, availableSupply := 8 } ∧
    IsDouble (10 - 2) ∧
    (∃ user' cryptocurrency',
      (Rounded.postBuy roundDouble "u1" "c1" 2 marketDb).1.users.find?
        (fun u => u.id = "u1") = some user' ∧
      (Rounded.postBuy roundDouble "u1" "c1" 2 marketDb).1.cryptocurrencies.find?
        (fun c => c.id = "c1") = some cryptocurrency' ∧
      cryptocurrency'.availableSupply + Routes.heldAmount "c1" user'.wallet.cryptoHoldings =
        10 + Routes.heldAmount "c1" [] ∧
      0 ≤ cryptocurrency'.availableSupply) ∧
    (Rounded.postSell roundDouble "u1" "c1" 2 boughtMarketDb).2 =
      .ok { userId := "u1", cryptoId := "c1", type := .sell, amount := 2, price := 100 }
        { balance := 1000, cryptoHoldings := [] }
        { id := "c1", currentPrice := 100, availableSupply := 10 } ∧
    IsDouble (8 + 2) ∧ IsDouble (2 - 2) ∧
    (∃ user' cryptocurrency',
      (Rounded.postSell roundDouble "u1" "c1" 2 boughtMarketDb).1.users.find?
        (fun u => u.id = "u1") = some user' ∧
      (Rounded.postSell roundDouble "u1" "c1" 2 boughtMarketDb).1.cryptocurrencies.find?
        (fun c => c.id = "c1") = some cryptocurrency' ∧
      cryptocurrency'.availableSupply + Routes.heldAmount "c1" user'.wallet.cryptoHoldings =
        8 + Routes.heldAmount "c1" [{ cryptoId := "c1", amount := 2 }] ∧
      0 ≤ cryptocurrency'.availableSupply) ∧
    (10 : ℚ) < 20 ∧
    (Rounded.postBuy roundDouble "u1" "c1" 20 marketDb).1 = marketDb := by
  have hbuy : (Rounded.postBuy roundDouble "u1" "c1" 2 marketDb).2 =
      .ok { userId := "u1", cryptoId := "c1", type := .buy, amount := 2, price := 100 }
        { balance := 800, cryptoHoldings := [{ cryptoId := "c1", amount := 2 }] }
        { id := "c1", currentPrice := 100, availableSupply := 8 } := by
    rw [rounded_postBuy_marketDb]
  have hsell : (Rounded.postSell roundDouble "u1" "c1" 2 boughtMarketDb).2 =
      .ok { userId := "u1", cryptoId := "c1", type := .sell, amount := 2, price := 100 }
        { balance := 1000, cryptoHoldings := [] }
        { id := "c1", currentPrice := 100, availableSupply := 10 } := by
    rw [rounded_postSell_boughtMarketDb]
  have h8 : IsDouble (10 - 2) := by
    rw [show (10 - 2 : ℚ) = 8 by norm_num]
    exact isDouble_8
  have h10 : IsDouble (8 + 2) := by
    rw [show (8 + 2 : ℚ) = 10 by norm_num]
    exact isDouble_10
  have h0 : IsDouble (2 - 2) := by
    rw [show (2 - 2 : ℚ) = 0 by norm_num]
    exact isDouble_zero
  obtain ⟨_, u1, c1, hu1, hc1, hcons1, hnn1⟩ :=
    (units_conserved_doubles "u1" "c1" 2 marketDb _ _ marketDb_user
      marketDb_cryptocurrency).1 _ _ _ hbuy
  obtain ⟨_, u2, c2, hu2, hc2, hcons2, hnn2⟩ :=
    (units_conserved_doubles "u1" "c1" 2 boughtMarketDb _ _ boughtMarketDb_user
      boughtMarketDb_cryptocurrency).2.1 _ _ _ hsell
  refine ⟨marketDb_user, marketDb_cryptocurrency, hbuy, h8,
    ⟨u1, c1, hu1, hc1, hcons1 h8 (by simp), hnn1 (by norm_num)⟩, hsell, h10, h0,
    ⟨u2, c2, hu2, hc2, hcons2 h10 ?_, hnn2 (by norm_num)⟩, by norm_num,
    ((units_conserved_doubles "u1" "c1" 20 marketDb _ _ marketDb_user
      marketDb_cryptocurrency).2.2 (by norm_num)).1⟩
  intro holding hfind
  have hh : holding = { cryptoId := "c1", amount := 2 } := by
    simpa using hfind.symm
  rw [hh]
  exact h0

/-! ## The two deposit paths -/

/-- The result of the rounded `addFunds` for an amount above zero and a known
user. -/
theorem rounded_addFunds_settled (fl : ℚ → ℚ) (amount : ℚ) (db : Routes.Db)
    (user : Routes.User) (hamount : 0 < amount)
    (huser : db.users.find? (fun u => u.id = user.id) = some user) :
    Rounded.addFunds fl user.id amount db =
      ({ db with
         users := replaceFirst (fun u => u.id = user.id)
           { user with
             wallet := { user.wallet with balance := fl (user.wallet.balance + amount) } }
           db.users },
       .wallet { user.wallet with balance := fl (user.wallet.balance + amount) }) := by
  have h1 : ¬ (amount = 0 ∨ amount ≤ 0) := by
    intro h
    rcases h with h | h
    · exact (ne_of_gt hamount) h
    · exact (not_le.mpr hamount) h
  simp only [Rounded.addFunds, h1, if_false, huser]

/-- C13, where the claim fails.  The route `addFunds` accepts the amount 5,
raises the wallet balance from 1000 to 1005 and records no transaction: the log
is as empty as before.  And `depositFunds` behind `depositValidation` does not
accept the amount 0.5, which is above zero. -/
theorem addFunds_records_no_transaction :
    (0 : ℚ) < 5 ∧
    Rounded.addFunds roundDouble "u1" 5 marketDb =
      ({ users := [{ id := "u1", wallet := { balance := 1005, cryptoHoldings := [] } }]
         cryptocurrencies := [{ id := "c1", currentPrice := 100, availableSupply := 10 }]
         transactions := [] },
       .wallet { balance := 1005, cryptoHoldings := [] }) ∧
    marketDb.transactions = [] ∧
    (Rounded.addFunds roundDouble "u1" 5 marketDb).1.transactions = [] ∧
    (0 : ℚ) < depositHalf.amount ∧
    Rounded.depositFunds roundDouble (depositValidation depositHalf) "u1" depositHalf sampleDb =
      (sampleDb, .invalid ["Amount must be a positive number"]) := by
  have h1 : roundDouble (1000 + 5) = 1005 := by
    rw [show (1000 + 5 : ℚ) = 1005 by norm_num]
    exact roundDouble_1005
  have hadd : Rounded.addFunds roundDouble "u1" 5 marketDb =
      ({ users := [{ id := "u1", wallet := { balance := 1005, cryptoHoldings := [] } }]
         cryptocurrencies := [{ id := "c1", currentPrice := 100, availableSupply := 10 }]
         transactions := [] },
       .wallet { balance := 1005, cryptoHoldings := [] }) := by
    simp [Rounded.addFunds, marketDb, replaceFirst, h1]
  refine ⟨by norm_num, hadd, rfl, by rw [hadd], by norm_num [depositHalf], ?_⟩
  have hval : depositValidation depositHalf = ["Amount must be a positive number"] := by
    simp [depositValidation, depositHalf]
    norm_num
  rw [hval]
  simp [Rounded.depositFunds]

/-- C13, as amended.  In double arithmetic: a deposit that `depositFunds`
accepts, that is a request without a recorded validation error, is answered
`Deposit successful`; the new balance is the sum of the old balance and the
amount (rounded to a double), the wallet collection (every position) is the one
before, and exactly one transaction of type `deposit` with `totalValue = amount`
is appended.  A request with a recorded error changes nothing, and
`depositValidation` records none exactly for an amount of at least 1 with one
of the three payment methods.  The route `addFunds` accepts every numeric
amount above zero: the new wallet balance is the sum of the old one and the
amount (rounded to a double), the holdings are the ones before, and the
transaction log is the one before, so no transaction is recorded; an amount of
zero or less is answered `400 Invalid amount`. -/
theorem deposit_settles_by_path (errors : List String) (uid : String) (body : DepositBody)
    (db : Db) (user : User) (routeUid : String) (amount : ℚ) (routeDb : Routes.Db)
    (routeUser : Routes.User) (huser : findById db.users uid = some user)
    (hrouteUser : routeDb.users.find? (fun u => u.id = routeUid) = some routeUser) :
    (errors.isEmpty = true →
      ∃ transaction,
        (Rounded.depositFunds roundDouble errors uid body db).2 =
          .success "Deposit successful" transaction ∧
        findById (Rounded.depositFunds roundDouble errors uid body db).1.users uid =
          some { user with
            accountBalance := roundDouble (user.accountBalance + body.amount) } ∧
        (Rounded.depositFunds roundDouble errors uid body db).1.wallets = db.wallets ∧
        (Rounded.depositFunds roundDouble errors uid body db).1.transactions =
          db.transactions ++ [transaction] ∧
        transaction.type = .deposit ∧ transaction.totalValue = body.amount) ∧
    (errors.isEmpty = false →
      Rounded.depositFunds roundDouble errors uid body db = (db, .invalid errors)) ∧
    ((depositValidation body).isEmpty = true ↔
      1 ≤ body.amount ∧ body.paymentMethod ∈ ["credit_card", "bank_transfer", "paypal"]) ∧
    (0 < amount →
      (Rounded.addFunds roundDouble routeUid amount routeDb).2 =
        .wallet { balance := roundDouble (routeUser.wallet.balance + amount),
                  cryptoHoldings := routeUser.wallet.cryptoHoldings } ∧
      (Rounded.addFunds roundDouble routeUid amount routeDb).1.users.find?
          (fun u => u.id = routeUid) =
        some { routeUser with
          wallet := { balance := roundDouble (routeUser.wallet.balance + amount),
                      cryptoHoldings := routeUser.wallet.cryptoHoldings } } ∧
      (Rounded.addFunds roundDouble routeUid amount routeDb).1.transactions =
        routeDb.transactions ∧
      (Rounded.addFunds roundDouble routeUid amount routeDb).1.cryptocurrencies =
        routeDb.cryptocurrencies) ∧
    (amount ≤ 0 →
      Rounded.addFunds roundDouble routeUid amount routeDb =
        (routeDb, .failure 400 "Invalid amount")) := by
  refine ⟨?_, ?_, depositValidation_isEmpty body, ?_, ?_⟩
  · intro herr
    rw [rounded_depositFunds_accepted roundDouble errors uid body db user herr huser]
    exact ⟨_, rfl, findById_saveUser huser _, rfl, rfl, rfl, rfl⟩
  · intro herr
    simp [Rounded.depositFunds, herr]
  · intro hamount
    have hid : routeUser.id = routeUid := by simpa using List.find?_some hrouteUser
    subst hid
    rw [rounded_addFunds_settled roundDouble amount routeDb routeUser hamount hrouteUser]
    exact ⟨rfl, find_replaceFirst _ _ routeUser routeDb.users hrouteUser (by simp), rfl, rfl⟩
  · intro hle
    simp [Rounded.addFunds, hle]

/-- C13 as amended, an instance: a deposit of 50 by `paypal` into a balance of
1000 leaves 1050 and records one deposit of 50; the route `addFunds` with 5
raises a wallet balance of 1000 to 1005 and leaves the empty log empty. -/
theorem deposit_settles_by_path_witness :
    findById sampleDb.users "u1" = some { id := "u1", accountBalance := 1000 } ∧
    marketDb.users.find? (fun u => u.id = "u1") =
      some { id := "u1", wallet := { balance := 1000, cryptoHoldings := [] } } ∧
    (depositValidation depositFifty).isEmpty = true ∧
    roundDouble (1000 + 50) = 1050 ∧ roundDouble (1000 + 5) = 1005 ∧
    (∃ transaction,
      (Rounded.depositFunds roundDouble (depositValidation depositFifty) "u1" depositFifty
        sampleDb).2 = .success "Deposit successful" transaction ∧
      findById (Rounded.depositFunds roundDouble (depositValidation depositFifty) "u1"
        depositFifty sampleDb).1.users "u1" =
        some { id := "u1", accountBalance := roundDouble (1000 + depositFifty.amount) } ∧
      (Rounded.depositFunds roundDouble (depositValidation depositFifty) "u1" depositFifty
        sampleDb).1.wallets = sampleDb.wallets ∧
      (Rounded.depositFunds roundDouble (depositValidation depositFifty) "u1" depositFifty
        sampleDb).1.transactions = sampleDb.transactions ++ [transaction] ∧
      transaction.type = .deposit ∧ transaction.totalValue = depositFifty.amount) ∧
    (0 : ℚ) < 5 ∧
    (Rounded.addFunds roundDouble "u1" 5 marketDb).2 =
      .wallet { balance := roundDouble (1000 + 5), cryptoHoldings := [] } ∧
    (Rounded.addFunds roundDouble "u1" 5 marketDb).1.transactions = marketDb.transactions :=
  ⟨findById_sampleDb, marketDb_user, depositValidation_depositFifty,
   by rw [show (1000 + 50 : ℚ) = 1050 by norm_num]; exact roundDouble_1050,
   by rw [show (1000 + 5 : ℚ) = 1005 by norm_num]; exact roundDouble_1005,
   (deposit_settles_by_path (depositValidation depositFifty) "u1" depositFifty sampleDb _ "u1"
     5 marketDb _ findById_sampleDb marketDb_user).1 depositValidation_depositFifty,
   by norm_num,
   ((deposit_settles_by_path (depositValidation depositFifty) "u1" depositFifty sampleDb _
     "u1" 5 marketDb _ findById_sampleDb marketDb_user).2.2.2.1 (by norm_num)).1,
   ((deposit_settles_by_path (depositValidation depositFifty) "u1" depositFifty sampleDb _
     "u1" 5 marketDb _ findById_sampleDb marketDb_user).2.2.2.1 (by norm_num)).2.2.1⟩

/-! ## The upper-cased symbol -/

/-- The model of `toUpperCase` returns the upper-cased string. -/
theorem upperCased_toUpperCase (s : String) : UpperCased s (toUpperCase s) := by
  unfold UpperCased toUpperCase
  simp only
  apply List.map_congr_left
  intro c _
  simp only [Char.toUpper, Char.le_def, Char.toNat]
  rfl

/-- C19.  For symbols of ASCII characters, on which `toUpperCase` is the
method of JavaScript: a buy that `buyCrypto` settles appends exactly one
transaction to the log, of type `buy`, with the upper-cased symbol (every letter
`a` to `z` as its capital, every other character kept), the requested amount,
`price` the price quoted for that symbol and `totalValue = amount * price`; a
sell that `sellCrypto` settles appends exactly one of type `sell` with the same
fields.  A request that is not settled leaves the log as it was.  In both cases
the transactions recorded before are kept, in their order. -/
theorem settlement_appends_one_transaction (quote : Quote) (uid : String) (buyBody : BuyBody)
    (sellBody : SellBody) (db : Db) (hbuy : IsAscii buyBody.symbol)
    (hsell : IsAscii sellBody.symbol) :
    (∀ msg transaction, (buyCrypto quote uid buyBody db).2 = .success msg transaction →
      ∃ symbol coinData, UpperCased buyBody.symbol symbol ∧ quote symbol = some coinData ∧
        transaction =
          { user := uid, type := .buy, symbol := some symbol,
            amount := buyBody.amount, price := some coinData.price,
            totalValue := buyBody.amount * coinData.price,
            paymentMethod := some buyBody.paymentMethod, details := none } ∧
        (buyCrypto quote uid buyBody db).1.transactions = db.transactions ++ [transaction]) ∧
    ((∀ msg transaction, (buyCrypto quote uid buyBody db).2 ≠ .success msg transaction) →
      (buyCrypto quote uid buyBody db).1.transactions = db.transactions) ∧
    (∀ msg transaction, (sellCrypto quote uid sellBody db).2 = .success msg transaction →
      ∃ symbol coinData, UpperCased sellBody.symbol symbol ∧ quote symbol = some coinData ∧
        transaction =
          { user := uid, type := .sell, symbol := some symbol,
            amount := sellBody.amount, price := some coinData.price,
            totalValue := sellBody.amount * coinData.price,
            paymentMethod := none, details := none } ∧
        (sellCrypto quote uid sellBody db).1.transactions = db.transactions ++ [transaction]) ∧
    ((∀ msg transaction, (sellCrypto quote uid sellBody db).2 ≠ .success msg transaction) →
      (sellCrypto quote uid sellBody db).1.transactions = db.transactions) := by
  have _ := hbuy
  have _ := hsell
  refine ⟨?_, ?_, ?_, ?_⟩
  · intro msg transaction hok
    obtain ⟨coinData, hquote⟩ :=
      buyCrypto_success_quote quote uid buyBody db msg transaction hok
    refine ⟨toUpperCase buyBody.symbol, coinData, upperCased_toUpperCase _, hquote, ?_⟩
    simp only [buyCrypto, hquote] at hok ⊢
    by_cases hpm : buyBody.paymentMethod = "balance"
    · simp only [hpm, if_true] at hok ⊢
      cases huser : findById db.users uid with
      | none => simp [huser, serverError] at hok
      | some user =>
        simp only [huser] at hok ⊢
        by_cases hlt : user.accountBalance < coinData.price * buyBody.amount
        · simp [hlt] at hok
        · simp only [hlt, if_false, Response.success.injEq] at hok ⊢
          rw [← hok.2, mul_comm]
          exact ⟨rfl, rfl⟩
    · simp only [hpm, if_false, Response.success.injEq] at hok ⊢
      rw [← hok.2, mul_comm]
      exact ⟨rfl, rfl⟩
  · intro hrej
    rw [buyCrypto_rejected quote uid buyBody db hrej]
  · intro msg transaction hok
    obtain ⟨wallet, coinData, user, hwallet, hlt, hquote, huser⟩ :=
      sellCrypto_success_user quote uid sellBody db msg transaction hok
    refine ⟨toUpperCase sellBody.symbol, coinData, upperCased_toUpperCase _, hquote, ?_⟩
    simp only [sellCrypto, hwallet, hlt, if_false, hquote, huser, Response.success.injEq]
      at hok ⊢
    rw [← hok.2, mul_comm]
    exact ⟨rfl, rfl⟩
  · intro hrej
    unfold sellCrypto at hrej ⊢
    cases hwallet : findOne db.wallets uid (toUpperCase sellBody.symbol) with
    | none => rfl
    | some wallet =>
      simp only [hwallet] at hrej ⊢
      by_cases hlt : wallet.amount < sellBody.amount
      · simp [hlt]
      · cases hquote : quote (toUpperCase sellBody.symbol) with
        | none => simp [hlt]
        | some coinData =>
          cases huser : findById db.users uid with
          | none => simp [hlt]
          | some user => simp [hlt, hquote, huser] at hrej

theorem toUpperCase_btc : toUpperCase "btc" = "BTC" := by decide

theorem toUpperCase_eth : toUpperCase "eth" = "ETH" := by decide

theorem buyCrypto_buyTwoLower :
    buyCrypto quote100 "u1" buyTwoLower sampleDb =
      ({ users := [{ id := "u1", accountBalance := 800 }]
         wallets := [holderWallet]
         transactions := [buyTwoTransaction] },
       .success "Purchase successful" buyTwoTransaction) := by
  simp [buyCrypto, buyTwoLower, quote100, sampleDb, toUpperCase_btc, findById, findOne, saveUser,
    replaceFirst, holderWallet, buyTwoTransaction]
  norm_num

theorem sellCrypto_holder_lower :
    sellCrypto quote100 "u1" { symbol := "btc", amount := 1 } holderDb =
      ({ users := [{ id := "u1", accountBalance := 100 }]
         wallets := [{ holderWallet with amount := 1 }]
         transactions := [sellTransaction 1] },
       .success "Sale successful" (sellTransaction 1)) := by
  simp [sellCrypto, quote100, holderDb, toUpperCase_btc, findById, findOne, saveUser,
    saveWallet, replaceFirst, holderWallet, sellTransaction]
  norm_num

theorem buyCrypto_eth_holderDb :
    buyCrypto quote100 "u1" { symbol := "eth", amount := 1, paymentMethod := "balance" }
      holderDb = (holderDb, serverError) := by
  simp [buyCrypto, quote100, toUpperCase_eth]

theorem sellCrypto_five_holderDb :
    sellCrypto quote100 "u1" { symbol := "btc", amount := 5 } holderDb =
      (holderDb, .failure 400 "Insufficient crypto balance") := by
  simp [sellCrypto, holderDb, toUpperCase_btc, findOne]
  norm_num

/-- C19, an instance, with the symbols in lower case.  The buy of 2 `btc` at
100 appends to the empty log the one transaction that it returns, which carries
the symbol `BTC`; the sale of 1 `btc` by the holder does the same; a buy of
`eth`, which has no quote, and a sale of 5 `btc`, which the holder does not
have, leave the log as it was. -/
theorem settlement_appends_one_transaction_witness :
    IsAscii "btc" ∧ IsAscii "eth" ∧ UpperCased "btc" "BTC" ∧ ¬ UpperCased "btc" "btc" ∧
    (buyCrypto quote100 "u1" buyTwoLower sampleDb).2 =
      .success "Purchase successful" buyTwoTransaction ∧
    buyTwoTransaction.symbol = some "BTC" ∧
    (∃ symbol coinData, UpperCased buyTwoLower.symbol symbol ∧
      quote100 symbol = some coinData ∧
      buyTwoTransaction =
        { user := "u1", type := .buy, symbol := some symbol,
          amount := buyTwoLower.amount, price := some coinData.price,
          totalValue := buyTwoLower.amount * coinData.price,
          paymentMethod := some buyTwoLower.paymentMethod, details := none } ∧
      (buyCrypto quote100 "u1" buyTwoLower sampleDb).1.transactions =
        sampleDb.transactions ++ [buyTwoTransaction]) ∧
    (sellCrypto quote100 "u1" ⟨"btc", 1⟩ holderDb).2 =
      .success "Sale successful" (sellTransaction 1) ∧
    (sellTransaction 1).symbol = some "BTC" ∧
    (∃ symbol coinData, UpperCased "btc" symbol ∧ quote100 symbol = some coinData ∧
      sellTransaction 1 =
        { user := "u1", type := .sell, symbol := some symbol,
          amount := 1, price := some coinData.price, totalValue := 1 * coinData.price,
          paymentMethod := none, details := none } ∧
      (sellCrypto quote100 "u1" ⟨"btc", 1⟩ holderDb).1.transactions =
        holderDb.transactions ++ [sellTransaction 1]) ∧
    (buyCrypto quote100 "u1" ⟨"eth", 1, "balance"⟩ holderDb).1.transactions =
      holderDb.transactions ∧
    (sellCrypto quote100 "u1" ⟨"btc", 5⟩ holderDb).1.transactions = holderDb.transactions :=
  ⟨by decide, by decide, by decide, by decide, by rw [buyCrypto_buyTwoLower], rfl,
   (settlement_appends_one_transaction quote100 "u1" buyTwoLower ⟨"btc", 1⟩ sampleDb
     (by decide) (by decide)).1 "Purchase successful" buyTwoTransaction
     (by rw [buyCrypto_buyTwoLower]),
   by rw [sellCrypto_holder_lower], rfl,
   (settlement_appends_one_transaction quote100 "u1" ⟨"eth", 1, "balance"⟩ ⟨"btc", 1⟩ holderDb
     (by decide) (by decide)).2.2.1 "Sale successful" (sellTransaction 1)
     (by rw [sellCrypto_holder_lower]),
   (settlement_appends_one_transaction quote100 "u1" ⟨"eth", 1, "balance"⟩ ⟨"btc", 5⟩ holderDb
     (by decide) (by decide)).2.1
     (by rw [buyCrypto_eth_holderDb]; intro msg transaction h; simp [serverError] at h),
   (settlement_appends_one_transaction quote100 "u1" ⟨"eth", 1, "balance"⟩ ⟨"btc", 5⟩ holderDb
     (by decide) (by decide)).2.2.2
     (by rw [sellCrypto_five_holderDb]; intro msg transaction h; simp at h)⟩

end CryptoExchange
